import Mathlib

/-!
# dapi: authorization middleware and streaming CRUD handlers

A shallow embedding of `server/server.go`, of the handlers of `server/tokens.go`,
`server/users.go`, `server/perms.go`, `server/user_perms.go` and `server/auth.go`,
of the route table and the router of `server/routes.go`, and of the `Login` and
`Logout` methods of the REST client of `client/client.go`.

Conventions of the embedding.

* A handler is a function from the request to the list of observable effects it
  performs, in program order: backend calls, sends on a save stream, log entries,
  `WriteHeader` calls and values JSON-encoded onto the response body.
* Go values that may be `nil` are `Option`s; a Go `error` is a `GoError`.
* The backend (`ptypes.AuthClient`) is a record of functions. The unary `Auth`
  call takes the number of `Auth` calls already made by the running check, so
  that a backend may fail a few times and then answer.
* A server stream is the list of items it emits followed by the way it ends
  (`io.EOF` or another error); a save stream has in addition the results of its
  `Send` and `CloseSend` calls.
* The bulk-save and save-by-id handlers run two tasks, one that sends and one that
  drains the acknowledgements. Their effects are merged by a schedule, which is a
  parameter of the handler: a statement for every schedule holds under every
  interleaving. What the handler does after `wg.Wait()` comes after both.
* The synchronisation of the two tasks (`wg.Wait()` and `wg.Done()`) is also
  modelled step by step, as a state machine run by a schedule (`Tasks`).
* The response header is observed through the `Header().Set` calls of the
  handlers; what `net/http` fills in by itself is not part of the embedding.
* The effects of a handler are the calls it makes. What the response writer of
  `net/http` sends for them (it rejects some codes, and some statuses carry no
  body) is `written`.
* Packages `dlib`, `dlib/dauth` and `dlib/ptypes` and the JSON decoder are outside
  the source tree. Their record types are modelled from the data model of the
  specification and their marshaling and decoding methods are parameters
  (`Dauth`, `Json`).
-/

set_option linter.dupNamespace false

namespace Dapi

/-! ## Library values (`dlib`, `dlib/ptypes`, `dlib/dauth`) -/

/-- Modelled from the spec: `dlib.Error`, the standard error shape with fields
`code` and `msg`. The type is declared in package `dlib`, outside the source tree. -/
structure DlibError where
  Code : Int
  Msg : String
deriving DecidableEq, Repr

/-- A Go `error` value: `text` is what `err.Error()` returns and `asDlib` is
`some v` exactly when the dynamic type of the value is `*dlib.Error`. -/
structure GoError where
  text : String
  asDlib : Option DlibError := none
deriving DecidableEq, Repr

/-- Modelled from the spec: `dlib.NewError(code, msg)` builds a `*dlib.Error`
with the given code and message. The function is declared in package `dlib`,
outside the source tree; the text of the error is taken to be its message. -/
def NewError (code : Int) (msg : String) : GoError :=
  { text := msg, asDlib := some { Code := code, Msg := msg } }

/-- Modelled from the spec: `dlib.Result`, the result envelope
`{value?, data?, number, message}` together with the error slot read by the
callers of `CheckAuth`. The type is declared in package `dlib`, outside the
source tree. -/
structure Result (V : Type) where
  Val : Option V := none
  Typ : String := ""
  Num : Int := 0
  Msg : String := ""
  Err : Option GoError := none
  Data : Option (List V) := none
deriving DecidableEq, Repr

/-- Modelled from the spec: `dlib.NewErrorResult(err)` is the result that carries
`err` in its error slot and nothing else. The function is declared in package
`dlib`, outside the source tree. -/
def NewErrorResult {V : Type} (err : Option GoError) : Result V :=
  { Err := err }

/-- Modelled from the spec: `dlib.NewResult(ref, val, typ, num, msg, err, data)`
fills the envelope with its arguments (the reference `ref` is not kept). The
function is declared in package `dlib`, outside the source tree. -/
def NewResult {V : Type} (val : Option V) (typ : String) (num : Int) (msg : String)
    (err : Option GoError) (data : Option (List V)) : Result V :=
  { Val := val, Typ := typ, Num := num, Msg := msg, Err := err, Data := data }

/-- Modelled from the spec: `ptypes.TokenRequest`, the backend message for a token
(identifier, token text, owning user, age cutoff). Declared outside the source tree. -/
structure TokenRequest where
  ID : Int := 0
  Token : String := ""
  UserID : Int := 0
  Old : Option Int := none
deriving DecidableEq, Repr

/-- Modelled from the spec: `ptypes.TokenResponse`. Declared outside the source tree. -/
structure TokenResponse where
  ID : Int := 0
  Token : String := ""
  UserID : Int := 0
  Created : Option Int := none
  Expires : Option Int := none
deriving DecidableEq, Repr

/-- Modelled from the spec: `ptypes.UserRequest`. Declared outside the source tree. -/
structure UserRequest where
  ID : Int := 0
  User : String := ""
  Pass : String := ""
deriving DecidableEq, Repr

/-- Modelled from the spec: `ptypes.UserResponse`. Declared outside the source tree. -/
structure UserResponse where
  ID : Int := 0
  User : String := ""
  Pass : String := ""
deriving DecidableEq, Repr

/-- Modelled from the spec: `ptypes.PermRequest`. Declared outside the source tree. -/
structure PermRequest where
  ID : Int := 0
  Service : String := ""
  Name : String := ""
deriving DecidableEq, Repr

/-- Modelled from the spec: `ptypes.PermResponse`. Declared outside the source tree. -/
structure PermResponse where
  ID : Int := 0
  Service : String := ""
  Name : String := ""
deriving DecidableEq, Repr

/-- Modelled from the spec: `ptypes.UserPermRequest`. Declared outside the source tree. -/
structure UserPermRequest where
  ID : Int := 0
  UserID : Int := 0
  PermID : Int := 0
deriving DecidableEq, Repr

/-- Modelled from the spec: `ptypes.UserPermResponse`. Declared outside the source tree. -/
structure UserPermResponse where
  ID : Int := 0
  UserID : Int := 0
  PermID : Int := 0
deriving DecidableEq, Repr

/-- Modelled from the spec: `ptypes.AuthRequest`, a token and the required
permission. Declared outside the source tree. -/
structure AuthRequest where
  Token : Option TokenRequest := none
  Perm : Option PermRequest := none
deriving DecidableEq, Repr

/-- Modelled from the spec: `ptypes.AuthResponse`, the answer of the backend to a
permission check. Declared outside the source tree. -/
structure AuthResponse where
  Ok : Bool := false
  User : Option UserResponse := none
  Perm : Option PermResponse := none
deriving DecidableEq, Repr

/-- Modelled from the spec: `dauth.Token` (opaque identifier, owning user,
creation and expiry timestamps). Declared outside the source tree. -/
structure Token where
  ID : Int := 0
  Token : String := ""
  UserID : Int := 0
  Created : Option Int := none
  Expires : Option Int := none
deriving DecidableEq, Repr

/-- Modelled from the spec: `dauth.User` (identifier, username, secret).
Declared outside the source tree. -/
structure User where
  ID : Int := 0
  User : String := ""
  Pass : String := ""
deriving DecidableEq, Repr

/-- Modelled from the spec: `dauth.Perm`, a (service, name) pair with an optional
identity. Declared outside the source tree. -/
structure Perm where
  ID : Int := 0
  Service : String := ""
  Name : String := ""
deriving DecidableEq, Repr

/-- Modelled from the spec: `dauth.UserPerm`, the link of a user identifier with
a permission identifier. Declared outside the source tree. -/
structure UserPerm where
  ID : Int := 0
  UserID : Int := 0
  PermID : Int := 0
deriving DecidableEq, Repr

/-- The parsed query of a URL (`url.Values`), as key and value pairs. -/
abbrev Values := List (String × String)

/-- The marshaling methods of one resource kind of package `dauth`, which is
outside the source tree: `V` is the record type, `Q` its backend request and `R`
its backend response. A pointer-receiver method that fills its receiver and
returns an `error` is a function from the receiver to the new receiver and the
error. -/
structure Marshal (V Q R : Type) where
  FromQueryValues : V → Values → V × Option GoError
  ToRequest : V → Q
  FromResponse : V → R → V × Option GoError

/-- The marshaling methods of the four resource kinds. -/
structure Dauth where
  token : Marshal Token TokenRequest TokenResponse
  user : Marshal User UserRequest UserResponse
  perm : Marshal Perm PermRequest PermResponse
  userPerm : Marshal UserPerm UserPermRequest UserPermResponse

/-! ## The backend -/

/-- What one unary `Auth` call returns: the pair `(res, err)`. -/
structure AuthReply where
  res : Option AuthResponse := none
  err : Option GoError := none
deriving DecidableEq, Repr

/-- A server stream that terminates: `Recv` returns the members of `items` one
after the other and then reports `fin`, where `none` is `io.EOF` and `some e` is
any other error. -/
structure Stream (R : Type) where
  items : List R
  fin : Option GoError := none
deriving DecidableEq, Repr

/-- A bidirectional save stream that terminates. `send n q` is what the `Send`
call number `n` (from 0) returns for the message `q` and `closeSend` what
`CloseSend` returns, `none` being `nil`. On the receiving side `Recv` returns
the acknowledgements `items` one after the other and then reports `fin`, where
`none` is `io.EOF`. The acknowledgements are fixed with the stream: statements
about every backend quantify over every stream. -/
structure SaveStream (Q R : Type) where
  send : Nat → Q → Option GoError := fun _ _ => none
  closeSend : Option GoError := none
  items : List R := []
  fin : Option GoError := none

/-- Modelled from the spec: `ptypes.DeleteResponse`, the affected-row count of a
unary delete. Declared outside the source tree. -/
structure DeleteResponse where
  Num : Int := 0
deriving DecidableEq, Repr

/-- The methods of `ptypes.AuthClient`. `Auth n req` is the reply to the call made
after `n` earlier `Auth` calls of the same check. Opening a stream either fails or
yields the stream; a unary call either fails or yields its response. -/
structure AuthClient where
  Auth : Nat → AuthRequest → AuthReply
  GetTokens : TokenRequest → Except GoError (Stream TokenResponse)
  GetUsers : UserRequest → Except GoError (Stream UserResponse)
  GetPerms : PermRequest → Except GoError (Stream PermResponse)
  GetUserPerms : UserPermRequest → Except GoError (Stream UserPermResponse)
  SaveTokens : Except GoError (SaveStream TokenRequest TokenResponse)
  SaveUsers : Except GoError (SaveStream UserRequest UserResponse)
  SavePerms : Except GoError (SaveStream PermRequest PermResponse)
  SaveUserPerms : Except GoError (SaveStream UserPermRequest UserPermResponse)
  DeleteTokens : TokenRequest → Except GoError DeleteResponse
  DeleteUsers : UserRequest → Except GoError DeleteResponse
  DeletePerms : PermRequest → Except GoError DeleteResponse
  DeleteUserPerms : UserPermRequest → Except GoError DeleteResponse
  Login : UserRequest → Except GoError TokenResponse
  Logout : TokenRequest → Except GoError TokenResponse

/-- The `Server` value: its backend client (the logger and the router carry no
behaviour of their own here). -/
structure Server where
  Auth : AuthClient

/-! ## Requests and observable effects -/

/-- An HTTP request as the handlers read it: header fields, `URL.Path`,
`URL.Query()`, the route variables of `mux.Vars` and the bytes of the body. -/
structure Request where
  Method : String := "GET"
  Header : List (String × String) := []
  Path : String := "/"
  Query : Values := []
  Vars : List (String × String) := []
  Body : String := ""
deriving DecidableEq, Repr

/-- The method `Header.Get`: the value stored under the key, or the empty string. -/
def Request.HeaderGet (r : Request) (key : String) : String :=
  (r.Header.lookup key).getD ""

/-- The map lookup `mux.Vars(r)[key]`: the value, or the empty string. -/
def Request.Var (r : Request) (key : String) : String :=
  (r.Vars.lookup key).getD ""

/-- A backend call, with the request message it carries. -/
inductive Call where
  | Auth (req : AuthRequest)
  | GetTokens (req : TokenRequest)
  | GetUsers (req : UserRequest)
  | GetPerms (req : PermRequest)
  | GetUserPerms (req : UserPermRequest)
  | SaveTokens
  | SaveUsers
  | SavePerms
  | SaveUserPerms
  | DeleteTokens (req : TokenRequest)
  | DeleteUsers (req : UserRequest)
  | DeletePerms (req : PermRequest)
  | DeleteUserPerms (req : UserPermRequest)
  | Login (req : UserRequest)
  | Logout (req : TokenRequest)
deriving DecidableEq, Repr

/-- A message handed to `Send` on a save stream. -/
inductive Msg where
  | token (req : TokenRequest)
  | user (req : UserRequest)
  | perm (req : PermRequest)
  | userPerm (req : UserPermRequest)
deriving DecidableEq, Repr

/-- The identifier carried by a message. -/
def Msg.id : Msg → Int
  | .token req => req.ID
  | .user req => req.ID
  | .perm req => req.ID
  | .userPerm req => req.ID

/-- A value written to the response body by `json.NewEncoder(w).Encode`. -/
inductive Payload (V : Type) where
  | error (e : DlibError)
  | array (data : List V)
  | object (v : V)
  | envelope (res : Result V)
deriving DecidableEq, Repr

/-- One observable effect of serving a request. -/
inductive Effect (V : Type) where
  | rpc (c : Call)
  | log (err : GoError)
  | setHeader (key value : String)
  | writeHeader (code : Int)
  | encode (p : Payload V)
  | serve
  | send (m : Msg)
  | closeSend
  | serveFile (path : String)
deriving DecidableEq, Repr

/-- An `http.Handler`: the effects of `ServeHTTP` on a request. -/
abbrev Handler (V : Type) := Request → List (Effect V)

/-- The status line of the response: the code of the first `WriteHeader`, or 200
when a body is written before any `WriteHeader`. -/
def status {V : Type} : List (Effect V) → Option Int
  | [] => none
  | .writeHeader code :: _ => some code
  | .encode _ :: _ => some 200
  | _ :: rest => status rest

/-- The values written to the response body, in order. -/
def body {V : Type} : List (Effect V) → List (Payload V)
  | [] => []
  | .encode p :: rest => p :: body rest
  | _ :: rest => body rest

/-- The number of backend `Auth` calls among the effects. -/
def authCalls {V : Type} : List (Effect V) → Nat
  | [] => 0
  | .rpc (.Auth _) :: rest => authCalls rest + 1
  | _ :: rest => authCalls rest

/-- The number of backend calls of any kind among the effects. -/
def backendCalls {V : Type} : List (Effect V) → Nat
  | [] => 0
  | .rpc _ :: rest => backendCalls rest + 1
  | _ :: rest => backendCalls rest

/-- Whether the wrapped handler was invoked. -/
def served {V : Type} : List (Effect V) → Bool
  | [] => false
  | .serve :: _ => true
  | _ :: rest => served rest

/-! ## `server/server.go` -/

/-- The text of the transient failure on which `CheckAuth` retries. -/
def transientText : String :=
  "rpc error: code = Unavailable desc = transport is closing"

/-- How the retry loop of `CheckAuth` ends: by the `return` inside the loop,
after the error result was sent, or by its condition becoming false. -/
inductive LoopExit where
  | returned (retry : Nat) (err : GoError)
  | fell (retry : Nat) (cur : AuthReply)
deriving DecidableEq, Repr

/-- The retry counter with which the loop of `CheckAuth` ends. -/
def LoopExit.retry : LoopExit → Nat
  | .returned retry _ => retry
  | .fell retry _ => retry

/-- The loop `for retry < 10 && err != nil` of `CheckAuth`: `cur` is the current
`(res, err)` and `auth n` the reply to the call made after `n` earlier calls. -/
def CheckAuth.loop (auth : Nat → AuthReply) (retry : Nat) (cur : AuthReply) : LoopExit :=
  if retry < 10 then
    match cur.err with
    | none => .fell retry cur
    | some err =>
      if err.text ≠ transientText then .returned retry err
      else CheckAuth.loop auth (retry + 1) (auth (retry + 1))
  else .fell retry cur
termination_by 10 - retry

/-- One run of the task started by `CheckAuth`: the number of `Auth` calls it
makes and the results it sends on its channel, in order, before closing it. -/
structure CheckRun where
  calls : Nat
  sends : List (Result AuthResponse)
deriving DecidableEq, Repr

/-- The method `Server.CheckAuth`. After the loop, the test
`retry >= 10 || res == nil` is the first arm (`res == nil`) together with the
first branch of the second arm (`retry >= 10`); in both the current `err`, which
may be `nil`, is sent as an error result and the task returns. When `res.Ok` is
false the error result is not followed by a `return`, so the success result is
sent after it. -/
def CheckAuth (s : Server) (req : AuthRequest) : CheckRun :=
  match CheckAuth.loop (fun n => s.Auth.Auth n req) 0 (s.Auth.Auth 0 req) with
  | .returned retry err => { calls := retry + 1, sends := [NewErrorResult (some err)] }
  | .fell retry cur =>
    match cur.res with
    | none => { calls := retry + 1, sends := [NewErrorResult cur.err] }
    | some res =>
      if retry ≥ 10 then { calls := retry + 1, sends := [NewErrorResult cur.err] }
      else if !res.Ok then
        { calls := retry + 1,
          sends := [NewErrorResult (some (NewError 401 "unauthorized user")),
                    NewResult (some res) "result" 0 "authentication successful" none none] }
      else
        { calls := retry + 1,
          sends := [NewResult (some res) "result" 0 "authentication successful" none none] }

/-- The method `Server.RespondWithError`. -/
def RespondWithError {V : Type} (err : GoError) : List (Effect V) :=
  .log err ::
    match err.asDlib with
    | some v => [.writeHeader v.Code, .encode (.error v)]
    | none => [.writeHeader 500, .encode (.error { Code := 500, Msg := err.text })]

/-- The method `Server.RespondNotFound`. -/
def RespondNotFound {V : Type} : List (Effect V) :=
  RespondWithError (NewError 404 "resource not found")

/-- The method `Server.NotFoundHandler`. -/
def NotFoundHandler {V : Type} : Handler V :=
  fun _ => RespondNotFound

/-- The loop `for ar := range ac` of `AuthHandler`: the first result with an
error, if the channel delivers one before it is closed. -/
def firstErr {V : Type} : List (Result V) → Option GoError
  | [] => none
  | ar :: rest =>
    match ar.Err with
    | some err => some err
    | none => firstErr rest

/-- The pieces of a character list between the occurrences of `sep`. -/
def splitChars (sep : Char) : List Char → List (List Char)
  | [] => [[]]
  | c :: cs =>
    if c = sep then [] :: splitChars sep cs
    else
      match splitChars sep cs with
      | [] => [[c]]
      | p :: ps => (c :: p) :: ps

/-- The library function `strings.Split(s, sep)` for a separator of one character:
the substrings of `s` between the occurrences of the separator, so that a string
with `n` separators has `n + 1` pieces. -/
def stringsSplit (s : String) (sep : Char) : List String :=
  (splitChars sep s.toList).map String.mk

/-- The request `areq` that `AuthHandler` builds for the permission check: the
token of the `Token` header and the permission of the route. -/
def AuthHandler.areq (d : Dauth) (perm : Perm) (r : Request) : AuthRequest :=
  let preq := d.perm.ToRequest perm
  { Token := some { Token := r.HeaderGet "Token" }, Perm := some preq }

/-- The method `Server.AuthHandler`. -/
def AuthHandler {V : Type} (s : Server) (d : Dauth) (handler : Handler V) (perm : Perm) :
    Handler V :=
  fun r =>
    let pathparts := stringsSplit r.Path '/'
    if r.HeaderGet "Token" = "" ∨ pathparts.length < 2 then
      RespondWithError (NewError 401 "unauthorized request")
    else
      let areq := AuthHandler.areq d perm r
      let ac := CheckAuth s areq
      List.replicate ac.calls (.rpc (.Auth areq)) ++
        match firstErr ac.sends with
        | some err => RespondWithError err
        | none => .serve :: handler r

/-! ## The read handlers of `tokens.go`, `users.go`, `perms.go`, `user_perms.go` -/

/-- The value of a run of decimal digits, or `none` when a character is not a digit. -/
def digitsValue : List Char → Nat → Option Nat
  | [], acc => some acc
  | c :: cs, acc =>
    if c.isDigit then digitsValue cs (acc * 10 + (c.toNat - 48)) else none

/-- The library call `strconv.ParseInt(s, 10, 64)`: an optional sign followed by at
least one decimal digit, with a value between `-2^63` and `2^63 - 1`; `none` is the
error return. -/
def ParseInt (s : String) : Option Int :=
  match s.toList with
  | [] => none
  | c :: cs =>
    let neg : Bool := c = '-'
    let ds := if c = '+' ∨ c = '-' then cs else c :: cs
    match ds with
    | [] => none
    | _ :: _ =>
      match digitsValue ds 0 with
      | none => none
      | some un =>
        if neg then (if un > 2 ^ 63 then none else some (-(un : Int)))
        else (if un ≥ 2 ^ 63 then none else some (un : Int))

/-- The query step of the list handlers:
`if len(r.URL.Query()) != 0 { err := q.FromQueryValues(r.URL.Query()) }`. -/
def fromQuery {V Q R : Type} (m : Marshal V Q R) (q : V) (r : Request) : V × Option GoError :=
  if r.Query.length ≠ 0 then m.FromQueryValues q r.Query else (q, none)

/-- The receive loop of the list handlers. `items` and `fin` are what the stream
still has to deliver and `data` is the slice accumulated so far; `zero` is the
fresh record each item is converted into and `scrub` what the handler does to the
converted record before appending it. -/
def recvAll {V R : Type} (FromResponse : V → R → V × Option GoError) (zero : V)
    (scrub : V → V) : List R → Option GoError → List V → List (Effect V)
  | [], none, data =>
    if data.length = 0 then RespondNotFound
    else [.writeHeader 200, .encode (.array data)]
  | [], some err, _ => RespondWithError err
  | res :: rest, fin, data =>
    match FromResponse zero res with
    | (_, some err) => RespondWithError err
    | (v, none) => recvAll FromResponse zero scrub rest fin (data ++ [scrub v])

/-- The receive loop of the get-by-id handlers. `v` is the pointer kept by the
handler: `none` until an item was received, then the last converted record. -/
def recvLast {V R : Type} (FromResponse : V → R → V × Option GoError) (zero : V)
    (scrub : V → V) : List R → Option GoError → Option V → List (Effect V)
  | [], none, none => RespondNotFound
  | [], none, some v => [.writeHeader 200, .encode (.object v)]
  | [], some err, _ => RespondWithError err
  | res :: rest, fin, _ =>
    match FromResponse zero res with
    | (_, some err) => RespondWithError err
    | (v, none) => recvLast FromResponse zero scrub rest fin (some (scrub v))

/-- The handler `Server.GetTokens`. -/
def GetTokens (s : Server) (d : Dauth) : Handler Token :=
  fun r =>
    match fromQuery d.token {} r with
    | (_, some err) => RespondWithError err
    | (q, none) =>
      let req := d.token.ToRequest q
      .rpc (.GetTokens req) ::
        match s.Auth.GetTokens req with
        | .error err => RespondWithError err
        | .ok stream => recvAll d.token.FromResponse {} (fun v => v) stream.items stream.fin []

/-- The handler `Server.GetTokenByID`. -/
def GetTokenByID (s : Server) (d : Dauth) : Handler Token :=
  fun r =>
    match ParseInt (r.Var "id") with
    | none => RespondWithError (NewError 400 "invalid id value")
    | some id =>
      let req : TokenRequest := { ID := id }
      .rpc (.GetTokens req) ::
        match s.Auth.GetTokens req with
        | .error err => RespondWithError err
        | .ok stream => recvLast d.token.FromResponse {} (fun v => v) stream.items stream.fin none

/-- The handler `Server.GetUsers`: each converted record has its `Pass` cleared
before it is appended. -/
def GetUsers (s : Server) (d : Dauth) : Handler User :=
  fun r =>
    match fromQuery d.user {} r with
    | (_, some err) => RespondWithError err
    | (q, none) =>
      let req := d.user.ToRequest q
      .rpc (.GetUsers req) ::
        match s.Auth.GetUsers req with
        | .error err => RespondWithError err
        | .ok stream =>
          recvAll d.user.FromResponse {} (fun v => { v with Pass := "" })
            stream.items stream.fin []

/-- The handler `Server.GetUserByID`. -/
def GetUserByID (s : Server) (d : Dauth) : Handler User :=
  fun r =>
    match ParseInt (r.Var "id") with
    | none => RespondWithError (NewError 400 "invalid id value")
    | some id =>
      let req : UserRequest := { ID := id }
      .rpc (.GetUsers req) ::
        match s.Auth.GetUsers req with
        | .error err => RespondWithError err
        | .ok stream =>
          recvLast d.user.FromResponse {} (fun v => { v with Pass := "" })
            stream.items stream.fin none

/-- The handler `Server.GetPerms`. -/
def GetPerms (s : Server) (d : Dauth) : Handler Perm :=
  fun r =>
    match fromQuery d.perm {} r with
    | (_, some err) => RespondWithError err
    | (q, none) =>
      let req := d.perm.ToRequest q
      .rpc (.GetPerms req) ::
        match s.Auth.GetPerms req with
        | .error err => RespondWithError err
        | .ok stream => recvAll d.perm.FromResponse {} (fun v => v) stream.items stream.fin []

/-- The handler `Server.GetPermByID`. -/
def GetPermByID (s : Server) (d : Dauth) : Handler Perm :=
  fun r =>
    match ParseInt (r.Var "id") with
    | none => RespondWithError (NewError 400 "invalid id value")
    | some id =>
      let req : PermRequest := { ID := id }
      .rpc (.GetPerms req) ::
        match s.Auth.GetPerms req with
        | .error err => RespondWithError err
        | .ok stream => recvLast d.perm.FromResponse {} (fun v => v) stream.items stream.fin none

/-- The handler `Server.GetUserPerms`. -/
def GetUserPerms (s : Server) (d : Dauth) : Handler UserPerm :=
  fun r =>
    match fromQuery d.userPerm {} r with
    | (_, some err) => RespondWithError err
    | (q, none) =>
      let req := d.userPerm.ToRequest q
      .rpc (.GetUserPerms req) ::
        match s.Auth.GetUserPerms req with
        | .error err => RespondWithError err
        | .ok stream => recvAll d.userPerm.FromResponse {} (fun v => v) stream.items stream.fin []

/-- The handler `Server.GetUserPermByID`. -/
def GetUserPermByID (s : Server) (d : Dauth) : Handler UserPerm :=
  fun r =>
    match ParseInt (r.Var "id") with
    | none => RespondWithError (NewError 400 "invalid id value")
    | some id =>
      let req : UserPermRequest := { ID := id }
      .rpc (.GetUserPerms req) ::
        match s.Auth.GetUserPerms req with
        | .error err => RespondWithError err
        | .ok stream => recvLast d.userPerm.FromResponse {} (fun v => v) stream.items stream.fin none

/-! ## The write handlers of `tokens.go`, `users.go`, `perms.go`, `user_perms.go` -/

/-- The JSON decoder of one resource kind (`encoding/json` with the field tags of
package `dauth`, both outside the source tree): `Decode body` is the record and the
error left by `dec.Decode(&v)` on a zero record, `DecodeList body` the slice and the
error left by `dec.Decode(&vals)` on an empty slice. -/
structure Decoder (V : Type) where
  Decode : String → V × Option GoError
  DecodeList : String → List V × Option GoError

/-- The JSON decoders of the four resource kinds. -/
structure Json where
  token : Decoder Token
  user : Decoder User
  perm : Decoder Perm
  userPerm : Decoder UserPerm

/-- One interleaving of the effects `xs` of the task that sends and the effects `ys`
of the task that drains the acknowledgements. The schedule says which task moves
next (`true`: the sender); when it runs out the sender finishes first, and a task
that has finished leaves the rest to the other one. -/
def interleave {α : Type} : List Bool → List α → List α → List α
  | [], xs, ys => xs ++ ys
  | true :: _, [], ys => ys
  | true :: sched, x :: xs, ys => x :: interleave sched xs ys
  | false :: _, xs, [] => xs
  | false :: sched, xs, y :: ys => y :: interleave sched xs ys

/-- What the draining task of a bulk-save handler leaves behind when it ends: the
counter, the accumulated slice and what it wrote to the response. -/
structure Drained (V : Type) where
  count : Int
  data : List V
  effects : List (Effect V)

/-- The draining task of the bulk-save handlers: each acknowledgement is converted
into a fresh record (the error of the conversion is not looked at), counted and
appended; `io.EOF` ends the task silently and any other error ends it after
`RespondWithError`. -/
def drainAll {V R : Type} (FromResponse : V → R → V × Option GoError) (zero : V)
    (scrub : V → V) : List R → Option GoError → Int → List V → Drained V
  | [], none, count, data => { count := count, data := data, effects := [] }
  | [], some err, count, data =>
    { count := count, data := data, effects := RespondWithError err }
  | res :: rest, fin, count, data =>
    drainAll FromResponse zero scrub rest fin (count + 1)
      (data ++ [scrub (FromResponse zero res).1])

/-- The draining task of the save-by-id handlers: every acknowledgement is
converted into the same record `val`; the result is the final `val` and what the
task wrote to the response. -/
def drainLast {V R : Type} (FromResponse : V → R → V × Option GoError) (scrub : V → V) :
    List R → Option GoError → V → V × List (Effect V)
  | [], none, val => (val, [])
  | [], some err, val => (val, RespondWithError err)
  | res :: rest, fin, val =>
    drainLast FromResponse scrub rest fin (scrub (FromResponse val res).1)

/-- What a draining task writes when its stream ends with `fin`: nothing on
`io.EOF`, the error response on any other error. -/
def finEffects {V : Type} (fin : Option GoError) : List (Effect V) :=
  match fin with
  | none => []
  | some err => RespondWithError err

/-- The loop `for _, v := range vals` of the bulk-save handlers, from the `Send`
call number `n` on: the sends made, in order, and the error of the send that
failed, if one did. -/
def sendAll {V Q : Type} (ToRequest : V → Q) (mk : Q → Msg) (send : Nat → Q → Option GoError) :
    Nat → List V → List (Effect V) × Option GoError
  | _, [] => ([], none)
  | n, v :: vals =>
    let req := ToRequest v
    match send n req with
    | some err => ([.send (mk req)], some err)
    | none =>
      let rest := sendAll ToRequest mk send (n + 1) vals
      (.send (mk req) :: rest.1, rest.2)

/-- The body shared by the bulk-save handlers `PostTokens`, `PostUsers`,
`PostPerms` and `PostUserPerms`, which differ in the record kind, in the message
of the envelope and, for users, in clearing `Pass` (`scrub`). `decoded` is the
outcome of `dec.Decode(&vals)` and `opened` that of opening the save stream. The
effects of the sending task and of the draining task are interleaved by `sched`;
the envelope is written after `wg.Wait()`, hence after both. -/
def bulkSave {V Q R : Type} (m : Marshal V Q R) (zero : V) (scrub : V → V) (mk : Q → Msg)
    (call : Call) (msg : String) (decoded : List V × Option GoError)
    (opened : Except GoError (SaveStream Q R)) (sched : List Bool) : List (Effect V) :=
  match decoded with
  | (_, some err) => RespondWithError err
  | (vals, none) =>
    .rpc call ::
      match opened with
      | .error err => RespondWithError err
      | .ok stream =>
        let drain := drainAll m.FromResponse zero scrub stream.items stream.fin 0 []
        match sendAll m.ToRequest mk stream.send 0 vals with
        | (sends, some err) => interleave sched (sends ++ RespondWithError err) drain.effects
        | (sends, none) =>
          match stream.closeSend with
          | some err =>
            interleave sched (sends ++ .closeSend :: RespondWithError err) drain.effects
          | none =>
            interleave sched (sends ++ [.closeSend]) drain.effects ++
              [.writeHeader 200,
               .encode (.envelope { Msg := msg, Num := drain.count, Data := some drain.data })]

/-- The body shared by the save-by-id handlers `PutTokenByID`, `PutUserByID`,
`PutPermByID` and `PutUserPermByID`. `idText` is the route variable `id`,
`setID v id` the assignment `v.ID = id`. -/
def saveByID {V Q R : Type} (m : Marshal V Q R) (zero : V) (scrub : V → V)
    (setID : V → Int → V) (mk : Q → Msg) (call : Call) (msg : String) (idText : String)
    (decoded : V × Option GoError) (opened : Except GoError (SaveStream Q R))
    (sched : List Bool) : List (Effect V) :=
  match ParseInt idText with
  | none => RespondWithError (NewError 400 "invalid id value")
  | some id =>
    match decoded with
    | (_, some err) => RespondWithError err
    | (v, none) =>
      .rpc call ::
        match opened with
        | .error err => RespondWithError err
        | .ok stream =>
          let drain := drainLast m.FromResponse scrub stream.items stream.fin zero
          let req := m.ToRequest (setID v id)
          match stream.send 0 req with
          | some err => interleave sched (.send (mk req) :: RespondWithError err) drain.2
          | none =>
            match stream.closeSend with
            | some err =>
              interleave sched (.send (mk req) :: .closeSend :: RespondWithError err) drain.2
            | none =>
              interleave sched [.send (mk req), .closeSend] drain.2 ++
                [.writeHeader 200,
                 .encode (.envelope { Msg := msg, Num := 1, Val := some drain.1 })]

/-- What the delete handlers do with the outcome `(dres, err)` of the unary call. -/
def deleteReply {V : Type} (msg : String) (reply : Except GoError DeleteResponse) :
    List (Effect V) :=
  match reply with
  | .error err => RespondWithError err
  | .ok dres =>
    if dres.Num = 0 then RespondNotFound
    else [.writeHeader 200, .encode (.envelope { Msg := msg, Num := dres.Num })]

/-- The body shared by the delete-by-filter handlers `DeleteTokens`, `DeleteUsers`,
`DeletePerms` and `DeleteUserPerms`. -/
def deleteFilter {V Q R : Type} (m : Marshal V Q R) (call : Q → Call) (msg : String)
    (decoded : V × Option GoError) (del : Q → Except GoError DeleteResponse) :
    List (Effect V) :=
  match decoded with
  | (_, some err) => RespondWithError err
  | (q, none) =>
    let req := m.ToRequest q
    .rpc (call req) :: deleteReply msg (del req)

/-- The body shared by the delete-by-id handlers `DeleteTokenByID`,
`DeleteUserByID`, `DeletePermByID` and `DeleteUserPermByID`. -/
def deleteByID {V Q : Type} (mkReq : Int → Q) (call : Q → Call) (msg : String)
    (idText : String) (del : Q → Except GoError DeleteResponse) : List (Effect V) :=
  match ParseInt idText with
  | none => RespondWithError (NewError 400 "invalid id value")
  | some id =>
    let req := mkReq id
    .rpc (call req) :: deleteReply msg (del req)

/-- The handler `Server.PostTokens`. -/
def PostTokens (s : Server) (d : Dauth) (j : Json) (sched : List Bool) : Handler Token :=
  fun r =>
    bulkSave d.token {} (fun v => v) Msg.token .SaveTokens "Tokens saved"
      (j.token.DecodeList r.Body) s.Auth.SaveTokens sched

/-- The handler `Server.PutTokenByID`. -/
def PutTokenByID (s : Server) (d : Dauth) (j : Json) (sched : List Bool) : Handler Token :=
  fun r =>
    saveByID d.token {} (fun v => v) (fun v id => { v with ID := id }) Msg.token .SaveTokens
      "Token saved" (r.Var "id") (j.token.Decode r.Body) s.Auth.SaveTokens sched

/-- The handler `Server.DeleteTokens`. -/
def DeleteTokens (s : Server) (d : Dauth) (j : Json) : Handler Token :=
  fun r =>
    deleteFilter d.token Call.DeleteTokens "Tokens deleted" (j.token.Decode r.Body) s.Auth.DeleteTokens

/-- The handler `Server.DeleteTokenByID`. -/
def DeleteTokenByID (s : Server) : Handler Token :=
  fun r =>
    deleteByID (fun id => ({ ID := id } : TokenRequest)) Call.DeleteTokens "Token deleted" (r.Var "id")
      s.Auth.DeleteTokens

/-- The handler `Server.PostUsers`. Each acknowledged record has its `Pass` cleared. -/
def PostUsers (s : Server) (d : Dauth) (j : Json) (sched : List Bool) : Handler User :=
  fun r =>
    bulkSave d.user {} (fun v => { v with Pass := "" }) Msg.user .SaveUsers "Users saved"
      (j.user.DecodeList r.Body) s.Auth.SaveUsers sched

/-- The handler `Server.PutUserByID`. Each acknowledged record has its `Pass` cleared. -/
def PutUserByID (s : Server) (d : Dauth) (j : Json) (sched : List Bool) : Handler User :=
  fun r =>
    saveByID d.user {} (fun v => { v with Pass := "" }) (fun v id => { v with ID := id }) Msg.user .SaveUsers
      "User saved" (r.Var "id") (j.user.Decode r.Body) s.Auth.SaveUsers sched

/-- The handler `Server.DeleteUsers`. -/
def DeleteUsers (s : Server) (d : Dauth) (j : Json) : Handler User :=
  fun r =>
    deleteFilter d.user Call.DeleteUsers "Users deleted" (j.user.Decode r.Body) s.Auth.DeleteUsers

/-- The handler `Server.DeleteUserByID`. -/
def DeleteUserByID (s : Server) : Handler User :=
  fun r =>
    deleteByID (fun id => ({ ID := id } : UserRequest)) Call.DeleteUsers "User deleted" (r.Var "id")
      s.Auth.DeleteUsers

/-- The handler `Server.PostPerms`. -/
def PostPerms (s : Server) (d : Dauth) (j : Json) (sched : List Bool) : Handler Perm :=
  fun r =>
    bulkSave d.perm {} (fun v => v) Msg.perm .SavePerms "Permissions saved"
      (j.perm.DecodeList r.Body) s.Auth.SavePerms sched

/-- The handler `Server.PutPermByID`. -/
def PutPermByID (s : Server) (d : Dauth) (j : Json) (sched : List Bool) : Handler Perm :=
  fun r =>
    saveByID d.perm {} (fun v => v) (fun v id => { v with ID := id }) Msg.perm .SavePerms
      "Permission saved" (r.Var "id") (j.perm.Decode r.Body) s.Auth.SavePerms sched

/-- The handler `Server.DeletePerms`. -/
def DeletePerms (s : Server) (d : Dauth) (j : Json) : Handler Perm :=
  fun r =>
    deleteFilter d.perm Call.DeletePerms "Permissions deleted" (j.perm.Decode r.Body) s.Auth.DeletePerms

/-- The handler `Server.DeletePermByID`. -/
def DeletePermByID (s : Server) : Handler Perm :=
  fun r =>
    deleteByID (fun id => ({ ID := id } : PermRequest)) Call.DeletePerms "Permission deleted" (r.Var "id")
      s.Auth.DeletePerms

/-- The handler `Server.PostUserPerms`. -/
def PostUserPerms (s : Server) (d : Dauth) (j : Json) (sched : List Bool) : Handler UserPerm :=
  fun r =>
    bulkSave d.userPerm {} (fun v => v) Msg.userPerm .SaveUserPerms "User permissions saved"
      (j.userPerm.DecodeList r.Body) s.Auth.SaveUserPerms sched

/-- The handler `Server.PutUserPermByID`. -/
def PutUserPermByID (s : Server) (d : Dauth) (j : Json) (sched : List Bool) : Handler UserPerm :=
  fun r =>
    saveByID d.userPerm {} (fun v => v) (fun v id => { v with ID := id }) Msg.userPerm .SaveUserPerms
      "User permission saved" (r.Var "id") (j.userPerm.Decode r.Body) s.Auth.SaveUserPerms sched

/-- The handler `Server.DeleteUserPerms`. -/
def DeleteUserPerms (s : Server) (d : Dauth) (j : Json) : Handler UserPerm :=
  fun r =>
    deleteFilter d.userPerm Call.DeleteUserPerms "User permissions deleted" (j.userPerm.Decode r.Body) s.Auth.DeleteUserPerms

/-- The handler `Server.DeleteUserPermByID`. -/
def DeleteUserPermByID (s : Server) : Handler UserPerm :=
  fun r =>
    deleteByID (fun id => ({ ID := id } : UserPermRequest)) Call.DeleteUserPerms "User permission deleted" (r.Var "id")
      s.Auth.DeleteUserPerms

/-- The wrap-around of 64-bit signed arithmetic. -/
def wrapInt64 (x : Int) : Int :=
  Int.emod (x + 2 ^ 63) (2 ^ 64) - 2 ^ 63

/-- The request built by `DeleteTokensOld` for the path value `age`. `midnight` is
the Unix time of `time.Date(Now.Year, Now.Month, Now.Day, 0, 0, 0, 0, time.Local)`,
read from the clock of the server. `oh := age * -24` and
`time.Hour * time.Duration(oh)` are 64-bit products, the second one in
nanoseconds, and `Add` followed by `Unix` moves the seconds by the whole seconds
of that duration, rounded down. -/
def DeleteTokensOld.req (midnight age : Int) : TokenRequest :=
  let oh := wrapInt64 (age * -24)
  let old := midnight + Int.fdiv (wrapInt64 (3600000000000 * oh)) 1000000000
  { Old := some old }

/-- The handler `Server.DeleteTokensOld`, with the clock reading `midnight`. -/
def DeleteTokensOld (s : Server) (midnight : Int) : Handler Token :=
  fun r =>
    match ParseInt (r.Var "age") with
    | none => RespondWithError (NewError 400 "invalid id value")
    | some age =>
      let req := DeleteTokensOld.req midnight age
      .rpc (.DeleteTokens req) :: deleteReply "Old tokens deleted" (s.Auth.DeleteTokens req)

/-! ## `server/auth.go` -/

/-- The handler `Server.Login`. -/
def Login (s : Server) (d : Dauth) (j : Json) : Handler Token :=
  fun r =>
    match j.user.Decode r.Body with
    | (_, some err) => RespondWithError err
    | (u, none) =>
      let req := d.user.ToRequest u
      .rpc (.Login req) ::
        match s.Auth.Login req with
        | .error err => RespondWithError err
        | .ok res =>
          match d.token.FromResponse {} res with
          | (_, some err) => RespondWithError err
          | (t, none) => [.writeHeader 200, .encode (.object t)]

/-- The handler `Server.Logout`. -/
def Logout (s : Server) (d : Dauth) (j : Json) : Handler Token :=
  fun r =>
    match j.token.Decode r.Body with
    | (_, some err) => RespondWithError err
    | (t, none) =>
      let req := d.token.ToRequest t
      .rpc (.Logout req) ::
        match s.Auth.Logout req with
        | .error err => RespondWithError err
        | .ok res =>
          match d.token.FromResponse {} res with
          | (_, some err) => RespondWithError err
          | (tk, none) => [.writeHeader 200, .encode (.object tk)]

/-! ## Projections of the effects -/

/-- The messages handed to `Send`, in order. -/
def sent {V : Type} : List (Effect V) → List Msg
  | [] => []
  | .send m :: rest => m :: sent rest
  | _ :: rest => sent rest

/-- The operations on the send side of the stream, in order: `some m` for
`Send(m)` and `none` for `CloseSend`. -/
def sendSide {V : Type} : List (Effect V) → List (Option Msg)
  | [] => []
  | .send m :: rest => some m :: sendSide rest
  | .closeSend :: rest => none :: sendSide rest
  | _ :: rest => sendSide rest

/-- The codes handed to `WriteHeader`, in order. -/
def writeHeaders {V : Type} : List (Effect V) → List Int
  | [] => []
  | .writeHeader code :: rest => code :: writeHeaders rest
  | _ :: rest => writeHeaders rest

/-- Whether an effect writes to the response: `WriteHeader` or `Encode`. -/
def Effect.isWrite {V : Type} : Effect V → Bool
  | .writeHeader _ => true
  | .encode _ => true
  | _ => false

/-- What is written to the response, in order. -/
def writes {V : Type} (es : List (Effect V)) : List (Effect V) :=
  es.filter Effect.isWrite

/-- The body value of an effect. -/
def Effect.encoded {V : Type} : Effect V → Option (Payload V)
  | .encode p => some p
  | _ => none

/-- The message of a send. -/
def Effect.sentMsg {V : Type} : Effect V → Option Msg
  | .send m => some m
  | _ => none

/-- The send-side operation of an effect. -/
def Effect.sendOp {V : Type} : Effect V → Option (Option Msg)
  | .send m => some (some m)
  | .closeSend => some none
  | _ => none

/-- The code of a `WriteHeader`. -/
def Effect.headerCode {V : Type} : Effect V → Option Int
  | .writeHeader code => some code
  | _ => none

/-- The call of a backend call. -/
def Effect.called {V : Type} : Effect V → Option Call
  | .rpc c => some c
  | _ => none

/-! ## The remaining handlers and the router (`server.go`, `auth.go`, `routes.go`) -/

/-- The content type set by `Header`. -/
def jsonType : String :=
  "application/json; charset=UTF-8"

/-- The method `Server.Header`: the wrapped handler runs after `Content-Type` was
set on the response header. -/
def Header {V : Type} (handler : Handler V) : Handler V :=
  fun r => .setHeader "Content-Type" jsonType :: handler r

/-- Modelled from the spec: `dlib.ServiceInfo`, the description of the service
written by the index route. Declared outside the source tree. -/
structure ServiceInfo where
  Name : String := ""
  Short : String := ""
  Long : String := ""
  Version : String := ""
deriving DecidableEq, Repr

/-- The variable `lib.ServiceInfo` of `lib/rfapi.go`. -/
def libServiceInfo : ServiceInfo :=
  { Name := "dapi",
    Short := "Royal Farms Application Programming Interface",
    Long := "Provides a unified interface for interacting will all Royal Farms services.",
    Version := "1.0.1" }

/-- The handler `Server.GetIndex`. -/
def GetIndex : Handler ServiceInfo :=
  fun _ => [.writeHeader 200, .encode (.object libServiceInfo)]

/-- The handler `Server.GetDocs`; `stat path` says whether `os.Stat(path)` succeeds.
What `http.ServeFile` writes is kept as one effect. -/
def GetDocs (stat : String → Bool) : Handler Unit :=
  fun _ =>
    .setHeader "Content-Type" "text/html; charset=UTF-8" ::
      if stat "docs/docs.html" then [.serveFile "docs/docs.html"]
      else if stat "../docs/docs.html" then [.serveFile "../docs/docs.html"]
      else RespondNotFound

/-- The handler `Server.GetIcon`. -/
def GetIcon (stat : String → Bool) : Handler Unit :=
  fun _ =>
    .setHeader "Content-Type" "image/x-icon" ::
      if stat "docs/favicon.ico" then [.serveFile "docs/favicon.ico"]
      else if stat "../docs/favicon.ico" then [.serveFile "../docs/favicon.ico"]
      else RespondNotFound

/-- The method `Values.Get`: the first value stored under the key, or the empty
string. -/
def Request.QueryGet (r : Request) (key : String) : String :=
  (r.Query.lookup key).getD ""

/-- The request built by `Authenticate` from the query of the URL. -/
def Authenticate.req (r : Request) : AuthRequest :=
  { Token := some { Token := r.QueryGet "token" },
    Perm := some { Service := r.QueryGet "service", Name := r.QueryGet "name" } }

/-- The loop `for ar := range ch` of `Authenticate`. A result with an error ends
the handler with the error response; a result whose value is an `AuthResponse`
ends it with the converted user, written as it is; any other result is skipped,
and when the channel is closed the handler answers 500. `nilUser` is what
`u.FromResponse(nil)` leaves, for a response without user. -/
def Authenticate.recv (d : Dauth) (nilUser : User × Option GoError) :
    List (Result AuthResponse) → List (Effect User)
  | [] => RespondWithError (NewError 500 "invalid authentication resposnse")
  | ar :: rest =>
    match ar.Err with
    | some err => RespondWithError err
    | none =>
      match ar.Val with
      | some v =>
        match (match v.User with
          | some user => d.user.FromResponse {} user
          | none => nilUser) with
        | (_, some err) => RespondWithError err
        | (u, none) => [.writeHeader 200, .encode (.object u)]
      | none => Authenticate.recv d nilUser rest

/-- The handler `Server.Authenticate`. -/
def Authenticate (s : Server) (d : Dauth) (nilUser : User × Option GoError) : Handler User :=
  fun r =>
    let req := Authenticate.req r
    let ch := CheckAuth s req
    List.replicate ch.calls (.rpc (.Auth req)) ++ Authenticate.recv d nilUser ch.sends

/-- What the handlers of the route table depend on besides the server: the
marshaling and decoding methods, the schedule of the two tasks of a save, the
clock reading of `DeleteTokensOld`, the file system of the docs routes and the
conversion of a missing user. -/
structure Deps where
  dauth : Dauth
  json : Json
  sched : List Bool
  midnight : Int
  stat : String → Bool
  nilUser : User × Option GoError

/-- The type `Route`; `V` is the kind of record the handler writes. -/
structure Route where
  Service : String
  Name : String
  Path : String
  Method : String
  Auth : Bool
  V : Type
  HandlerFunc : Handler V

/-- The method `Server.GetRoutes`. -/
def GetRoutes (s : Server) (w : Deps) : List Route :=
  [ { Service := "dapi", Name := "index", Path := "/", Method := "GET",
      Auth := false, V := ServiceInfo, HandlerFunc := GetIndex },
    { Service := "dapi", Name := "docs", Path := "/docs", Method := "GET",
      Auth := false, V := Unit, HandlerFunc := GetDocs w.stat },
    { Service := "dapi", Name := "icon", Path := "/favicon.ico", Method := "GET",
      Auth := false, V := Unit, HandlerFunc := GetIcon w.stat },
    { Service := "dauth", Name := "GetTokens", Path := "/dauth/tokens", Method := "GET",
      Auth := true, V := Token, HandlerFunc := GetTokens s w.dauth },
    { Service := "dauth", Name := "GetTokens", Path := "/dauth/tokens/\x7bid\x7d", Method := "GET",
      Auth := true, V := Token, HandlerFunc := GetTokenByID s w.dauth },
    { Service := "dauth", Name := "SaveTokens", Path := "/dauth/tokens", Method := "POST",
      Auth := true, V := Token, HandlerFunc := PostTokens s w.dauth w.json w.sched },
    { Service := "dauth", Name := "SaveTokens", Path := "/dauth/tokens/\x7bid\x7d", Method := "PUT",
      Auth := true, V := Token, HandlerFunc := PutTokenByID s w.dauth w.json w.sched },
    { Service := "dauth", Name := "DeleteTokens", Path := "/dauth/tokens/old", Method := "DELETE",
      Auth := true, V := Token, HandlerFunc := DeleteTokensOld s w.midnight },
    { Service := "dauth", Name := "DeleteTokens", Path := "/dauth/tokens/old/\x7bage\x7d", Method := "DELETE",
      Auth := true, V := Token, HandlerFunc := DeleteTokensOld s w.midnight },
    { Service := "dauth", Name := "DeleteTokens", Path := "/dauth/tokens/\x7bid\x7d", Method := "DELETE",
      Auth := true, V := Token, HandlerFunc := DeleteTokenByID s },
    { Service := "dauth", Name := "DeleteTokens", Path := "/dauth/tokens\x7d", Method := "DELETE",
      Auth := true, V := Token, HandlerFunc := DeleteTokens s w.dauth w.json },
    { Service := "dauth", Name := "GetUsers", Path := "/dauth/users", Method := "GET",
      Auth := true, V := User, HandlerFunc := GetUsers s w.dauth },
    { Service := "dauth", Name := "GetUsers", Path := "/dauth/users/\x7bid\x7d", Method := "GET",
      Auth := true, V := User, HandlerFunc := GetUserByID s w.dauth },
    { Service := "dauth", Name := "SaveUsers", Path := "/dauth/users", Method := "POST",
      Auth := true, V := User, HandlerFunc := PostUsers s w.dauth w.json w.sched },
    { Service := "dauth", Name := "SaveUsers", Path := "/dauth/users/\x7bid\x7d", Method := "PUT",
      Auth := true, V := User, HandlerFunc := PutUserByID s w.dauth w.json w.sched },
    { Service := "dauth", Name := "DeleteUsers", Path := "/dauth/users/\x7bid\x7d", Method := "DELETE",
      Auth := true, V := User, HandlerFunc := DeleteUserByID s },
    { Service := "dauth", Name := "DeleteUsers", Path := "/dauth/users", Method := "DELETE",
      Auth := true, V := User, HandlerFunc := DeleteUsers s w.dauth w.json },
    { Service := "dauth", Name := "GetPerms", Path := "/dauth/perms", Method := "GET",
      Auth := true, V := Perm, HandlerFunc := GetPerms s w.dauth },
    { Service := "dauth", Name := "GetPerms", Path := "/dauth/perms/\x7bid\x7d", Method := "GET",
      Auth := true, V := Perm, HandlerFunc := GetPermByID s w.dauth },
    { Service := "dauth", Name := "SavePerms", Path := "/dauth/perms", Method := "POST",
      Auth := true, V := Perm, HandlerFunc := PostPerms s w.dauth w.json w.sched },
    { Service := "dauth", Name := "SavePerms", Path := "/dauth/perms/\x7bid\x7d", Method := "PUT",
      Auth := true, V := Perm, HandlerFunc := PutPermByID s w.dauth w.json w.sched },
    { Service := "dauth", Name := "DeletePerms", Path := "/dauth/perms/\x7bid\x7d", Method := "DELETE",
      Auth := true, V := Perm, HandlerFunc := DeletePermByID s },
    { Service := "dauth", Name := "DeletePerms", Path := "/dauth/perms", Method := "DELETE",
      Auth := true, V := Perm, HandlerFunc := DeletePerms s w.dauth w.json },
    { Service := "dauth", Name := "GetUserPerms", Path := "/dauth/userperms", Method := "GET",
      Auth := true, V := UserPerm, HandlerFunc := GetUserPerms s w.dauth },
    { Service := "dauth", Name := "GetUserPerms", Path := "/dauth/userperms/\x7bid\x7d", Method := "GET",
      Auth := true, V := UserPerm, HandlerFunc := GetUserPermByID s w.dauth },
    { Service := "dauth", Name := "SaveUserPerms", Path := "/dauth/userperms", Method := "POST",
      Auth := true, V := UserPerm, HandlerFunc := PostUserPerms s w.dauth w.json w.sched },
    { Service := "dauth", Name := "SaveUserPerms", Path := "/dauth/userperms/\x7bid\x7d", Method := "PUT",
      Auth := true, V := UserPerm, HandlerFunc := PutUserPermByID s w.dauth w.json w.sched },
    { Service := "dauth", Name := "DeleteUserPerms", Path := "/dauth/userperms/\x7bid\x7d", Method := "DELETE",
      Auth := true, V := UserPerm, HandlerFunc := DeleteUserPermByID s },
    { Service := "dauth", Name := "DeleteUserPerms", Path := "/dauth/userperms", Method := "DELETE",
      Auth := true, V := UserPerm, HandlerFunc := DeleteUserPerms s w.dauth w.json },
    { Service := "dauth", Name := "Auth", Path := "/dauth/auth", Method := "GET",
      Auth := true, V := User, HandlerFunc := Authenticate s w.dauth w.nilUser },
    { Service := "dauth", Name := "Login", Path := "/dauth/login", Method := "POST",
      Auth := false, V := Token, HandlerFunc := Login s w.dauth w.json },
    { Service := "dauth", Name := "Logout", Path := "/dauth/logout", Method := "POST",
      Auth := false, V := Token, HandlerFunc := Logout s w.dauth w.json } ]

/-- The handler that the loop of `InitRouter` registers for a route: the handler
of the route wrapped by `Header` and then, for a route with `Auth`, by
`AuthHandler` with the permission of the route. -/
def InitRouter.handler (s : Server) (d : Dauth) (route : Route) : Handler route.V :=
  let handler := route.HandlerFunc
  let handler := Header handler
  if route.Auth then
    AuthHandler s d handler { Service := route.Service, Name := route.Name }
  else handler

/-- A route registered with the router: method, path template, name, handler. -/
structure Entry where
  Method : String
  Path : String
  Name : String
  V : Type
  Handler : Handler V

/-- The router built by `InitRouter`: the registered routes, in order, and the
handler for requests that match none. How `mux` matches a request against the
templates is not part of the embedding. -/
structure Router where
  routes : List Entry
  NotFoundHandler : Handler Unit

/-- The method `Server.InitRouter`. -/
def InitRouter (s : Server) (w : Deps) : Router :=
  { routes := (GetRoutes s w).map (fun route =>
      { Method := route.Method, Path := route.Path, Name := route.Name, V := route.V,
        Handler := InitRouter.handler s w.dauth route }),
    NotFoundHandler := NotFoundHandler }

/-- A route of the table that binds the method and the path template to the
handler, behind the permission check. -/
def Route.Serves (route : Route) (method path : String) {V : Type} (h : Handler V) : Prop :=
  route.Method = method ∧ route.Path = path ∧ route.Auth = true ∧
    (⟨route.V, route.HandlerFunc⟩ : (V : Type) × Handler V) = ⟨V, h⟩

/-- The table of `GetRoutes` has a protected route for the method and the path
template, bound to the handler. -/
def Routed (s : Server) (w : Deps) (method path : String) {V : Type} (h : Handler V) : Prop :=
  ∃ route ∈ GetRoutes s w, route.Serves method path h

/-- The `Content-Type` in the response header when the response starts to be
written (`WriteHeader`, a body value or `ServeFile`), `cur` being the value so
far; `none` when the handlers have not set it. -/
def contentTypeAt {V : Type} : Option String → List (Effect V) → Option String
  | cur, [] => cur
  | cur, .setHeader key value :: rest =>
    if key = "Content-Type" then contentTypeAt (some value) rest else contentTypeAt cur rest
  | cur, .writeHeader _ :: _ => cur
  | cur, .encode _ :: _ => cur
  | cur, .serveFile _ :: _ => cur
  | cur, _ :: rest => contentTypeAt cur rest

/-- The `Content-Type` of the response of a trace. -/
def contentType {V : Type} (t : List (Effect V)) : Option String :=
  contentTypeAt none t

/-- The header field set by an effect. -/
def Effect.headerSet {V : Type} : Effect V → Option (String × String)
  | .setHeader key value => some (key, value)
  | _ => none

/-- The header fields set, in order. -/
def headersSet {V : Type} (t : List (Effect V)) : List (String × String) :=
  t.filterMap Effect.headerSet

/-- The user records carried by a body value. -/
def Payload.users : Payload User → List User
  | .error _ => []
  | .array data => data
  | .object v => [v]
  | .envelope res => res.Val.toList ++ (res.Data.getD [])

/-- No user record written to the body of the response carries a secret. -/
def Scrubbed (t : List (Effect User)) : Prop :=
  ∀ p ∈ body t, ∀ u ∈ p.users, u.Pass = ""

/-! ## The two tasks of a save handler, step by step -/

/-- Where the sending task of a save handler stands: making its `Send` and
`CloseSend` calls and then waiting in `wg.Wait()`; past `wg.Wait()`, between the
first and the last read of the accumulator for the envelope; or finished, with
the envelope built or after the return that follows a failed call. -/
inductive Phase where
  | calling
  | reading
  | finished
deriving DecidableEq, Repr

/-- The state shared by the sending task and the draining task of a bulk-save or
save-by-id handler, from the start of the draining task on. `calls` are the
outcomes (`true` for `nil`) of the `Send` and `CloseSend` calls still to make,
`pending` the acknowledgements not yet received, `done` whether the draining task
has called `wg.Done()`, `acc` the accumulator it writes (`count` and `data`, or
`val`), `first` the accumulator as the sending task first read it for the
envelope, `built` the two reads the envelope was built from, and `raced` whether
the accumulator was written after the sending task began to read it. -/
structure Tasks (A R : Type) where
  calls : List Bool
  phase : Phase
  first : Option A
  built : Option (A × A)
  pending : List R
  done : Bool
  acc : A
  raced : Bool

/-- One step of the sending task: the next `Send` or `CloseSend`, after which a
failure ends the handler; `wg.Wait()`, which lets the task pass only after
`wg.Done()` and is followed by the first read of the accumulator; the last read,
which completes the envelope. -/
def Tasks.sender {A R : Type} (st : Tasks A R) : Tasks A R :=
  match st.phase with
  | .finished => st
  | .reading =>
    { st with built := st.first.map (fun a => (a, st.acc)), phase := .finished }
  | .calling =>
    match st.calls with
    | true :: rest => { st with calls := rest }
    | false :: _ => { st with phase := .finished }
    | [] => if st.done then { st with first := some st.acc, phase := .reading } else st

/-- One step of the draining task: `Recv` returns the next acknowledgement, which
is added to the accumulator by `add`, or it returns an error (`io.EOF` or
another), after which the task calls `wg.Done()` and ends. -/
def Tasks.drainer {A R : Type} (add : A → R → A) (st : Tasks A R) : Tasks A R :=
  if st.done then st
  else
    match st.pending with
    | x :: rest =>
      { st with pending := rest, acc := add st.acc x, raced := st.raced || st.first.isSome }
    | [] => { st with done := true }

/-- The run of the two tasks under a schedule (`true`: the sending task moves). -/
def Tasks.run {A R : Type} (add : A → R → A) : List Bool → Tasks A R → Tasks A R
  | [], st => st
  | b :: sched, st => Tasks.run add sched (if b then st.sender else st.drainer add)

/-- The state in which the draining task is started. -/
def Tasks.init {A R : Type} (calls : List Bool) (items : List R) (acc : A) : Tasks A R :=
  { calls := calls, phase := .calling, first := none, built := none, pending := items,
    done := false, acc := acc, raced := false }

/-- The accumulation step of the draining task of a bulk save, on `count` and
`data`. -/
def addAll {V R : Type} (FromResponse : V → R → V × Option GoError) (zero : V)
    (scrub : V → V) (acc : Int × List V) (res : R) : Int × List V :=
  (acc.1 + 1, acc.2 ++ [scrub (FromResponse zero res).1])

/-- The accumulation step of the draining task of a save by id, on `val`. -/
def addLast {V R : Type} (FromResponse : V → R → V × Option GoError) (scrub : V → V)
    (val : V) (res : R) : V :=
  scrub (FromResponse val res).1

/-- What holds of every state the two tasks reach from `Tasks.init calls items acc`:
the accumulator is the fold of the acknowledgements received so far, the
draining task ends only at the end of the stream, the sending task reads the
accumulator only after the draining task has ended, and no write follows such a
read. -/
structure Tasks.Inv {A R : Type} (add : A → R → A) (items : List R) (acc : A)
    (st : Tasks A R) : Prop where
  received : ∃ pre, items = pre ++ st.pending ∧ st.acc = pre.foldl add acc
  drained : st.done = true → st.pending = []
  read : ∀ a, st.first = some a → st.done = true ∧ a = items.foldl add acc
  built : ∀ a1 a2, st.built = some (a1, a2) →
    st.done = true ∧ a1 = items.foldl add acc ∧ a2 = items.foldl add acc
  quiet : st.raced = false

/-- The steps the sending task has left before the envelope is built, when its
calls succeed and the draining task has ended. -/
def Tasks.left {A R : Type} (st : Tasks A R) : Nat :=
  match st.phase with
  | .finished => 0
  | .reading => 1
  | .calling => st.calls.length + 2

/-- What holds of every state the two tasks reach when none of the `n` calls of
the sending task fails: the calls left succeed, and the sending task is past a
read only with the value it read. -/
structure Tasks.Live {A R : Type} (n : Nat) (st : Tasks A R) : Prop where
  calls : ∀ b ∈ st.calls, b = true
  short : st.calls.length ≤ n
  reading : st.phase = .reading → st.first.isSome = true
  finished : st.phase = .finished → st.built.isSome = true

/-! ## `client/client.go` -/

/-- The answer of the authentication endpoint as the client reads it. -/
structure HttpResponse where
  StatusCode : Int
  Body : String
deriving DecidableEq, Repr

/-- What the REST client uses from `net/http` and `encoding/json`, both outside
the source tree: the error of `http.NewRequest`, the outcome of `Client.Do` (for
the method, the URL and the body), the JSON encodings of the user and of the
token, and the decoders of the standard error and of the token (the latter
writes through the pointer `&rc.Token`). -/
structure Http where
  NewRequest : String → String → String → Option GoError
  Do : String → String → String → Except GoError HttpResponse
  EncodeUser : User → String
  EncodeToken : Token → String
  DecodeError : String → DlibError × Option GoError
  DecodeToken : Option Token → String → Option Token × Option GoError

/-- The type `RESTClient` (the HTTP client itself is the `Http` record). -/
structure RESTClient where
  URL : String := ""
  AuthURL : String := ""
  Token : Option Dapi.Token := none
  User : Option Dapi.User := none
deriving DecidableEq, Repr

/-- The method `RESTClient.Login`: the client afterwards and the results put on
the channel, in order, before it is closed. -/
def RESTClient.Login (h : Http) (rc : RESTClient) (user : Option Dapi.User) :
    RESTClient × List (Result Unit) :=
  let rc := { rc with User := user }
  match rc.User with
  | none => (rc, [NewErrorResult (some (NewError 400 "no user provided for client login"))])
  | some u =>
    let b := h.EncodeUser u
    match h.NewRequest "POST" (rc.AuthURL ++ "/login") b with
    | some err => (rc, [NewErrorResult (some err)])
    | none =>
      match h.Do "POST" (rc.AuthURL ++ "/login") b with
      | .error err => (rc, [NewErrorResult (some err)])
      | .ok res =>
        if res.StatusCode ≠ 200 then
          match h.DecodeError res.Body with
          | (_, some err) => (rc, [NewErrorResult (some err)])
          | (_, none) => (rc, [NewErrorResult none])
        else
          match h.DecodeToken rc.Token res.Body with
          | (token, some err) => ({ rc with Token := token }, [NewErrorResult (some err)])
          | (token, none) =>
            ({ rc with Token := token },
             [NewResult none "msg" 0 "login completed" none none])

/-- The method `RESTClient.Logout`. -/
def RESTClient.Logout (h : Http) (rc : RESTClient) : RESTClient × List (Result Unit) :=
  let completed : RESTClient × List (Result Unit) :=
    ({ rc with Token := none }, [NewResult none "msg" 0 "logout completed" none none])
  match rc.Token with
  | none => completed
  | some token =>
    let b := h.EncodeToken token
    match h.NewRequest "POST" (rc.AuthURL ++ "/logout") b with
    | some err => (rc, [NewErrorResult (some err)])
    | none =>
      match h.Do "POST" (rc.AuthURL ++ "/logout") b with
      | .error err => (rc, [NewErrorResult (some err)])
      | .ok res =>
        if res.StatusCode ≠ 200 then
          match h.DecodeError res.Body with
          | (_, some err) => (rc, [NewErrorResult (some err)])
          | (_, none) => (rc, [NewErrorResult none])
        else completed

/-! ## The response writer of `net/http` -/

/-- The library check `checkWriteHeaderCode` of `net/http`, outside the source
tree: `WriteHeader` accepts a code between 100 and 999 and panics for any other. -/
def checkWriteHeaderCode (code : Int) : Bool :=
  decide (100 ≤ code ∧ code ≤ 999)

/-- The informational codes of `net/http`: a `WriteHeader` with a code between 100
and 199 other than 101 sends an interim header and leaves the status of the
response to a later call. -/
def informational (code : Int) : Bool :=
  decide (100 ≤ code ∧ code ≤ 199 ∧ code ≠ 101)

/-- The library function `bodyAllowedForStatus` of `net/http`: a response with a
status between 100 and 199, 204 or 304 has no body, and `Write` fails for it. -/
def bodyAllowedForStatus (status : Int) : Bool :=
  !(decide (100 ≤ status ∧ status ≤ 199) || decide (status = 204) || decide (status = 304))

/-- What the response writer of the server has sent when a task that writes the
response ends: the status line, the body values, and whether the task ended in a
panic of `WriteHeader`. -/
structure Response (V : Type) where
  StatusCode : Option Int := none
  Body : List (Payload V) := []
  Panicked : Bool := false
deriving DecidableEq, Repr

/-- The response writer of `net/http` run on the effects of one task, `cur` being
the status line sent so far. A `WriteHeader` after the status line is ignored; the
first one panics for a code the library rejects, which ends the task with nothing
sent, sends an interim header for an informational code, and otherwise sends the
status line. A body value is written after the status line, which is 200 if none
was sent, unless the status allows no body. -/
def written {V : Type} : Option Int → List (Effect V) → Response V
  | cur, [] => { StatusCode := cur }
  | some c, .writeHeader _ :: rest => written (some c) rest
  | none, .writeHeader code :: rest =>
    if !checkWriteHeaderCode code then { Panicked := true }
    else if informational code then written none rest
    else written (some code) rest
  | cur, .encode p :: rest =>
    let c := cur.getD 200
    let res := written (some c) rest
    if bodyAllowedForStatus c then { res with Body := p :: res.Body } else res
  | cur, _ :: rest => written cur rest

/-! ## Response shapes -/

/-- The trace of a delete whose unary call `call` succeeded with the affected count
`c`: for `c = 0` the not-found response, status 404; otherwise status 200 and one
envelope with the message `msg` and the number `c`, without value and data. -/
def DeletedWith {V : Type} (t : List (Effect V)) (call : Call) (msg : String) (c : Int) :
    Prop :=
  (c = 0 →
    t = .rpc call :: RespondNotFound ∧ status t = some 404 ∧
    body t = [.error { Code := 404, Msg := "resource not found" }]) ∧
  (c ≠ 0 →
    t = [.rpc call, .writeHeader 200,
         .encode (.envelope { Msg := msg, Num := c, Val := none, Data := none })] ∧
    status t = some 200 ∧
    body t = [.envelope { Msg := msg, Num := c, Val := none, Data := none }])

/-- The trace of a handler that rejects the path identifier: the error response
for "invalid id value" alone, status 400, no backend call and nothing sent. -/
def RejectsID {V : Type} (t : List (Effect V)) : Prop :=
  t = RespondWithError (NewError 400 "invalid id value") ∧ status t = some 400 ∧
  body t = [.error { Code := 400, Msg := "invalid id value" }] ∧
  backendCalls t = 0 ∧ sent t = []

/-- The trace of a handler whose body failed to decode with the error `e`: the
error response for `e` alone, no backend call and nothing sent; the status is the
code of `e` when `e` is a `*dlib.Error` and 500 otherwise. -/
def FailsDecode {V : Type} (t : List (Effect V)) (e : GoError) : Prop :=
  t = RespondWithError e ∧ backendCalls t = 0 ∧ sent t = [] ∧
  status t = some (match e.asDlib with | some v => v.Code | none => 500) ∧
  (e.asDlib = none →
    status t = some 500 ∧ body t = [.error { Code := 500, Msg := e.text }])

/-- The response of a bulk save that acknowledged the records `data`: status 200,
one `WriteHeader`, and one envelope with the message `msg`, the number of
acknowledgements and the acknowledgements as data, without value. -/
def Acknowledged {V : Type} (t : List (Effect V)) (msg : String) (data : List V) : Prop :=
  status t = some 200 ∧ writeHeaders t = [200] ∧
  body t = [.envelope { Msg := msg, Num := data.length, Data := some data, Val := none }]

/-- The response of a save by id that left the record `val`: status 200, one
`WriteHeader`, and one envelope with the message `msg`, the number 1 and `val` as
value, without data. -/
def SavedOne {V : Type} (t : List (Effect V)) (msg : String) (val : V) : Prop :=
  status t = some 200 ∧ writeHeaders t = [200] ∧
  body t = [.envelope { Msg := msg, Num := 1, Val := some val, Data := none }]

/-! ## Concrete collaborators used to run the handlers -/

namespace Sample

/-- A marshaling table that copies fields and never fails. -/
def dauth : Dauth :=
  { token :=
      { FromQueryValues := fun v _ => (v, none),
        ToRequest := fun v => { ID := v.ID, Token := v.Token, UserID := v.UserID },
        FromResponse := fun _ x =>
          ({ ID := x.ID, Token := x.Token, UserID := x.UserID,
             Created := x.Created, Expires := x.Expires }, none) },
    user :=
      { FromQueryValues := fun v _ => (v, none),
        ToRequest := fun v => { ID := v.ID, User := v.User, Pass := v.Pass },
        FromResponse := fun _ x => ({ ID := x.ID, User := x.User, Pass := x.Pass }, none) },
    perm :=
      { FromQueryValues := fun v _ => (v, none),
        ToRequest := fun v => { ID := v.ID, Service := v.Service, Name := v.Name },
        FromResponse := fun _ x => ({ ID := x.ID, Service := x.Service, Name := x.Name }, none) },
    userPerm :=
      { FromQueryValues := fun v _ => (v, none),
        ToRequest := fun v => { ID := v.ID, UserID := v.UserID, PermID := v.PermID },
        FromResponse := fun _ x =>
          ({ ID := x.ID, UserID := x.UserID, PermID := x.PermID }, none) } }

/-- The transient transport error, as the RPC layer reports it (not a `*dlib.Error`). -/
def closing : GoError :=
  { text := transientText }

/-- A backend whose first `n` `Auth` calls fail with the transient error and whose
later `Auth` calls return `last`; its streams are empty. -/
def closingThen (n : Nat) (last : AuthReply) : AuthClient :=
  { Auth := fun i _ => if i < n then { err := some closing } else last,
    GetTokens := fun _ => .ok { items := [] },
    GetUsers := fun _ => .ok { items := [] },
    GetPerms := fun _ => .ok { items := [] },
    GetUserPerms := fun _ => .ok { items := [] },
    SaveTokens := .ok {},
    SaveUsers := .ok {},
    SavePerms := .ok {},
    SaveUserPerms := .ok {},
    DeleteTokens := fun _ => .ok {},
    DeleteUsers := fun _ => .ok {},
    DeletePerms := fun _ => .ok {},
    DeleteUserPerms := fun _ => .ok {},
    Login := fun _ => .ok {},
    Logout := fun _ => .ok {} }

/-- A backend whose every `Auth` call fails with the transient error. -/
def alwaysClosing : AuthClient :=
  { closingThen 0 {} with Auth := fun _ _ => { err := some closing } }

/-- An error of the backend that is not the transient one. -/
def denied : GoError :=
  { text := "rpc error: code = PermissionDenied desc = denied" }

/-- A backend whose every `Auth` call fails with the error `denied`. -/
def alwaysDenied : AuthClient :=
  { closingThen 0 {} with Auth := fun _ _ => { err := some denied } }

/-- A backend with records: every stream emits its records and then `io.EOF`. -/
def store : AuthClient :=
  { Auth := fun _ _ => { res := some { Ok := true } },
    GetTokens := fun _ => .ok { items := [{ ID := 1, Token := "test", UserID := 1 }] },
    GetUsers := fun _ =>
      .ok { items := [{ ID := 1, User := "test", Pass := "secret" },
                      { ID := 2, User := "other", Pass := "hidden" }] },
    GetPerms := fun _ => .ok { items := [{ ID := 1, Service := "test", Name := "test" }] },
    GetUserPerms := fun _ => .ok { items := [{ ID := 1, UserID := 1, PermID := 1 }] },
    SaveTokens := .ok { items := [{ ID := 1, Token := "test", UserID := 1 }] },
    SaveUsers := .ok { items := [{ ID := 1, User := "test", Pass := "secret" }] },
    SavePerms := .ok { items := [{ ID := 1, Service := "test", Name := "test" }] },
    SaveUserPerms := .ok { items := [{ ID := 1, UserID := 1, PermID := 1 }] },
    DeleteTokens := fun _ => .ok { Num := 1 },
    DeleteUsers := fun _ => .ok { Num := 1 },
    DeletePerms := fun _ => .ok { Num := 1 },
    DeleteUserPerms := fun _ => .ok { Num := 1 },
    Login := fun _ => .ok { ID := 1, Token := "test", UserID := 1 },
    Logout := fun _ => .ok { Token := "logout" } }

/-- The error of a stream that breaks. -/
def reset : GoError :=
  { text := "rpc error: code = Internal desc = stream reset" }

/-- A backend whose streams emit one record and then break with `reset`. -/
def broken : AuthClient :=
  { Auth := fun _ _ => { res := some { Ok := true } },
    GetTokens := fun _ =>
      .ok { items := [{ ID := 1, Token := "test", UserID := 1 }], fin := some reset },
    GetUsers := fun _ =>
      .ok { items := [{ ID := 1, User := "test", Pass := "secret" }], fin := some reset },
    GetPerms := fun _ =>
      .ok { items := [{ ID := 1, Service := "test", Name := "test" }], fin := some reset },
    GetUserPerms := fun _ =>
      .ok { items := [{ ID := 1, UserID := 1, PermID := 1 }], fin := some reset },
    SaveTokens := .ok { items := [{ ID := 1, Token := "test", UserID := 1 }], fin := some reset },
    SaveUsers :=
      .ok { items := [{ ID := 1, User := "test", Pass := "secret" }], fin := some reset },
    SavePerms :=
      .ok { items := [{ ID := 1, Service := "test", Name := "test" }], fin := some reset },
    SaveUserPerms := .ok { items := [{ ID := 1, UserID := 1, PermID := 1 }], fin := some reset },
    DeleteTokens := fun _ => .error reset,
    DeleteUsers := fun _ => .error reset,
    DeletePerms := fun _ => .error reset,
    DeleteUserPerms := fun _ => .error reset,
    Login := fun _ => .error reset,
    Logout := fun _ => .error reset }

/-- A request for the record with the route variable `id = 1`. -/
def byID : Request :=
  { Header := [("Token", "t")], Path := "/dauth/users/1", Vars := [("id", "1")] }

/-- A JSON decoder for the runs below: the empty body gives `io.EOF`, as
`Decode` does on an empty input; the body `one` holds the record with id 1 and the
body `list` the array of the records with ids 1 and 2. -/
def decoder {V : Type} (mk : Int → V) : Decoder V :=
  { Decode := fun body =>
      if body = "one" then (mk 1, none) else (mk 0, some { text := "EOF" }),
    DecodeList := fun body =>
      if body = "list" then ([mk 1, mk 2], none) else ([], some { text := "EOF" }) }

/-- The decoders of the four kinds. -/
def json : Json :=
  { token := decoder (fun id => { ID := id }),
    user := decoder (fun id => { ID := id }),
    perm := decoder (fun id => { ID := id }),
    userPerm := decoder (fun id => { ID := id }) }

/-- A request that posts the array `list`. -/
def post : Request :=
  { Method := "POST", Header := [("Token", "t")], Path := "/dauth/users", Body := "list" }

/-- A request that puts the record `one` under the route variable `id = 7`. -/
def put : Request :=
  { Method := "PUT", Header := [("Token", "t")], Path := "/dauth/users/7",
    Vars := [("id", "7")], Body := "one" }

/-- A request with an empty body. -/
def emptyBody : Request :=
  { Method := "POST", Header := [("Token", "t")], Path := "/dauth/users",
    Vars := [("id", "7")] }

/-- A request whose route variable `id` is not a number. -/
def badID : Request :=
  { Method := "PUT", Header := [("Token", "t")], Path := "/dauth/users/x",
    Vars := [("id", "x")], Body := "one" }

/-- A request that deletes by the filter `one`. -/
def delete : Request :=
  { Method := "DELETE", Header := [("Token", "t")], Path := "/dauth/users",
    Vars := [("id", "1"), ("age", "99")], Body := "one" }

/-- A backend whose save streams refuse the first `Send` with `reset`. -/
def refusing : AuthClient :=
  { store with
    SaveTokens := .ok { send := fun n _ => if n = 0 then some reset else none },
    SaveUsers := .ok { send := fun n _ => if n = 0 then some reset else none },
    SavePerms := .ok { send := fun n _ => if n = 0 then some reset else none },
    SaveUserPerms := .ok { send := fun n _ => if n = 0 then some reset else none } }

/-- A save stream that accepts everything and acknowledges nothing. -/
def silent : SaveStream UserRequest UserResponse :=
  {}

/-- A backend whose user save stream is `silent`. -/
def unacknowledging : AuthClient :=
  { store with SaveUsers := .ok silent }

/-- The dependencies of the route table for the runs below: no docs on disk. -/
def deps : Deps :=
  { dauth := dauth, json := json, sched := [], midnight := 1000000000,
    stat := fun _ => false, nilUser := ({}, none) }

/-- A backend that grants every permission and whose answer carries the user with
its secret. -/
def granting : AuthClient :=
  { store with
    Auth := fun _ _ =>
      { res := some { Ok := true, User := some { ID := 1, User := "test", Pass := "secret" } } } }

/-- A request for `/dauth/auth` with its query. -/
def authQuery : Request :=
  { Path := "/dauth/auth", Query := [("token", "t"), ("service", "dauth"), ("name", "GetUsers")] }

/-- A request for `/dauth/users` without the `Token` header. -/
def anonymous : Request :=
  { Path := "/dauth/users" }

/-- The route of the table for `GET /dauth/users`. -/
def usersRoute (s : Server) : Route :=
  { Service := "dauth", Name := "GetUsers", Path := "/dauth/users", Method := "GET",
    Auth := true, V := User, HandlerFunc := GetUsers s dauth }

/-- An authentication endpoint that rejects the credentials: status 401 with the
standard error body, which the decoder reads without error. -/
def rejecting : Http :=
  { NewRequest := fun _ _ _ => none,
    Do := fun _ _ _ => .ok { StatusCode := 401, Body := "unauthorized" },
    EncodeUser := fun u => u.User,
    EncodeToken := fun t => t.Token,
    DecodeError := fun body => ({ Code := 401, Msg := body }, none),
    DecodeToken := fun cur _ => (cur, none) }

/-- A client that holds a token from an earlier login. -/
def client : RESTClient :=
  { AuthURL := "https://auth", Token := some { ID := 1, Token := "old" } }

/-- A request for `/dauth/users` carrying the token `t`. -/
def request : Request :=
  { Header := [("Token", "t")], Path := "/dauth/users" }

/-- The permission of a route. -/
def perm : Perm :=
  { Service := "dauth", Name := "users" }

/-- A terminal handler that answers 200 with an empty user list. -/
def terminal : Handler User :=
  fun _ => [.writeHeader 200, .encode (.array [])]

end Sample

/-! ## Facts about effects -/

theorem status_rpcs {V : Type} (n : Nat) (c : Call) (rest : List (Effect V)) :
    status (List.replicate n (.rpc c) ++ rest) = status rest := by
  induction n with
  | zero => simp
  | succ n ih => simpa [List.replicate_succ, status] using ih

theorem body_rpcs {V : Type} (n : Nat) (c : Call) (rest : List (Effect V)) :
    body (List.replicate n (.rpc c) ++ rest) = body rest := by
  induction n with
  | zero => simp
  | succ n ih => simpa [List.replicate_succ, body] using ih

theorem served_rpcs {V : Type} (n : Nat) (c : Call) (rest : List (Effect V)) :
    served (List.replicate n (.rpc c) ++ rest) = served rest := by
  induction n with
  | zero => simp
  | succ n ih => simpa [List.replicate_succ, served] using ih

theorem authCalls_rpcs {V : Type} (n : Nat) (a : AuthRequest) (rest : List (Effect V)) :
    authCalls (List.replicate n (.rpc (.Auth a)) ++ rest) = n + authCalls rest := by
  induction n with
  | zero => simp
  | succ n ih => simp [List.replicate_succ, authCalls, ih]; omega

theorem status_respondWithError {V : Type} (err : GoError) :
    status (RespondWithError err : List (Effect V)) =
      some (match err.asDlib with | some v => v.Code | none => 500) := by
  unfold RespondWithError
  cases err.asDlib <;> simp [status]

theorem served_respondWithError {V : Type} (err : GoError) :
    served (RespondWithError err : List (Effect V)) = false := by
  unfold RespondWithError
  cases err.asDlib <;> simp [served]

theorem authCalls_respondWithError {V : Type} (err : GoError) :
    authCalls (RespondWithError err : List (Effect V)) = 0 := by
  unfold RespondWithError
  cases err.asDlib <;> simp [authCalls]

theorem backendCalls_respondWithError {V : Type} (err : GoError) :
    backendCalls (RespondWithError err : List (Effect V)) = 0 := by
  unfold RespondWithError
  cases err.asDlib <;> simp [backendCalls]

/-! ## The retry loop -/

theorem loop_retry_le (auth : Nat → AuthReply) (retry : Nat) (cur : AuthReply)
    (h : retry ≤ 10) : (CheckAuth.loop auth retry cur).retry ≤ 10 := by
  generalize hn : 10 - retry = n
  induction n generalizing retry cur with
  | zero =>
    have : retry = 10 := by omega
    subst this
    unfold CheckAuth.loop
    simp [LoopExit.retry]
  | succ n ih =>
    unfold CheckAuth.loop
    have hlt : retry < 10 := by omega
    simp only [hlt, if_true]
    cases hc : cur.err with
    | none => simp [LoopExit.retry, h]
    | some err =>
      by_cases ht : err.text ≠ transientText
      · simp [ht, LoopExit.retry, h]
      · simp only [ht, if_false]
        exact ih (retry + 1) _ (by omega) (by omega)

/-- After `k ≤ 10` transient failures the loop ends with the reply of call `k`,
when that reply carries no error or when `k = 10`. -/
theorem loop_fell (auth : Nat → AuthReply) (k : Nat) (hk : k ≤ 10)
    (hfail : ∀ i, i < k → ∃ e, (auth i).err = some e ∧ e.text = transientText)
    (hlast : k < 10 → (auth k).err = none) (j : Nat) (hj : j ≤ k) :
    CheckAuth.loop auth j (auth j) = .fell k (auth k) := by
  generalize hn : k - j = n
  induction n generalizing j with
  | zero =>
    have : j = k := by omega
    subst this
    unfold CheckAuth.loop
    by_cases hlt : j < 10
    · simp [hlt, hlast hlt]
    · simp [hlt]
  | succ n ih =>
    have hjk : j < k := by omega
    obtain ⟨e, he, het⟩ := hfail j hjk
    unfold CheckAuth.loop
    have hlt : j < 10 := by omega
    simp only [hlt, if_true, he, het, ne_eq, not_true_eq_false, if_false]
    exact ih (j + 1) (by omega) (by omega)

/-- Every call after the first follows a call that failed with the transient text. -/
theorem loop_retry_only_transient (auth : Nat → AuthReply) (retry : Nat) (cur : AuthReply)
    (hcur : cur = auth retry) (i : Nat) (hi : retry ≤ i)
    (hlt : i < (CheckAuth.loop auth retry cur).retry) :
    ∃ e, (auth i).err = some e ∧ e.text = transientText := by
  generalize hn : 10 - retry = n
  induction n generalizing retry cur with
  | zero =>
    unfold CheckAuth.loop at hlt
    have h10 : ¬ retry < 10 := by omega
    simp [h10, LoopExit.retry] at hlt
    omega
  | succ n ih =>
    unfold CheckAuth.loop at hlt
    have h10 : retry < 10 := by omega
    simp only [h10, if_true] at hlt
    cases hc : cur.err with
    | none =>
      rw [hc] at hlt
      simp [LoopExit.retry] at hlt
      omega
    | some err =>
      rw [hc] at hlt
      by_cases ht : err.text ≠ transientText
      · simp [ht, LoopExit.retry] at hlt
        omega
      · simp only [ht, if_false] at hlt
        by_cases hir : i = retry
        · subst hir
          exact ⟨err, by rw [← hcur, hc], by simpa using ht⟩
        · exact ih (retry + 1) _ rfl (by omega) hlt (by omega)

theorem checkAuth_calls (s : Server) (req : AuthRequest) :
    (CheckAuth s req).calls =
      (CheckAuth.loop (fun n => s.Auth.Auth n req) 0 (s.Auth.Auth 0 req)).retry + 1 := by
  unfold CheckAuth
  cases hl : CheckAuth.loop (fun n => s.Auth.Auth n req) 0 (s.Auth.Auth 0 req) with
  | returned retry err => simp [LoopExit.retry]
  | fell retry cur =>
    cases hr : cur.res with
    | none => simp [hr, LoopExit.retry]
    | some res =>
      simp only [hr, LoopExit.retry]
      split_ifs <;> rfl

/-- The run of `CheckAuth` after `k ≤ 10` transient failures followed by a reply
that carries no error (or any reply at all when `k = 10`). -/
theorem checkAuth_after_transient (s : Server) (req : AuthRequest) (k : Nat) (hk : k ≤ 10)
    (hfail : ∀ i, i < k → ∃ e, (s.Auth.Auth i req).err = some e ∧ e.text = transientText)
    (hlast : k < 10 → (s.Auth.Auth k req).err = none) :
    CheckAuth s req =
      match (s.Auth.Auth k req).res with
      | none => { calls := k + 1, sends := [NewErrorResult (s.Auth.Auth k req).err] }
      | some res =>
        if k ≥ 10 then { calls := k + 1, sends := [NewErrorResult (s.Auth.Auth k req).err] }
        else if !res.Ok then
          { calls := k + 1,
            sends := [NewErrorResult (some (NewError 401 "unauthorized user")),
                      NewResult (some res) "result" 0 "authentication successful" none none] }
        else
          { calls := k + 1,
            sends := [NewResult (some res) "result" 0 "authentication successful" none none] } := by
  have hl := loop_fell (fun n => s.Auth.Auth n req) k hk hfail hlast 0 (Nat.zero_le k)
  unfold CheckAuth
  rw [hl]

/-! ## The permission gate: `CheckAuth` and `AuthHandler` -/

/-- C1 (`AuthHandler` with `CheckAuth`), evaluated at a failing run. The backend
fails ten times with the transient text and answers the eleventh call, without
error, with `Ok = false`: the check sends a result without error, and the handler
of the route is invoked although the answer that ended the check denies the
permission. -/
theorem authHandler_serves_denied_after_ten_transient :
    (∀ i, i < 10 →
      ((Sample.closingThen 10 { res := some { Ok := false } }).Auth i
        (AuthHandler.areq Sample.dauth Sample.perm Sample.request)).err = some Sample.closing) ∧
    (Sample.closingThen 10 { res := some { Ok := false } }).Auth 10
        (AuthHandler.areq Sample.dauth Sample.perm Sample.request) =
      { res := some { Ok := false }, err := none } ∧
    Sample.request.HeaderGet "Token" = "t" ∧
    (CheckAuth { Auth := Sample.closingThen 10 { res := some { Ok := false } } }
        (AuthHandler.areq Sample.dauth Sample.perm Sample.request)).sends =
      [NewErrorResult none] ∧
    served (AuthHandler { Auth := Sample.closingThen 10 { res := some { Ok := false } } }
        Sample.dauth Sample.terminal Sample.perm Sample.request) = true ∧
    status (AuthHandler { Auth := Sample.closingThen 10 { res := some { Ok := false } } }
        Sample.dauth Sample.terminal Sample.perm Sample.request) = some 200 := by
  have hrun := checkAuth_after_transient
    { Auth := Sample.closingThen 10 { res := some { Ok := false } } }
    (AuthHandler.areq Sample.dauth Sample.perm Sample.request) 10 (le_refl 10)
    (fun i hi => ⟨Sample.closing, by simp [Sample.closingThen, hi], rfl⟩)
    (fun h => absurd h (by decide))
  have hsends : (CheckAuth { Auth := Sample.closingThen 10 { res := some { Ok := false } } }
      (AuthHandler.areq Sample.dauth Sample.perm Sample.request)) =
      { calls := 11, sends := [NewErrorResult none] } := by
    rw [hrun]
    simp [Sample.closingThen]
  refine ⟨fun i hi => by simp [Sample.closingThen, hi], by simp [Sample.closingThen],
    by decide, by rw [hsends], ?_, ?_⟩
  · have hguard : ¬ (Sample.request.HeaderGet "Token" = "" ∨
        (stringsSplit Sample.request.Path '/').length < 2) := by decide
    simp only [AuthHandler, hguard, if_false, hsends, served_rpcs]
    simp [firstErr, NewErrorResult, served]
  · have hguard : ¬ (Sample.request.HeaderGet "Token" = "" ∨
        (stringsSplit Sample.request.Path '/').length < 2) := by decide
    simp only [AuthHandler, hguard, if_false, hsends, status_rpcs]
    simp [firstErr, NewErrorResult, status, Sample.terminal]

/-- C2: a request whose `Token` header is missing or empty gets the error response
for "unauthorized request" and nothing else: status 401, no backend call at all
(in particular no `Auth` call), and the wrapped handler is not invoked. -/
theorem authHandler_without_token {V : Type} (s : Server) (d : Dauth) (handler : Handler V)
    (perm : Perm) (r : Request)
    (h : r.Header.lookup "Token" = none ∨ r.Header.lookup "Token" = some "") :
    AuthHandler s d handler perm r = RespondWithError (NewError 401 "unauthorized request") ∧
    status (AuthHandler s d handler perm r) = some 401 ∧
    authCalls (AuthHandler s d handler perm r) = 0 ∧
    backendCalls (AuthHandler s d handler perm r) = 0 ∧
    served (AuthHandler s d handler perm r) = false := by
  have htok : r.HeaderGet "Token" = "" := by
    unfold Request.HeaderGet
    rcases h with h | h <;> simp [h]
  have heq : AuthHandler s d handler perm r =
      RespondWithError (NewError 401 "unauthorized request") := by
    simp [AuthHandler, htok]
  rw [heq]
  refine ⟨rfl, ?_, authCalls_respondWithError _, backendCalls_respondWithError _,
    served_respondWithError _⟩
  rw [status_respondWithError]
  rfl

/-- Witness of C2: a request without header fields, against a backend that would
grant the permission. -/
theorem authHandler_without_token_witness :
    ((({ Path := "/dauth/users" } : Request).Header.lookup "Token" = none ∨
      ({ Path := "/dauth/users" } : Request).Header.lookup "Token" = some "")) ∧
    status (AuthHandler { Auth := Sample.closingThen 0 { res := some { Ok := true } } }
      Sample.dauth Sample.terminal Sample.perm { Path := "/dauth/users" }) = some 401 ∧
    authCalls (AuthHandler { Auth := Sample.closingThen 0 { res := some { Ok := true } } }
      Sample.dauth Sample.terminal Sample.perm { Path := "/dauth/users" }) = 0 ∧
    served (AuthHandler { Auth := Sample.closingThen 0 { res := some { Ok := true } } }
      Sample.dauth Sample.terminal Sample.perm { Path := "/dauth/users" }) = false :=
  have h := authHandler_without_token
    { Auth := Sample.closingThen 0 { res := some { Ok := true } } }
    Sample.dauth Sample.terminal Sample.perm { Path := "/dauth/users" } (Or.inl rfl)
  ⟨Or.inl rfl, h.2.1, h.2.2.1, h.2.2.2.2⟩

/-- Below the retry bound a denial is answered with 401: for a request with a
non-empty `Token`, when the backend `Auth` call returns, without error, a response
whose `Ok` flag is false, directly or after `k < 10` transient failures of the
earlier calls, the response has status 401 and the wrapped handler is not
invoked. -/
theorem authHandler_denied_below_bound {V : Type} (s : Server) (d : Dauth) (handler : Handler V)
    (perm : Perm) (r : Request) (k : Nat) (res : AuthResponse)
    (htok : r.HeaderGet "Token" ≠ "") (hk : k < 10)
    (hfail : ∀ i, i < k →
      ∃ e, (s.Auth.Auth i (AuthHandler.areq d perm r)).err = some e ∧ e.text = transientText)
    (hres : s.Auth.Auth k (AuthHandler.areq d perm r) = { res := some res, err := none })
    (hok : res.Ok = false) :
    status (AuthHandler s d handler perm r) = some 401 ∧
    served (AuthHandler s d handler perm r) = false ∧
    body (AuthHandler s d handler perm r) ≠ [] ∧
    ∀ p, p ∈ body (AuthHandler s d handler perm r) → ∃ msg, p = .error { Code := 401, Msg := msg } := by
  by_cases hpath : (stringsSplit r.Path '/').length < 2
  · have heq : AuthHandler s d handler perm r =
        RespondWithError (NewError 401 "unauthorized request") := by
      simp [AuthHandler, hpath]
    rw [heq]
    simp [RespondWithError, NewError, status, served, body]
  · have hrun := checkAuth_after_transient s (AuthHandler.areq d perm r) k (le_of_lt hk) hfail
      (fun _ => by rw [hres])
    have hnot : ¬ k ≥ 10 := by omega
    rw [hres] at hrun
    simp only [hnot, if_false, hok, Bool.not_false, if_true] at hrun
    have heq : AuthHandler s d handler perm r =
        List.replicate (k + 1) (.rpc (.Auth (AuthHandler.areq d perm r))) ++
          RespondWithError (NewError 401 "unauthorized user") := by
      simp [AuthHandler, htok, hpath, hrun, firstErr, NewErrorResult]
    rw [heq, status_rpcs, served_rpcs, body_rpcs]
    simp [RespondWithError, NewError, status, served, body]

/-- The first `Auth` call answers `Ok = false`: status 401, handler not invoked. -/
theorem authHandler_denied_first_call :
    status (AuthHandler { Auth := Sample.closingThen 0 { res := some { Ok := false } } }
      Sample.dauth Sample.terminal Sample.perm Sample.request) = some 401 ∧
    served (AuthHandler { Auth := Sample.closingThen 0 { res := some { Ok := false } } }
      Sample.dauth Sample.terminal Sample.perm Sample.request) = false :=
  have h := authHandler_denied_below_bound
    { Auth := Sample.closingThen 0 { res := some { Ok := false } } }
    Sample.dauth Sample.terminal Sample.perm Sample.request 0 { Ok := false }
    (by decide) (by decide) (fun i hi => absurd hi (Nat.not_lt_zero i)) rfl rfl
  ⟨h.1, h.2.1⟩

/-- C3 (`AuthHandler`), evaluated at a failing run, for every wrapped handler. The
request carries the token `t`; the backend fails ten `Auth` calls with the
transient text and answers the eleventh, without error, with `Ok = false`.
Eleven calls are made and the wrapped handler is invoked: the response is the one
of the wrapped handler, status 200 for the handler `Sample.terminal`, not 401. -/
theorem authHandler_not_ok_after_ten_transient {V : Type} (handler : Handler V) :
    (Sample.closingThen 10 { res := some { Ok := false } }).Auth 10
        (AuthHandler.areq Sample.dauth Sample.perm Sample.request) =
      { res := some { Ok := false }, err := none } ∧
    AuthHandler { Auth := Sample.closingThen 10 { res := some { Ok := false } } }
        Sample.dauth handler Sample.perm Sample.request =
      List.replicate 11
          (.rpc (.Auth (AuthHandler.areq Sample.dauth Sample.perm Sample.request))) ++
        .serve :: handler Sample.request ∧
    served (AuthHandler { Auth := Sample.closingThen 10 { res := some { Ok := false } } }
        Sample.dauth handler Sample.perm Sample.request) = true ∧
    status (AuthHandler { Auth := Sample.closingThen 10 { res := some { Ok := false } } }
        Sample.dauth handler Sample.perm Sample.request) = status (handler Sample.request) ∧
    ¬ status (AuthHandler { Auth := Sample.closingThen 10 { res := some { Ok := false } } }
        Sample.dauth Sample.terminal Sample.perm Sample.request) = some 401 := by
  have hrun := checkAuth_after_transient
    { Auth := Sample.closingThen 10 { res := some { Ok := false } } }
    (AuthHandler.areq Sample.dauth Sample.perm Sample.request) 10 (le_refl 10)
    (fun i hi => ⟨Sample.closing, by simp [Sample.closingThen, hi], rfl⟩)
    (fun h => absurd h (by decide))
  have hsends : (CheckAuth { Auth := Sample.closingThen 10 { res := some { Ok := false } } }
      (AuthHandler.areq Sample.dauth Sample.perm Sample.request)) =
      { calls := 11, sends := [NewErrorResult none] } := by
    rw [hrun]
    simp [Sample.closingThen]
  have hguard : ¬ (Sample.request.HeaderGet "Token" = "" ∨
      (stringsSplit Sample.request.Path '/').length < 2) := by decide
  have htrace : ∀ {W : Type} (h : Handler W),
      AuthHandler { Auth := Sample.closingThen 10 { res := some { Ok := false } } }
          Sample.dauth h Sample.perm Sample.request =
        List.replicate 11
            (.rpc (.Auth (AuthHandler.areq Sample.dauth Sample.perm Sample.request))) ++
          .serve :: h Sample.request := by
    intro W h
    simp only [AuthHandler, hguard, if_false, hsends]
    rfl
  refine ⟨by simp [Sample.closingThen], htrace handler, ?_, ?_, ?_⟩
  · rw [htrace handler, served_rpcs]
    rfl
  · rw [htrace handler, status_rpcs]
    rfl
  · rw [htrace Sample.terminal, status_rpcs]
    decide

/-- C4 as stated fails: with a backend whose every `Auth` attempt fails with the
transient transport error, the request with token `t` is answered with status
500, not 401. -/
theorem authHandler_exhausted_counterexample :
    (∀ i req, Sample.alwaysClosing.Auth i req = { res := none, err := some Sample.closing }) ∧
    Sample.closing.text = transientText ∧
    status (AuthHandler { Auth := Sample.alwaysClosing }
      Sample.dauth Sample.terminal Sample.perm Sample.request) = some 500 ∧
    ¬ status (AuthHandler { Auth := Sample.alwaysClosing }
      Sample.dauth Sample.terminal Sample.perm Sample.request) = some 401 := by
  have hrun := checkAuth_after_transient { Auth := Sample.alwaysClosing }
    (AuthHandler.areq Sample.dauth Sample.perm Sample.request) 10 (le_refl 10)
    (fun _ _ => ⟨Sample.closing, rfl, rfl⟩) (fun h => absurd h (by decide))
  have hsends : (CheckAuth { Auth := Sample.alwaysClosing }
      (AuthHandler.areq Sample.dauth Sample.perm Sample.request)) =
      { calls := 11, sends := [NewErrorResult (some Sample.closing)] } := by
    rw [hrun]
    rfl
  have hguard : ¬ (Sample.request.HeaderGet "Token" = "" ∨
      (stringsSplit Sample.request.Path '/').length < 2) := by decide
  have hst : status (AuthHandler { Auth := Sample.alwaysClosing }
      Sample.dauth Sample.terminal Sample.perm Sample.request) = some 500 := by
    simp only [AuthHandler, hguard, if_false, hsends, status_rpcs]
    simp [firstErr, NewErrorResult, status, RespondWithError, Sample.closing]
  refine ⟨fun _ _ => rfl, rfl, hst, ?_⟩
  rw [hst]
  decide

/-- C4, amended: for a request that passes the guard of `AuthHandler` (non-empty
`Token`, a path with a slash), when every `Auth` attempt, the initial call and the
ten retries, fails with the transient text, the error of the last attempt is
surfaced as it is: eleven `Auth` calls are made, the wrapped handler is not invoked,
and for a transport error (not a `*dlib.Error`) the response is status 500 with the
body `{code: 500, msg: <transient text>}`. -/
theorem authHandler_exhausted {V : Type} (s : Server) (d : Dauth) (handler : Handler V)
    (perm : Perm) (r : Request)
    (htok : r.HeaderGet "Token" ≠ "") (hpath : ¬ (stringsSplit r.Path '/').length < 2)
    (hfail : ∀ i, i ≤ 10 →
      ∃ e, (s.Auth.Auth i (AuthHandler.areq d perm r)).err = some e ∧
        e.text = transientText ∧ e.asDlib = none) :
    status (AuthHandler s d handler perm r) = some 500 ∧
    body (AuthHandler s d handler perm r) = [.error { Code := 500, Msg := transientText }] ∧
    authCalls (AuthHandler s d handler perm r) = 11 ∧
    served (AuthHandler s d handler perm r) = false := by
  obtain ⟨e, he, het, hed⟩ := hfail 10 (le_refl 10)
  have hrun := checkAuth_after_transient s (AuthHandler.areq d perm r) 10 (le_refl 10)
    (fun i hi => by
      obtain ⟨e, he, het, _⟩ := hfail i (le_of_lt hi)
      exact ⟨e, he, het⟩)
    (fun h => absurd h (by decide))
  have hsends : CheckAuth s (AuthHandler.areq d perm r) =
      { calls := 11, sends := [NewErrorResult (some e)] } := by
    rw [hrun, he]
    cases (s.Auth.Auth 10 (AuthHandler.areq d perm r)).res <;> simp
  have heq : AuthHandler s d handler perm r =
      List.replicate 11 (.rpc (.Auth (AuthHandler.areq d perm r))) ++ RespondWithError e := by
    simp [AuthHandler, htok, hpath, hsends, firstErr, NewErrorResult]
  rw [heq, status_rpcs, served_rpcs, body_rpcs, authCalls_rpcs]
  simp [RespondWithError, hed, het, status, served, body, authCalls]

/-- Witness of C4, amended: the backend whose `Auth` calls all fail with the
transient transport error. -/
theorem authHandler_exhausted_witness :
    status (AuthHandler { Auth := Sample.alwaysClosing }
      Sample.dauth Sample.terminal Sample.perm Sample.request) = some 500 ∧
    authCalls (AuthHandler { Auth := Sample.alwaysClosing }
      Sample.dauth Sample.terminal Sample.perm Sample.request) = 11 :=
  have h := authHandler_exhausted { Auth := Sample.alwaysClosing }
    Sample.dauth Sample.terminal Sample.perm Sample.request (by decide) (by decide)
    (fun _ _ => ⟨Sample.closing, rfl, rfl, rfl⟩)
  ⟨h.1, h.2.2.1⟩

/-- C5 as stated fails: against a backend whose `Auth` calls all fail with the
transient error, one run of `CheckAuth` makes 11 `Auth` calls, more than 10. -/
theorem checkAuth_calls_counterexample :
    (∀ i req, Sample.alwaysClosing.Auth i req = { res := none, err := some Sample.closing }) ∧
    (CheckAuth { Auth := Sample.alwaysClosing } {}).calls = 11 ∧
    ¬ (CheckAuth { Auth := Sample.alwaysClosing } {}).calls ≤ 10 := by
  have hrun := checkAuth_after_transient { Auth := Sample.alwaysClosing } {} 10 (le_refl 10)
    (fun _ _ => ⟨Sample.closing, rfl, rfl⟩) (fun h => absurd h (by decide))
  have hcalls : (CheckAuth { Auth := Sample.alwaysClosing } {}).calls = 11 := by
    rw [hrun]
    rfl
  rw [hcalls]
  exact ⟨fun _ _ => rfl, rfl, by decide⟩

/-- C5, amended: for every backend behaviour, one run of `CheckAuth` makes at
least one and at most 11 `Auth` calls: the initial call and at most 10 retries. -/
theorem checkAuth_calls_le (s : Server) (req : AuthRequest) :
    1 ≤ (CheckAuth s req).calls ∧ (CheckAuth s req).calls ≤ 11 := by
  rw [checkAuth_calls]
  have h := loop_retry_le (fun n => s.Auth.Auth n req) 0 (s.Auth.Auth 0 req) (by decide)
  omega

/-- C6: when the first `Auth` call fails with an error whose text is not the
transient message, `CheckAuth` makes exactly one `Auth` call and sends exactly one
result, which carries that error; and whatever the backend does, each `Auth` call
after the first follows a call that failed with an error whose text equals the
transient message. -/
theorem checkAuth_retries_only_transient (s : Server) (req : AuthRequest) :
    (∀ (res : Option AuthResponse) (e : GoError),
      s.Auth.Auth 0 req = { res := res, err := some e } → e.text ≠ transientText →
        CheckAuth s req = { calls := 1, sends := [NewErrorResult (some e)] } ∧
        firstErr (CheckAuth s req).sends = some e) ∧
    (∀ i, i + 1 < (CheckAuth s req).calls →
      ∃ e, (s.Auth.Auth i req).err = some e ∧ e.text = transientText) := by
  constructor
  · intro res e h0 hne
    have hl : CheckAuth.loop (fun n => s.Auth.Auth n req) 0 (s.Auth.Auth 0 req) =
        .returned 0 e := by
      unfold CheckAuth.loop
      simp [h0, hne]
    have heq : CheckAuth s req = { calls := 1, sends := [NewErrorResult (some e)] } := by
      unfold CheckAuth
      rw [hl]
    rw [heq]
    exact ⟨rfl, by simp [firstErr, NewErrorResult]⟩
  · intro i hi
    rw [checkAuth_calls] at hi
    exact loop_retry_only_transient (fun n => s.Auth.Auth n req) 0 (s.Auth.Auth 0 req) rfl i
      (Nat.zero_le i) (by omega)

/-- Witness of C6: a backend whose first `Auth` call fails with another error. -/
theorem checkAuth_retries_only_transient_witness :
    CheckAuth { Auth := Sample.alwaysDenied } {} =
      { calls := 1, sends := [NewErrorResult (some Sample.denied)] } :=
  ((checkAuth_retries_only_transient { Auth := Sample.alwaysDenied } {}).1
    none Sample.denied rfl (by decide)).1

theorem recvAll_eof {V R : Type} (F : V → R → V × Option GoError) (zero : V) (scrub : V → V)
    (items : List R) (hconv : ∀ x, x ∈ items → (F zero x).2 = none) (data : List V) :
    recvAll F zero scrub items none data =
      if (data ++ items.map (fun x => scrub (F zero x).1)).length = 0 then RespondNotFound
      else [.writeHeader 200, .encode (.array (data ++ items.map (fun x => scrub (F zero x).1)))] := by
  induction items generalizing data with
  | nil =>
    unfold recvAll
    simp only [List.map_nil, List.append_nil]
  | cons x rest ih =>
    have hx : (F zero x).2 = none := hconv x (List.mem_cons_self x rest)
    have hpair : F zero x = ((F zero x).1, none) := by rw [← hx]
    unfold recvAll
    rw [hpair]
    simp only []
    rw [ih (fun y hy => hconv y (List.mem_cons_of_mem x hy))]
    simp

theorem recvAll_err {V R : Type} (F : V → R → V × Option GoError) (zero : V) (scrub : V → V)
    (items : List R) (err : GoError) (hconv : ∀ x, x ∈ items → (F zero x).2 = none)
    (data : List V) :
    recvAll F zero scrub items (some err) data = RespondWithError err := by
  induction items generalizing data with
  | nil => simp [recvAll]
  | cons x rest ih =>
    have hx : (F zero x).2 = none := hconv x (List.mem_cons_self x rest)
    have hpair : F zero x = ((F zero x).1, none) := by rw [← hx]
    unfold recvAll
    rw [hpair]
    simp only []
    exact ih (fun y hy => hconv y (List.mem_cons_of_mem x hy)) _

theorem recvAll_err_any {V R : Type} (F : V → R → V × Option GoError) (zero : V)
    (scrub : V → V) (items : List R) (err : GoError) (data : List V) :
    ∃ e, recvAll F zero scrub items (some err) data = RespondWithError e := by
  induction items generalizing data with
  | nil => exact ⟨err, by simp [recvAll]⟩
  | cons x rest ih =>
    unfold recvAll
    rcases hx : F zero x with ⟨v, _ | e⟩
    · simpa using ih _
    · exact ⟨e, rfl⟩

theorem recvLast_eof {V R : Type} (F : V → R → V × Option GoError) (zero : V) (scrub : V → V)
    (init : List R) (last : R) (hconv : ∀ x, x ∈ init ++ [last] → (F zero x).2 = none)
    (v : Option V) :
    recvLast F zero scrub (init ++ [last]) none v =
      [.writeHeader 200, .encode (.object (scrub (F zero last).1))] := by
  induction init generalizing v with
  | nil =>
    have hx : (F zero last).2 = none := hconv last (by simp)
    have hpair : F zero last = ((F zero last).1, none) := by rw [← hx]
    simp only [List.nil_append]
    unfold recvLast
    rw [hpair]
    simp [recvLast]
  | cons x rest ih =>
    have hx : (F zero x).2 = none := hconv x (by simp)
    have hpair : F zero x = ((F zero x).1, none) := by rw [← hx]
    simp only [List.cons_append]
    unfold recvLast
    rw [hpair]
    simp only []
    exact ih (fun y hy => hconv y (by simp at hy ⊢; tauto)) _

theorem body_respondWithError {V : Type} (err : GoError) :
    body (RespondWithError err : List (Effect V)) =
      [.error (match err.asDlib with
        | some v => v
        | none => { Code := 500, Msg := err.text })] := by
  unfold RespondWithError
  cases err.asDlib <;> simp [body]

theorem respondNotFound_eq {V : Type} :
    (RespondNotFound : List (Effect V)) =
      [.log (NewError 404 "resource not found"), .writeHeader 404,
       .encode (.error { Code := 404, Msg := "resource not found" })] := by
  simp [RespondNotFound, RespondWithError, NewError]

/-- C7: for each of the list handlers `GetTokens`, `GetUsers`, `GetPerms` and
`GetUserPerms`, when the query is accepted and the backend stream emits `n ≥ 1`
items and then `io.EOF`, every item converting without error, the handler makes
the one backend call and answers with status 200 and one JSON array of exactly `n`
elements: the conversions of the emitted items in stream order (for users, with
the secret cleared). -/
theorem list_handlers_ok (s : Server) (d : Dauth) (r : Request) :
    (∀ q items, fromQuery d.token {} r = (q, none) →
      s.Auth.GetTokens (d.token.ToRequest q) = .ok { items := items, fin := none } →
      items ≠ [] → (∀ x, x ∈ items → (d.token.FromResponse {} x).2 = none) →
        GetTokens s d r =
          [.rpc (.GetTokens (d.token.ToRequest q)), .writeHeader 200,
           .encode (.array (items.map (fun x => (d.token.FromResponse {} x).1)))] ∧
        status (GetTokens s d r) = some 200 ∧
        body (GetTokens s d r) = [.array (items.map (fun x => (d.token.FromResponse {} x).1))] ∧
        (items.map (fun x => (d.token.FromResponse {} x).1)).length = items.length) ∧
    (∀ q items, fromQuery d.user {} r = (q, none) →
      s.Auth.GetUsers (d.user.ToRequest q) = .ok { items := items, fin := none } →
      items ≠ [] → (∀ x, x ∈ items → (d.user.FromResponse {} x).2 = none) →
        GetUsers s d r =
          [.rpc (.GetUsers (d.user.ToRequest q)), .writeHeader 200,
           .encode (.array (items.map (fun x => { (d.user.FromResponse {} x).1 with Pass := "" })))] ∧
        status (GetUsers s d r) = some 200 ∧
        body (GetUsers s d r) = [.array (items.map (fun x => { (d.user.FromResponse {} x).1 with Pass := "" }))] ∧
        (items.map (fun x => { (d.user.FromResponse {} x).1 with Pass := "" })).length = items.length) ∧
    (∀ q items, fromQuery d.perm {} r = (q, none) →
      s.Auth.GetPerms (d.perm.ToRequest q) = .ok { items := items, fin := none } →
      items ≠ [] → (∀ x, x ∈ items → (d.perm.FromResponse {} x).2 = none) →
        GetPerms s d r =
          [.rpc (.GetPerms (d.perm.ToRequest q)), .writeHeader 200,
           .encode (.array (items.map (fun x => (d.perm.FromResponse {} x).1)))] ∧
        status (GetPerms s d r) = some 200 ∧
        body (GetPerms s d r) = [.array (items.map (fun x => (d.perm.FromResponse {} x).1))] ∧
        (items.map (fun x => (d.perm.FromResponse {} x).1)).length = items.length) ∧
    (∀ q items, fromQuery d.userPerm {} r = (q, none) →
      s.Auth.GetUserPerms (d.userPerm.ToRequest q) = .ok { items := items, fin := none } →
      items ≠ [] → (∀ x, x ∈ items → (d.userPerm.FromResponse {} x).2 = none) →
        GetUserPerms s d r =
          [.rpc (.GetUserPerms (d.userPerm.ToRequest q)), .writeHeader 200,
           .encode (.array (items.map (fun x => (d.userPerm.FromResponse {} x).1)))] ∧
        status (GetUserPerms s d r) = some 200 ∧
        body (GetUserPerms s d r) = [.array (items.map (fun x => (d.userPerm.FromResponse {} x).1))] ∧
        (items.map (fun x => (d.userPerm.FromResponse {} x).1)).length = items.length) := by
  refine ⟨?_, ?_, ?_, ?_⟩
  · intro q items hq hs hne hconv
    have hlen : items.length ≠ 0 := fun h => hne (List.length_eq_zero.mp h)
    have heq : GetTokens s d r =
        [.rpc (.GetTokens (d.token.ToRequest q)), .writeHeader 200,
         .encode (.array (items.map (fun x => (d.token.FromResponse {} x).1)))] := by
      simp only [GetTokens, hq, hs]
      rw [recvAll_eof _ _ _ _ hconv]
      simp only [List.nil_append, List.length_map, hlen, if_false]
    refine ⟨heq, ?_, ?_, by simp⟩
    · rw [heq]; rfl
    · rw [heq]; rfl
  · intro q items hq hs hne hconv
    have hlen : items.length ≠ 0 := fun h => hne (List.length_eq_zero.mp h)
    have heq : GetUsers s d r =
        [.rpc (.GetUsers (d.user.ToRequest q)), .writeHeader 200,
         .encode (.array (items.map (fun x => { (d.user.FromResponse {} x).1 with Pass := "" })))] := by
      simp only [GetUsers, hq, hs]
      rw [recvAll_eof _ _ _ _ hconv]
      simp only [List.nil_append, List.length_map, hlen, if_false]
    refine ⟨heq, ?_, ?_, by simp⟩
    · rw [heq]; rfl
    · rw [heq]; rfl
  · intro q items hq hs hne hconv
    have hlen : items.length ≠ 0 := fun h => hne (List.length_eq_zero.mp h)
    have heq : GetPerms s d r =
        [.rpc (.GetPerms (d.perm.ToRequest q)), .writeHeader 200,
         .encode (.array (items.map (fun x => (d.perm.FromResponse {} x).1)))] := by
      simp only [GetPerms, hq, hs]
      rw [recvAll_eof _ _ _ _ hconv]
      simp only [List.nil_append, List.length_map, hlen, if_false]
    refine ⟨heq, ?_, ?_, by simp⟩
    · rw [heq]; rfl
    · rw [heq]; rfl
  · intro q items hq hs hne hconv
    have hlen : items.length ≠ 0 := fun h => hne (List.length_eq_zero.mp h)
    have heq : GetUserPerms s d r =
        [.rpc (.GetUserPerms (d.userPerm.ToRequest q)), .writeHeader 200,
         .encode (.array (items.map (fun x => (d.userPerm.FromResponse {} x).1)))] := by
      simp only [GetUserPerms, hq, hs]
      rw [recvAll_eof _ _ _ _ hconv]
      simp only [List.nil_append, List.length_map, hlen, if_false]
    refine ⟨heq, ?_, ?_, by simp⟩
    · rw [heq]; rfl
    · rw [heq]; rfl

/-- Witness of C7: the four list handlers against the backend `Sample.store`. -/
theorem list_handlers_ok_witness :
    body (GetTokens { Auth := Sample.store } Sample.dauth Sample.request) =
      [.array [{ ID := 1, Token := "test", UserID := 1 }]] ∧
    body (GetUsers { Auth := Sample.store } Sample.dauth Sample.request) =
      [.array [{ ID := 1, User := "test" }, { ID := 2, User := "other" }]] ∧
    body (GetPerms { Auth := Sample.store } Sample.dauth Sample.request) =
      [.array [{ ID := 1, Service := "test", Name := "test" }]] ∧
    body (GetUserPerms { Auth := Sample.store } Sample.dauth Sample.request) =
      [.array [{ ID := 1, UserID := 1, PermID := 1 }]] :=
  have h := list_handlers_ok { Auth := Sample.store } Sample.dauth Sample.request
  ⟨(h.1 {} _ rfl rfl (List.cons_ne_nil _ _) (fun _ _ => rfl)).2.2.1,
   (h.2.1 {} _ rfl rfl (List.cons_ne_nil _ _) (fun _ _ => rfl)).2.2.1,
   (h.2.2.1 {} _ rfl rfl (List.cons_ne_nil _ _) (fun _ _ => rfl)).2.2.1,
   (h.2.2.2 {} _ rfl rfl (List.cons_ne_nil _ _) (fun _ _ => rfl)).2.2.1⟩

/-- C8: for each list handler (query accepted) and each get-by-id handler (valid
id), when the backend stream reports `io.EOF` before any item, the handler makes
the one backend call and answers with the not-found response alone: status 404
and the single body value `{code: 404, msg: "resource not found"}`, so that no
array and no object is written. -/
theorem empty_stream_not_found (s : Server) (d : Dauth) (r : Request) :
    (∀ q, fromQuery d.token {} r = (q, none) →
      s.Auth.GetTokens (d.token.ToRequest q) = .ok { items := [], fin := none } →
        GetTokens s d r = .rpc (.GetTokens (d.token.ToRequest q)) :: RespondNotFound ∧
        status (GetTokens s d r) = some 404 ∧
        body (GetTokens s d r) = [.error { Code := 404, Msg := "resource not found" }]) ∧
    (∀ q, fromQuery d.user {} r = (q, none) →
      s.Auth.GetUsers (d.user.ToRequest q) = .ok { items := [], fin := none } →
        GetUsers s d r = .rpc (.GetUsers (d.user.ToRequest q)) :: RespondNotFound ∧
        status (GetUsers s d r) = some 404 ∧
        body (GetUsers s d r) = [.error { Code := 404, Msg := "resource not found" }]) ∧
    (∀ q, fromQuery d.perm {} r = (q, none) →
      s.Auth.GetPerms (d.perm.ToRequest q) = .ok { items := [], fin := none } →
        GetPerms s d r = .rpc (.GetPerms (d.perm.ToRequest q)) :: RespondNotFound ∧
        status (GetPerms s d r) = some 404 ∧
        body (GetPerms s d r) = [.error { Code := 404, Msg := "resource not found" }]) ∧
    (∀ q, fromQuery d.userPerm {} r = (q, none) →
      s.Auth.GetUserPerms (d.userPerm.ToRequest q) = .ok { items := [], fin := none } →
        GetUserPerms s d r = .rpc (.GetUserPerms (d.userPerm.ToRequest q)) :: RespondNotFound ∧
        status (GetUserPerms s d r) = some 404 ∧
        body (GetUserPerms s d r) = [.error { Code := 404, Msg := "resource not found" }]) ∧
    (∀ id, ParseInt (r.Var "id") = some id →
      s.Auth.GetTokens { ID := id } = .ok { items := [], fin := none } →
        GetTokenByID s d r = .rpc (.GetTokens { ID := id }) :: RespondNotFound ∧
        status (GetTokenByID s d r) = some 404 ∧
        body (GetTokenByID s d r) = [.error { Code := 404, Msg := "resource not found" }]) ∧
    (∀ id, ParseInt (r.Var "id") = some id →
      s.Auth.GetUsers { ID := id } = .ok { items := [], fin := none } →
        GetUserByID s d r = .rpc (.GetUsers { ID := id }) :: RespondNotFound ∧
        status (GetUserByID s d r) = some 404 ∧
        body (GetUserByID s d r) = [.error { Code := 404, Msg := "resource not found" }]) ∧
    (∀ id, ParseInt (r.Var "id") = some id →
      s.Auth.GetPerms { ID := id } = .ok { items := [], fin := none } →
        GetPermByID s d r = .rpc (.GetPerms { ID := id }) :: RespondNotFound ∧
        status (GetPermByID s d r) = some 404 ∧
        body (GetPermByID s d r) = [.error { Code := 404, Msg := "resource not found" }]) ∧
    (∀ id, ParseInt (r.Var "id") = some id →
      s.Auth.GetUserPerms { ID := id } = .ok { items := [], fin := none } →
        GetUserPermByID s d r = .rpc (.GetUserPerms { ID := id }) :: RespondNotFound ∧
        status (GetUserPermByID s d r) = some 404 ∧
        body (GetUserPermByID s d r) = [.error { Code := 404, Msg := "resource not found" }]) := by
  refine ⟨?_, ?_, ?_, ?_, ?_, ?_, ?_, ?_⟩
  · intro q hq hs
    have heq : GetTokens s d r = .rpc (.GetTokens (d.token.ToRequest q)) :: RespondNotFound := by
      simp only [GetTokens, hq, hs]
      simp [recvAll]
    rw [heq, respondNotFound_eq]
    exact ⟨rfl, rfl, rfl⟩
  · intro q hq hs
    have heq : GetUsers s d r = .rpc (.GetUsers (d.user.ToRequest q)) :: RespondNotFound := by
      simp only [GetUsers, hq, hs]
      simp [recvAll]
    rw [heq, respondNotFound_eq]
    exact ⟨rfl, rfl, rfl⟩
  · intro q hq hs
    have heq : GetPerms s d r = .rpc (.GetPerms (d.perm.ToRequest q)) :: RespondNotFound := by
      simp only [GetPerms, hq, hs]
      simp [recvAll]
    rw [heq, respondNotFound_eq]
    exact ⟨rfl, rfl, rfl⟩
  · intro q hq hs
    have heq : GetUserPerms s d r = .rpc (.GetUserPerms (d.userPerm.ToRequest q)) :: RespondNotFound := by
      simp only [GetUserPerms, hq, hs]
      simp [recvAll]
    rw [heq, respondNotFound_eq]
    exact ⟨rfl, rfl, rfl⟩
  · intro id hid hs
    have heq : GetTokenByID s d r = .rpc (.GetTokens { ID := id }) :: RespondNotFound := by
      simp only [GetTokenByID, hid, hs]
      simp [recvLast]
    rw [heq, respondNotFound_eq]
    exact ⟨rfl, rfl, rfl⟩
  · intro id hid hs
    have heq : GetUserByID s d r = .rpc (.GetUsers { ID := id }) :: RespondNotFound := by
      simp only [GetUserByID, hid, hs]
      simp [recvLast]
    rw [heq, respondNotFound_eq]
    exact ⟨rfl, rfl, rfl⟩
  · intro id hid hs
    have heq : GetPermByID s d r = .rpc (.GetPerms { ID := id }) :: RespondNotFound := by
      simp only [GetPermByID, hid, hs]
      simp [recvLast]
    rw [heq, respondNotFound_eq]
    exact ⟨rfl, rfl, rfl⟩
  · intro id hid hs
    have heq : GetUserPermByID s d r = .rpc (.GetUserPerms { ID := id }) :: RespondNotFound := by
      simp only [GetUserPermByID, hid, hs]
      simp [recvLast]
    rw [heq, respondNotFound_eq]
    exact ⟨rfl, rfl, rfl⟩

/-- Witness of C8: the eight read handlers against a backend with empty streams. -/
theorem empty_stream_not_found_witness :
    status (GetTokens { Auth := Sample.closingThen 0 {} } Sample.dauth Sample.request) = some 404 ∧
    status (GetUsers { Auth := Sample.closingThen 0 {} } Sample.dauth Sample.request) = some 404 ∧
    status (GetPerms { Auth := Sample.closingThen 0 {} } Sample.dauth Sample.request) = some 404 ∧
    status (GetUserPerms { Auth := Sample.closingThen 0 {} } Sample.dauth Sample.request) =
      some 404 ∧
    status (GetTokenByID { Auth := Sample.closingThen 0 {} } Sample.dauth Sample.byID) = some 404 ∧
    status (GetUserByID { Auth := Sample.closingThen 0 {} } Sample.dauth Sample.byID) = some 404 ∧
    status (GetPermByID { Auth := Sample.closingThen 0 {} } Sample.dauth Sample.byID) = some 404 ∧
    status (GetUserPermByID { Auth := Sample.closingThen 0 {} } Sample.dauth Sample.byID) =
      some 404 :=
  have h := empty_stream_not_found { Auth := Sample.closingThen 0 {} } Sample.dauth Sample.request
  have g := empty_stream_not_found { Auth := Sample.closingThen 0 {} } Sample.dauth Sample.byID
  ⟨(h.1 {} rfl rfl).2.1, (h.2.1 {} rfl rfl).2.1, (h.2.2.1 {} rfl rfl).2.1,
   (h.2.2.2.1 {} rfl rfl).2.1,
   (g.2.2.2.2.1 1 (by decide) rfl).2.1, (g.2.2.2.2.2.1 1 (by decide) rfl).2.1,
   (g.2.2.2.2.2.2.1 1 (by decide) rfl).2.1, (g.2.2.2.2.2.2.2 1 (by decide) rfl).2.1⟩

/-- C9: for each list handler and every `k ≥ 0`, when the query is accepted and
the backend stream emits `k` items and then an error other than `io.EOF`, the
response is an error response alone and no array is written, whatever the
conversions of the items do; and when the `k` items were received, that is when
each of them converted, it is the error response for the error of the stream:
the status and the single body value are those of that error. -/
theorem list_handlers_stream_error (s : Server) (d : Dauth) (r : Request) :
    (∀ q items err, fromQuery d.token {} r = (q, none) →
      s.Auth.GetTokens (d.token.ToRequest q) = .ok { items := items, fin := some err } →
        (∃ e, GetTokens s d r = .rpc (.GetTokens (d.token.ToRequest q)) :: RespondWithError e) ∧
        (∀ data, Payload.array data ∉ body (GetTokens s d r)) ∧
        ((∀ x, x ∈ items → (d.token.FromResponse {} x).2 = none) →
          GetTokens s d r = .rpc (.GetTokens (d.token.ToRequest q)) :: RespondWithError err ∧
          status (GetTokens s d r) = some (match err.asDlib with | some v => v.Code | none => 500) ∧
          body (GetTokens s d r) =
            [.error (match err.asDlib with
              | some v => v
              | none => { Code := 500, Msg := err.text })])) ∧
    (∀ q items err, fromQuery d.user {} r = (q, none) →
      s.Auth.GetUsers (d.user.ToRequest q) = .ok { items := items, fin := some err } →
        (∃ e, GetUsers s d r = .rpc (.GetUsers (d.user.ToRequest q)) :: RespondWithError e) ∧
        (∀ data, Payload.array data ∉ body (GetUsers s d r)) ∧
        ((∀ x, x ∈ items → (d.user.FromResponse {} x).2 = none) →
          GetUsers s d r = .rpc (.GetUsers (d.user.ToRequest q)) :: RespondWithError err ∧
          status (GetUsers s d r) = some (match err.asDlib with | some v => v.Code | none => 500) ∧
          body (GetUsers s d r) =
            [.error (match err.asDlib with
              | some v => v
              | none => { Code := 500, Msg := err.text })])) ∧
    (∀ q items err, fromQuery d.perm {} r = (q, none) →
      s.Auth.GetPerms (d.perm.ToRequest q) = .ok { items := items, fin := some err } →
        (∃ e, GetPerms s d r = .rpc (.GetPerms (d.perm.ToRequest q)) :: RespondWithError e) ∧
        (∀ data, Payload.array data ∉ body (GetPerms s d r)) ∧
        ((∀ x, x ∈ items → (d.perm.FromResponse {} x).2 = none) →
          GetPerms s d r = .rpc (.GetPerms (d.perm.ToRequest q)) :: RespondWithError err ∧
          status (GetPerms s d r) = some (match err.asDlib with | some v => v.Code | none => 500) ∧
          body (GetPerms s d r) =
            [.error (match err.asDlib with
              | some v => v
              | none => { Code := 500, Msg := err.text })])) ∧
    (∀ q items err, fromQuery d.userPerm {} r = (q, none) →
      s.Auth.GetUserPerms (d.userPerm.ToRequest q) = .ok { items := items, fin := some err } →
        (∃ e, GetUserPerms s d r = .rpc (.GetUserPerms (d.userPerm.ToRequest q)) :: RespondWithError e) ∧
        (∀ data, Payload.array data ∉ body (GetUserPerms s d r)) ∧
        ((∀ x, x ∈ items → (d.userPerm.FromResponse {} x).2 = none) →
          GetUserPerms s d r = .rpc (.GetUserPerms (d.userPerm.ToRequest q)) :: RespondWithError err ∧
          status (GetUserPerms s d r) = some (match err.asDlib with | some v => v.Code | none => 500) ∧
          body (GetUserPerms s d r) =
            [.error (match err.asDlib with
              | some v => v
              | none => { Code := 500, Msg := err.text })])) := by
  refine ⟨?_, ?_, ?_, ?_⟩
  · intro q items err hq hs
    have hshape : GetTokens s d r = .rpc (.GetTokens (d.token.ToRequest q)) ::
        recvAll d.token.FromResponse {} (fun v => v) items (some err) [] := by
      simp only [GetTokens, hq, hs]
    obtain ⟨e, he⟩ := recvAll_err_any d.token.FromResponse {}
      (fun v => v) items err []
    refine ⟨⟨e, by rw [hshape, he]⟩, ?_, ?_⟩
    · intro data
      rw [hshape, he]
      show Payload.array data ∉ body (RespondWithError e)
      rw [body_respondWithError]
      simp
    · intro hconv
      have heq : GetTokens s d r = .rpc (.GetTokens (d.token.ToRequest q)) :: RespondWithError err := by
        rw [hshape, recvAll_err _ _ _ _ _ hconv]
      rw [heq]
      refine ⟨rfl, ?_, ?_⟩
      · simp only [status]
        exact status_respondWithError err
      · simp only [body]
        exact body_respondWithError err
  · intro q items err hq hs
    have hshape : GetUsers s d r = .rpc (.GetUsers (d.user.ToRequest q)) ::
        recvAll d.user.FromResponse {} (fun v => { v with Pass := "" }) items (some err) [] := by
      simp only [GetUsers, hq, hs]
    obtain ⟨e, he⟩ := recvAll_err_any d.user.FromResponse {}
      (fun v => { v with Pass := "" }) items err []
    refine ⟨⟨e, by rw [hshape, he]⟩, ?_, ?_⟩
    · intro data
      rw [hshape, he]
      show Payload.array data ∉ body (RespondWithError e)
      rw [body_respondWithError]
      simp
    · intro hconv
      have heq : GetUsers s d r = .rpc (.GetUsers (d.user.ToRequest q)) :: RespondWithError err := by
        rw [hshape, recvAll_err _ _ _ _ _ hconv]
      rw [heq]
      refine ⟨rfl, ?_, ?_⟩
      · simp only [status]
        exact status_respondWithError err
      · simp only [body]
        exact body_respondWithError err
  · intro q items err hq hs
    have hshape : GetPerms s d r = .rpc (.GetPerms (d.perm.ToRequest q)) ::
        recvAll d.perm.FromResponse {} (fun v => v) items (some err) [] := by
      simp only [GetPerms, hq, hs]
    obtain ⟨e, he⟩ := recvAll_err_any d.perm.FromResponse {}
      (fun v => v) items err []
    refine ⟨⟨e, by rw [hshape, he]⟩, ?_, ?_⟩
    · intro data
      rw [hshape, he]
      show Payload.array data ∉ body (RespondWithError e)
      rw [body_respondWithError]
      simp
    · intro hconv
      have heq : GetPerms s d r = .rpc (.GetPerms (d.perm.ToRequest q)) :: RespondWithError err := by
        rw [hshape, recvAll_err _ _ _ _ _ hconv]
      rw [heq]
      refine ⟨rfl, ?_, ?_⟩
      · simp only [status]
        exact status_respondWithError err
      · simp only [body]
        exact body_respondWithError err
  · intro q items err hq hs
    have hshape : GetUserPerms s d r = .rpc (.GetUserPerms (d.userPerm.ToRequest q)) ::
        recvAll d.userPerm.FromResponse {} (fun v => v) items (some err) [] := by
      simp only [GetUserPerms, hq, hs]
    obtain ⟨e, he⟩ := recvAll_err_any d.userPerm.FromResponse {}
      (fun v => v) items err []
    refine ⟨⟨e, by rw [hshape, he]⟩, ?_, ?_⟩
    · intro data
      rw [hshape, he]
      show Payload.array data ∉ body (RespondWithError e)
      rw [body_respondWithError]
      simp
    · intro hconv
      have heq : GetUserPerms s d r = .rpc (.GetUserPerms (d.userPerm.ToRequest q)) :: RespondWithError err := by
        rw [hshape, recvAll_err _ _ _ _ _ hconv]
      rw [heq]
      refine ⟨rfl, ?_, ?_⟩
      · simp only [status]
        exact status_respondWithError err
      · simp only [body]
        exact body_respondWithError err

/-- Witness of C9: the four list handlers against the backend `Sample.broken`,
whose streams emit one record and then fail. -/
theorem list_handlers_stream_error_witness :
    GetTokens { Auth := Sample.broken } Sample.dauth Sample.request =
      .rpc (.GetTokens {}) :: RespondWithError Sample.reset ∧
    GetUsers { Auth := Sample.broken } Sample.dauth Sample.request =
      .rpc (.GetUsers {}) :: RespondWithError Sample.reset ∧
    GetPerms { Auth := Sample.broken } Sample.dauth Sample.request =
      .rpc (.GetPerms {}) :: RespondWithError Sample.reset ∧
    GetUserPerms { Auth := Sample.broken } Sample.dauth Sample.request =
      .rpc (.GetUserPerms {}) :: RespondWithError Sample.reset :=
  have h := list_handlers_stream_error { Auth := Sample.broken } Sample.dauth Sample.request
  ⟨((h.1 {} _ Sample.reset rfl rfl).2.2 (fun _ _ => rfl)).1,
   ((h.2.1 {} _ Sample.reset rfl rfl).2.2 (fun _ _ => rfl)).1,
   ((h.2.2.1 {} _ Sample.reset rfl rfl).2.2 (fun _ _ => rfl)).1,
   ((h.2.2.2 {} _ Sample.reset rfl rfl).2.2 (fun _ _ => rfl)).1⟩

/-- C10: for each get-by-id handler with a valid id, when the backend stream emits
`n ≥ 1` items (`init` followed by `last`) and then `io.EOF`, every item
converting without error, the handler answers with status 200 and one JSON object,
not an array: the conversion of the last item emitted (for users, with the secret
cleared). With `n = 1` the list `init` is empty and the object is that item alone. -/
theorem get_by_id_last_item (s : Server) (d : Dauth) (r : Request) :
    (∀ id init last, ParseInt (r.Var "id") = some id →
      s.Auth.GetTokens { ID := id } = .ok { items := init ++ [last], fin := none } →
      (∀ x, x ∈ init ++ [last] → (d.token.FromResponse {} x).2 = none) →
        GetTokenByID s d r =
          [.rpc (.GetTokens { ID := id }), .writeHeader 200,
           .encode (.object (d.token.FromResponse {} last).1)] ∧
        status (GetTokenByID s d r) = some 200 ∧
        body (GetTokenByID s d r) = [.object (d.token.FromResponse {} last).1]) ∧
    (∀ id init last, ParseInt (r.Var "id") = some id →
      s.Auth.GetUsers { ID := id } = .ok { items := init ++ [last], fin := none } →
      (∀ x, x ∈ init ++ [last] → (d.user.FromResponse {} x).2 = none) →
        GetUserByID s d r =
          [.rpc (.GetUsers { ID := id }), .writeHeader 200,
           .encode (.object { (d.user.FromResponse {} last).1 with Pass := "" })] ∧
        status (GetUserByID s d r) = some 200 ∧
        body (GetUserByID s d r) = [.object { (d.user.FromResponse {} last).1 with Pass := "" }]) ∧
    (∀ id init last, ParseInt (r.Var "id") = some id →
      s.Auth.GetPerms { ID := id } = .ok { items := init ++ [last], fin := none } →
      (∀ x, x ∈ init ++ [last] → (d.perm.FromResponse {} x).2 = none) →
        GetPermByID s d r =
          [.rpc (.GetPerms { ID := id }), .writeHeader 200,
           .encode (.object (d.perm.FromResponse {} last).1)] ∧
        status (GetPermByID s d r) = some 200 ∧
        body (GetPermByID s d r) = [.object (d.perm.FromResponse {} last).1]) ∧
    (∀ id init last, ParseInt (r.Var "id") = some id →
      s.Auth.GetUserPerms { ID := id } = .ok { items := init ++ [last], fin := none } →
      (∀ x, x ∈ init ++ [last] → (d.userPerm.FromResponse {} x).2 = none) →
        GetUserPermByID s d r =
          [.rpc (.GetUserPerms { ID := id }), .writeHeader 200,
           .encode (.object (d.userPerm.FromResponse {} last).1)] ∧
        status (GetUserPermByID s d r) = some 200 ∧
        body (GetUserPermByID s d r) = [.object (d.userPerm.FromResponse {} last).1]) := by
  refine ⟨?_, ?_, ?_, ?_⟩
  · intro id init last hid hs hconv
    have heq : GetTokenByID s d r =
        [.rpc (.GetTokens { ID := id }), .writeHeader 200,
         .encode (.object (d.token.FromResponse {} last).1)] := by
      simp only [GetTokenByID, hid, hs]
      rw [recvLast_eof _ _ _ _ _ hconv]
    rw [heq]
    exact ⟨rfl, rfl, rfl⟩
  · intro id init last hid hs hconv
    have heq : GetUserByID s d r =
        [.rpc (.GetUsers { ID := id }), .writeHeader 200,
         .encode (.object { (d.user.FromResponse {} last).1 with Pass := "" })] := by
      simp only [GetUserByID, hid, hs]
      rw [recvLast_eof _ _ _ _ _ hconv]
    rw [heq]
    exact ⟨rfl, rfl, rfl⟩
  · intro id init last hid hs hconv
    have heq : GetPermByID s d r =
        [.rpc (.GetPerms { ID := id }), .writeHeader 200,
         .encode (.object (d.perm.FromResponse {} last).1)] := by
      simp only [GetPermByID, hid, hs]
      rw [recvLast_eof _ _ _ _ _ hconv]
    rw [heq]
    exact ⟨rfl, rfl, rfl⟩
  · intro id init last hid hs hconv
    have heq : GetUserPermByID s d r =
        [.rpc (.GetUserPerms { ID := id }), .writeHeader 200,
         .encode (.object (d.userPerm.FromResponse {} last).1)] := by
      simp only [GetUserPermByID, hid, hs]
      rw [recvLast_eof _ _ _ _ _ hconv]
    rw [heq]
    exact ⟨rfl, rfl, rfl⟩

/-- Witness of C10: the four get-by-id handlers against the backend
`Sample.store`; its user stream emits two records and the second one is kept. -/
theorem get_by_id_last_item_witness :
    body (GetTokenByID { Auth := Sample.store } Sample.dauth Sample.byID) =
      [.object { ID := 1, Token := "test", UserID := 1 }] ∧
    body (GetUserByID { Auth := Sample.store } Sample.dauth Sample.byID) =
      [.object { ID := 2, User := "other" }] ∧
    body (GetPermByID { Auth := Sample.store } Sample.dauth Sample.byID) =
      [.object { ID := 1, Service := "test", Name := "test" }] ∧
    body (GetUserPermByID { Auth := Sample.store } Sample.dauth Sample.byID) =
      [.object { ID := 1, UserID := 1, PermID := 1 }] :=
  have h := get_by_id_last_item { Auth := Sample.store } Sample.dauth Sample.byID
  ⟨(h.1 1 [] _ (by decide) rfl (fun _ _ => rfl)).2.2,
   (h.2.1 1 [{ ID := 1, User := "test", Pass := "secret" }] _ (by decide) rfl
      (fun _ _ => rfl)).2.2,
   (h.2.2.1 1 [] _ (by decide) rfl (fun _ _ => rfl)).2.2,
   (h.2.2.2 1 [] _ (by decide) rfl (fun _ _ => rfl)).2.2⟩

/-! ## Interleavings and projections -/

theorem interleave_nil_right {α : Type} (sched : List Bool) (xs : List α) :
    interleave sched xs [] = xs := by
  induction sched generalizing xs with
  | nil => simp [interleave]
  | cons b sched ih =>
    cases b <;> cases xs <;> simp [interleave, ih]

theorem mem_interleave {α : Type} (sched : List Bool) (xs ys : List α) (e : α) :
    e ∈ interleave sched xs ys ↔ e ∈ xs ∨ e ∈ ys := by
  induction sched generalizing xs ys with
  | nil => simp [interleave]
  | cons b sched ih =>
    cases b <;> cases xs <;> cases ys <;> simp [interleave, ih, or_assoc, or_left_comm]

theorem interleave_false_cons {α : Type} (sched : List Bool) (xs : List α) (y : α)
    (ys : List α) : interleave (false :: sched) xs (y :: ys) = y :: interleave sched xs ys := by
  cases xs <;> rfl

theorem interleave_true_cons {α : Type} (sched : List Bool) (x : α) (xs ys : List α) :
    interleave (true :: sched) (x :: xs) ys = x :: interleave sched xs ys := by
  cases ys <;> rfl

theorem interleave_true_nil {α : Type} (sched : List Bool) (ys : List α) :
    interleave (true :: sched) [] ys = ys := by
  cases ys <;> rfl

theorem interleave_false_nil {α : Type} (sched : List Bool) (xs : List α) :
    interleave (false :: sched) xs [] = xs := by
  cases xs <;> rfl

theorem filterMap_eq_nil_of_none {α β : Type} (f : α → Option β) (zs : List α)
    (hz : ∀ y, y ∈ zs → f y = none) : zs.filterMap f = [] := by
  induction zs with
  | nil => rfl
  | cons z zs ih =>
    rw [List.filterMap_cons, hz z (List.mem_cons_self z zs)]
    exact ih (fun y hy => hz y (List.mem_cons_of_mem z hy))

/-- A projection that ignores the effects of the draining task sees the effects
of the sending task only, under every schedule. -/
theorem filterMap_interleave_left {α β : Type} (f : α → Option β) (sched : List Bool)
    (xs ys : List α) (h : ∀ y, y ∈ ys → f y = none) :
    (interleave sched xs ys).filterMap f = xs.filterMap f := by
  induction sched generalizing xs ys with
  | nil => simp [interleave, filterMap_eq_nil_of_none f ys h]
  | cons b sched ih =>
    cases b
    · cases ys with
      | nil => rw [interleave_false_nil]
      | cons y ys =>
        rw [interleave_false_cons, List.filterMap_cons, h y (List.mem_cons_self y ys)]
        exact ih xs ys (fun z hz => h z (List.mem_cons_of_mem y hz))
    · cases xs with
      | nil =>
        rw [interleave_true_nil, filterMap_eq_nil_of_none f ys h]
        rfl
      | cons x xs =>
        rw [interleave_true_cons, List.filterMap_cons, List.filterMap_cons, ih xs ys h]

/-- A projection that ignores the effects of the sending task sees the effects
of the draining task only, under every schedule. -/
theorem filterMap_interleave_right {α β : Type} (f : α → Option β) (sched : List Bool)
    (xs ys : List α) (h : ∀ x, x ∈ xs → f x = none) :
    (interleave sched xs ys).filterMap f = ys.filterMap f := by
  induction sched generalizing xs ys with
  | nil => simp [interleave, filterMap_eq_nil_of_none f xs h]
  | cons b sched ih =>
    cases b
    · cases ys with
      | nil =>
        rw [interleave_false_nil, filterMap_eq_nil_of_none f xs h]
        rfl
      | cons y ys =>
        rw [interleave_false_cons, List.filterMap_cons, List.filterMap_cons, ih xs ys h]
    · cases xs with
      | nil => rw [interleave_true_nil]
      | cons x xs =>
        rw [interleave_true_cons, List.filterMap_cons, h x (List.mem_cons_self x xs)]
        exact ih xs ys (fun z hz => h z (List.mem_cons_of_mem x hz))

theorem body_eq_filterMap {V : Type} (es : List (Effect V)) :
    body es = es.filterMap Effect.encoded := by
  induction es with
  | nil => rfl
  | cons e es ih => cases e <;> simp [body, Effect.encoded, ih]

theorem sent_eq_filterMap {V : Type} (es : List (Effect V)) :
    sent es = es.filterMap Effect.sentMsg := by
  induction es with
  | nil => rfl
  | cons e es ih => cases e <;> simp [sent, Effect.sentMsg, ih]

theorem sendSide_eq_filterMap {V : Type} (es : List (Effect V)) :
    sendSide es = es.filterMap Effect.sendOp := by
  induction es with
  | nil => rfl
  | cons e es ih => cases e <;> simp [sendSide, Effect.sendOp, ih]

theorem writeHeaders_eq_filterMap {V : Type} (es : List (Effect V)) :
    writeHeaders es = es.filterMap Effect.headerCode := by
  induction es with
  | nil => rfl
  | cons e es ih => cases e <;> simp [writeHeaders, Effect.headerCode, ih]

theorem backendCalls_eq_length {V : Type} (es : List (Effect V)) :
    backendCalls es = (es.filterMap Effect.called).length := by
  induction es with
  | nil => rfl
  | cons e es ih => cases e <;> simp [backendCalls, Effect.called, ih]

theorem mem_body {V : Type} (es : List (Effect V)) (p : Payload V) :
    p ∈ body es ↔ Effect.encode p ∈ es := by
  induction es with
  | nil => simp [body]
  | cons e es ih => cases e <;> simp [body, ih]

theorem status_writes {V : Type} (es : List (Effect V)) :
    status (writes es) = status es := by
  induction es with
  | nil => rfl
  | cons e es ih =>
    cases e <;> simp [writes, List.filter_cons, Effect.isWrite, status] <;>
      simpa [writes] using ih

/-! ## The loops of the write handlers -/

theorem drainAll_eq {V R : Type} (F : V → R → V × Option GoError) (zero : V) (scrub : V → V)
    (items : List R) (fin : Option GoError) (count : Int) (data : List V) :
    drainAll F zero scrub items fin count data =
      { count := count + items.length,
        data := data ++ items.map (fun x => scrub (F zero x).1),
        effects := finEffects fin } := by
  induction items generalizing count data with
  | nil => cases fin <;> simp [drainAll, finEffects]
  | cons x rest ih =>
    unfold drainAll
    rw [ih]
    simp only [List.length_cons, List.map_cons, List.append_assoc, List.singleton_append,
      Nat.cast_add, Nat.cast_one]
    congr 1
    omega

theorem drainLast_eq {V R : Type} (F : V → R → V × Option GoError) (scrub : V → V)
    (items : List R) (fin : Option GoError) (val : V) :
    drainLast F scrub items fin val =
      (items.foldl (fun v x => scrub (F v x).1) val, finEffects fin) := by
  induction items generalizing val with
  | nil => cases fin <;> simp [drainLast, finEffects]
  | cons x rest ih =>
    unfold drainLast
    rw [ih]
    rfl

theorem sendAll_ok {V Q : Type} (ToRequest : V → Q) (mk : Q → Msg)
    (send : Nat → Q → Option GoError) (hsend : ∀ n q, send n q = none) (n : Nat)
    (vals : List V) :
    sendAll ToRequest mk send n vals =
      (vals.map (fun v => (Effect.send (mk (ToRequest v)) : Effect V)), none) := by
  induction vals generalizing n with
  | nil => rfl
  | cons v vals ih =>
    unfold sendAll
    simp only [hsend, ih, List.map_cons]

theorem sendAll_fail {V Q : Type} (ToRequest : V → Q) (mk : Q → Msg)
    (send : Nat → Q → Option GoError) (pre : List V) (v : V) (post : List V) (err : GoError)
    (n : Nat) (hpre : ∀ k q, k < pre.length → send (n + k) q = none)
    (hfail : send (n + pre.length) (ToRequest v) = some err) :
    sendAll ToRequest mk send n (pre ++ v :: post) =
      ((pre ++ [v]).map (fun v => (Effect.send (mk (ToRequest v)) : Effect V)), some err) := by
  induction pre generalizing n with
  | nil =>
    simp only [List.nil_append, List.length_nil, Nat.add_zero] at hfail ⊢
    unfold sendAll
    simp [hfail]
  | cons p pre ih =>
    have h0 : send n (ToRequest p) = none := by
      have := hpre 0 (ToRequest p) (by simp)
      simpa using this
    have hrest := ih (n + 1)
      (fun k q hk => by
        have := hpre (k + 1) q (by simp; omega)
        rw [show n + 1 + k = n + (k + 1) by omega]
        exact this)
      (by
        rw [show n + 1 + pre.length = n + (p :: pre).length by simp; omega]
        exact hfail)
    simp only [List.cons_append]
    unfold sendAll
    simp only [h0, hrest, List.map_cons]

/-- The sending loop only sends: each of its effects is a `Send`. -/
theorem sendAll_sends {V Q : Type} (ToRequest : V → Q) (mk : Q → Msg)
    (send : Nat → Q → Option GoError) (n : Nat) (vals : List V) (e : Effect V)
    (he : e ∈ (sendAll ToRequest mk send n vals).1) : ∃ m, e = .send m := by
  induction vals generalizing n with
  | nil => simp [sendAll] at he
  | cons v vals ih =>
    unfold sendAll at he
    cases hs : send n (ToRequest v) with
    | some err =>
      simp [hs] at he
      exact ⟨_, he⟩
    | none =>
      simp [hs] at he
      rcases he with he | he
      · exact ⟨_, he⟩
      · exact ih (n + 1) he

/-! ## What the parts of a trace contribute to the projections -/

theorem mem_respondWithError {V : Type} (err : GoError) (e : Effect V)
    (he : e ∈ (RespondWithError err : List (Effect V))) :
    e = .log err ∨ (∃ c, e = .writeHeader c) ∨ (∃ v, e = .encode (.error v)) := by
  unfold RespondWithError at he
  cases h : err.asDlib with
  | none =>
    simp [h] at he
    rcases he with he | he | he
    · exact Or.inl he
    · exact Or.inr (Or.inl ⟨_, he⟩)
    · exact Or.inr (Or.inr ⟨_, he⟩)
  | some v =>
    simp [h] at he
    rcases he with he | he | he
    · exact Or.inl he
    · exact Or.inr (Or.inl ⟨_, he⟩)
    · exact Or.inr (Or.inr ⟨_, he⟩)

theorem mem_finEffects {V : Type} (fin : Option GoError) (e : Effect V)
    (he : e ∈ (finEffects fin : List (Effect V))) :
    (∃ err, e = .log err) ∨ (∃ c, e = .writeHeader c) ∨ (∃ v, e = .encode (.error v)) := by
  cases fin with
  | none => simp [finEffects] at he
  | some err =>
    rcases mem_respondWithError err e he with h | h | h
    · exact Or.inl ⟨err, h⟩
    · exact Or.inr (Or.inl h)
    · exact Or.inr (Or.inr h)

theorem sendOp_finEffects {V : Type} (fin : Option GoError) (e : Effect V)
    (he : e ∈ (finEffects fin : List (Effect V))) : e.sendOp = none := by
  rcases mem_finEffects fin e he with ⟨_, h⟩ | ⟨_, h⟩ | ⟨_, h⟩ <;> rw [h] <;> rfl

theorem sentMsg_finEffects {V : Type} (fin : Option GoError) (e : Effect V)
    (he : e ∈ (finEffects fin : List (Effect V))) : e.sentMsg = none := by
  rcases mem_finEffects fin e he with ⟨_, h⟩ | ⟨_, h⟩ | ⟨_, h⟩ <;> rw [h] <;> rfl

theorem sendSide_respondWithError {V : Type} (err : GoError) :
    sendSide (RespondWithError err : List (Effect V)) = [] := by
  unfold RespondWithError
  cases err.asDlib <;> rfl

theorem sent_respondWithError {V : Type} (err : GoError) :
    sent (RespondWithError err : List (Effect V)) = [] := by
  unfold RespondWithError
  cases err.asDlib <;> rfl

theorem sendSide_append {V : Type} (xs ys : List (Effect V)) :
    sendSide (xs ++ ys) = sendSide xs ++ sendSide ys := by
  simp [sendSide_eq_filterMap]

theorem sent_append {V : Type} (xs ys : List (Effect V)) :
    sent (xs ++ ys) = sent xs ++ sent ys := by
  simp [sent_eq_filterMap]

theorem body_append {V : Type} (xs ys : List (Effect V)) :
    body (xs ++ ys) = body xs ++ body ys := by
  simp [body_eq_filterMap]

theorem writeHeaders_append {V : Type} (xs ys : List (Effect V)) :
    writeHeaders (xs ++ ys) = writeHeaders xs ++ writeHeaders ys := by
  simp [writeHeaders_eq_filterMap]

theorem sendSide_sends {V α : Type} (f : α → Msg) (vals : List α) :
    sendSide (vals.map (fun v => (Effect.send (f v) : Effect V))) =
      vals.map (fun v => some (f v)) := by
  induction vals with
  | nil => rfl
  | cons v vals ih => simp [sendSide, ih]

theorem sent_sends {V α : Type} (f : α → Msg) (vals : List α) :
    sent (vals.map (fun v => (Effect.send (f v) : Effect V))) = vals.map f := by
  induction vals with
  | nil => rfl
  | cons v vals ih => simp [sent, ih]

theorem body_sends {V α : Type} (f : α → Msg) (vals : List α) :
    body (vals.map (fun v => (Effect.send (f v) : Effect V))) = [] := by
  induction vals with
  | nil => rfl
  | cons v vals ih => simp [body, ih]

theorem writeHeaders_sends {V α : Type} (f : α → Msg) (vals : List α) :
    writeHeaders (vals.map (fun v => (Effect.send (f v) : Effect V))) = [] := by
  induction vals with
  | nil => rfl
  | cons v vals ih => simp [writeHeaders, ih]

theorem writes_sends {V α : Type} (f : α → Msg) (vals : List α) :
    writes (vals.map (fun v => (Effect.send (f v) : Effect V))) = [] := by
  induction vals with
  | nil => rfl
  | cons v vals ih => simp [writes, List.filter_cons, Effect.isWrite]

theorem writes_append {V : Type} (xs ys : List (Effect V)) :
    writes (xs ++ ys) = writes xs ++ writes ys := by
  simp [writes]

theorem writes_eq_filterMap {V : Type} (es : List (Effect V)) :
    writes es = es.filterMap (fun e => if e.isWrite then some e else none) := by
  induction es with
  | nil => rfl
  | cons e es ih =>
    have ih2 : List.filter Effect.isWrite es =
        es.filterMap (fun e => if e.isWrite then some e else none) := ih
    cases h : e.isWrite <;> simp [writes, List.filter_cons, List.filterMap_cons, h, ih2]

theorem writeHeaders_respondWithError {V : Type} (err : GoError) :
    writeHeaders (RespondWithError err : List (Effect V)) =
      [match err.asDlib with | some v => v.Code | none => 500] := by
  unfold RespondWithError
  cases err.asDlib <;> rfl

/-! ## The bulk-save body -/

/-- The trace of a bulk save whose sends and `CloseSend` succeed. -/
theorem bulkSave_trace {V Q R : Type} (m : Marshal V Q R) (zero : V) (scrub : V → V)
    (mk : Q → Msg) (call : Call) (msg : String) (decoded : List V × Option GoError)
    (opened : Except GoError (SaveStream Q R)) (sched : List Bool) (vals : List V)
    (stream : SaveStream Q R) (hd : decoded = (vals, none)) (ho : opened = .ok stream)
    (hsend : ∀ n q, stream.send n q = none) (hclose : stream.closeSend = none) :
    bulkSave m zero scrub mk call msg decoded opened sched =
      .rpc call ::
        (interleave sched
            (vals.map (fun v => (Effect.send (mk (m.ToRequest v)) : Effect V)) ++ [.closeSend])
            (finEffects stream.fin) ++
          [.writeHeader 200,
           .encode (.envelope
             { Msg := msg, Num := stream.items.length,
               Data := some (stream.items.map (fun x => scrub (m.FromResponse zero x).1)) })]) := by
  unfold bulkSave
  rw [hd, ho]
  simp only [sendAll_ok m.ToRequest mk stream.send hsend, hclose, drainAll_eq]
  simp

/-- The send side of a bulk save whose sends succeed, whatever `CloseSend` and the
acknowledgement stream do and under every schedule. -/
theorem bulkSave_sendSide {V Q R : Type} (m : Marshal V Q R) (zero : V) (scrub : V → V)
    (mk : Q → Msg) (call : Call) (msg : String) (decoded : List V × Option GoError)
    (opened : Except GoError (SaveStream Q R)) (sched : List Bool) (vals : List V)
    (stream : SaveStream Q R) (hd : decoded = (vals, none)) (ho : opened = .ok stream)
    (hsend : ∀ n q, stream.send n q = none) :
    sendSide (bulkSave m zero scrub mk call msg decoded opened sched) =
      vals.map (fun v => some (mk (m.ToRequest v))) ++ [none] := by
  unfold bulkSave
  rw [hd, ho]
  simp only [sendAll_ok m.ToRequest mk stream.send hsend, drainAll_eq]
  cases hc : stream.closeSend with
  | none =>
    simp only [sendSide, sendSide_append]
    rw [sendSide_eq_filterMap (interleave _ _ _),
      filterMap_interleave_left _ _ _ _ (sendOp_finEffects stream.fin),
      ← sendSide_eq_filterMap, sendSide_append, sendSide_sends]
    simp [sendSide]
  | some err =>
    simp only [sendSide]
    rw [sendSide_eq_filterMap (interleave _ _ _),
      filterMap_interleave_left _ _ _ _ (sendOp_finEffects stream.fin),
      ← sendSide_eq_filterMap, sendSide_append, sendSide_sends]
    have hcons : sendSide (Effect.closeSend :: (RespondWithError err : List (Effect V))) =
        [none] := by
      show none :: sendSide (RespondWithError err : List (Effect V)) = [none]
      rw [sendSide_respondWithError]
    rw [hcons]

/-- The send side of a bulk save whose send number `pre.length` is the first to
fail: nothing is sent after the failing record and the stream is not closed. -/
theorem bulkSave_sendSide_fail {V Q R : Type} (m : Marshal V Q R) (zero : V) (scrub : V → V)
    (mk : Q → Msg) (call : Call) (msg : String) (decoded : List V × Option GoError)
    (opened : Except GoError (SaveStream Q R)) (sched : List Bool) (pre : List V) (v : V)
    (post : List V) (err : GoError) (stream : SaveStream Q R)
    (hd : decoded = (pre ++ v :: post, none)) (ho : opened = .ok stream)
    (hpre : ∀ k q, k < pre.length → stream.send k q = none)
    (hfail : stream.send pre.length (m.ToRequest v) = some err) :
    sendSide (bulkSave m zero scrub mk call msg decoded opened sched) =
      (pre ++ [v]).map (fun v => some (mk (m.ToRequest v))) := by
  unfold bulkSave
  rw [hd, ho]
  have hs := sendAll_fail m.ToRequest mk stream.send pre v post err 0
    (fun k q hk => by simpa using hpre k q hk) (by simpa using hfail)
  simp only [hs, drainAll_eq, sendSide]
  rw [sendSide_eq_filterMap (interleave _ _ _),
    filterMap_interleave_left _ _ _ _ (sendOp_finEffects stream.fin),
    ← sendSide_eq_filterMap, sendSide_append, sendSide_sends, sendSide_respondWithError]
  simp

theorem not_envelope_respondWithError {V : Type} (err : GoError) (res : Result V) :
    Effect.encode (Payload.envelope res) ∉ (RespondWithError err : List (Effect V)) := by
  intro h
  rcases mem_respondWithError err _ h with h | ⟨_, h⟩ | ⟨_, h⟩ <;> cases h

theorem not_envelope_finEffects {V : Type} (fin : Option GoError) (res : Result V) :
    Effect.encode (Payload.envelope res) ∉ (finEffects fin : List (Effect V)) := by
  intro h
  rcases mem_finEffects fin _ h with ⟨_, h⟩ | ⟨_, h⟩ | ⟨_, h⟩ <;> cases h

theorem not_envelope_sendAll {V Q : Type} (ToRequest : V → Q) (mk : Q → Msg)
    (send : Nat → Q → Option GoError) (n : Nat) (vals : List V) (res : Result V) :
    Effect.encode (Payload.envelope res) ∉ (sendAll ToRequest mk send n vals).1 := by
  intro h
  obtain ⟨_, h⟩ := sendAll_sends ToRequest mk send n vals _ h
  cases h

/-- Every envelope written by a bulk save carries data and no value, whatever the
request, the backend and the schedule are. -/
theorem bulkSave_envelopes {V Q R : Type} (m : Marshal V Q R) (zero : V) (scrub : V → V)
    (mk : Q → Msg) (call : Call) (msg : String) (decoded : List V × Option GoError)
    (opened : Except GoError (SaveStream Q R)) (sched : List Bool) (res : Result V)
    (h : Payload.envelope res ∈ body (bulkSave m zero scrub mk call msg decoded opened sched)) :
    res.Val = none ∧ res.Data.isSome = true := by
  rw [mem_body] at h
  unfold bulkSave at h
  rcases decoded with ⟨vals, _ | derr⟩
  · simp only [List.mem_cons] at h
    rcases h with h | h
    · cases h
    · cases opened with
      | error err => exact absurd h (not_envelope_respondWithError err res)
      | ok stream =>
        simp only [drainAll_eq] at h
        rcases hsa : sendAll m.ToRequest mk stream.send 0 vals with ⟨sends, _ | serr⟩
        · have hsends : Effect.encode (Payload.envelope res) ∉ sends := by
            have := not_envelope_sendAll m.ToRequest mk stream.send 0 vals res
            rwa [hsa] at this
          rw [hsa] at h
          cases hc : stream.closeSend with
          | none =>
            rw [hc] at h
            simp only [List.mem_append, mem_interleave, List.mem_cons, List.mem_singleton,
              List.not_mem_nil, or_false] at h
            rcases h with ((h | h) | h) | h | h
            · exact absurd h hsends
            · cases h
            · exact absurd h (not_envelope_finEffects stream.fin res)
            · cases h
            · cases h
              exact ⟨rfl, rfl⟩
          | some cerr =>
            rw [hc] at h
            simp only [mem_interleave, List.mem_append, List.mem_cons] at h
            rcases h with (h | h | h) | h
            · exact absurd h hsends
            · cases h
            · exact absurd h (not_envelope_respondWithError cerr res)
            · exact absurd h (not_envelope_finEffects stream.fin res)
        · have hsends : Effect.encode (Payload.envelope res) ∉ sends := by
            have := not_envelope_sendAll m.ToRequest mk stream.send 0 vals res
            rwa [hsa] at this
          rw [hsa] at h
          simp only [mem_interleave, List.mem_append] at h
          rcases h with (h | h) | h
          · exact absurd h hsends
          · exact absurd h (not_envelope_respondWithError serr res)
          · exact absurd h (not_envelope_finEffects stream.fin res)
  · exact absurd h (not_envelope_respondWithError derr res)

/-! ## The save-by-id body -/

/-- The trace of a save by id whose send and `CloseSend` succeed. -/
theorem saveByID_trace {V Q R : Type} (m : Marshal V Q R) (zero : V) (scrub : V → V)
    (setID : V → Int → V) (mk : Q → Msg) (call : Call) (msg : String) (idText : String)
    (decoded : V × Option GoError) (opened : Except GoError (SaveStream Q R))
    (sched : List Bool) (id : Int) (v : V) (stream : SaveStream Q R)
    (hid : ParseInt idText = some id) (hd : decoded = (v, none)) (ho : opened = .ok stream)
    (hsend : stream.send 0 (m.ToRequest (setID v id)) = none)
    (hclose : stream.closeSend = none) :
    saveByID m zero scrub setID mk call msg idText decoded opened sched =
      .rpc call ::
        (interleave sched [.send (mk (m.ToRequest (setID v id))), .closeSend]
            (finEffects stream.fin) ++
          [.writeHeader 200,
           .encode (.envelope
             { Msg := msg, Num := 1,
               Val := some (stream.items.foldl (fun val x => scrub (m.FromResponse val x).1)
                 zero) })]) := by
  unfold saveByID
  rw [hid, hd, ho]
  simp only [hsend, hclose, drainLast_eq]

/-- The messages sent by a save by id once the stream is open: the one record,
with the path identifier, whatever the stream does and under every schedule. -/
theorem saveByID_sent {V Q R : Type} (m : Marshal V Q R) (zero : V) (scrub : V → V)
    (setID : V → Int → V) (mk : Q → Msg) (call : Call) (msg : String) (idText : String)
    (decoded : V × Option GoError) (opened : Except GoError (SaveStream Q R))
    (sched : List Bool) (id : Int) (v : V) (stream : SaveStream Q R)
    (hid : ParseInt idText = some id) (hd : decoded = (v, none)) (ho : opened = .ok stream) :
    sent (saveByID m zero scrub setID mk call msg idText decoded opened sched) =
      [mk (m.ToRequest (setID v id))] := by
  unfold saveByID
  rw [hid, hd, ho]
  simp only [drainLast_eq]
  cases hs : stream.send 0 (m.ToRequest (setID v id)) with
  | some err =>
    simp only [sent]
    rw [sent_eq_filterMap (interleave _ _ _),
      filterMap_interleave_left _ _ _ _ (sentMsg_finEffects stream.fin),
      ← sent_eq_filterMap]
    show mk (m.ToRequest (setID v id)) :: sent (RespondWithError err : List (Effect V)) = _
    rw [sent_respondWithError]
  | none =>
    cases hc : stream.closeSend with
    | some err =>
      simp only [sent]
      rw [sent_eq_filterMap (interleave _ _ _),
        filterMap_interleave_left _ _ _ _ (sentMsg_finEffects stream.fin),
        ← sent_eq_filterMap]
      show mk (m.ToRequest (setID v id)) :: sent (RespondWithError err : List (Effect V)) = _
      rw [sent_respondWithError]
    | none =>
      simp only [sent, sent_append]
      rw [sent_eq_filterMap (interleave _ _ _),
        filterMap_interleave_left _ _ _ _ (sentMsg_finEffects stream.fin),
        ← sent_eq_filterMap]
      rfl

/-- Every envelope written by a save by id carries a value, no data and the
number 1, whatever the request, the backend and the schedule are. -/
theorem saveByID_envelopes {V Q R : Type} (m : Marshal V Q R) (zero : V) (scrub : V → V)
    (setID : V → Int → V) (mk : Q → Msg) (call : Call) (msg : String) (idText : String)
    (decoded : V × Option GoError) (opened : Except GoError (SaveStream Q R))
    (sched : List Bool) (res : Result V)
    (h : Payload.envelope res ∈
      body (saveByID m zero scrub setID mk call msg idText decoded opened sched)) :
    res.Val.isSome = true ∧ res.Data = none ∧ res.Num = 1 := by
  rw [mem_body] at h
  unfold saveByID at h
  cases hid : ParseInt idText with
  | none =>
    rw [hid] at h
    exact absurd h (not_envelope_respondWithError _ res)
  | some id =>
    rw [hid] at h
    rcases decoded with ⟨v, _ | derr⟩
    · simp only [List.mem_cons] at h
      rcases h with h | h
      · cases h
      · cases opened with
        | error err => exact absurd h (not_envelope_respondWithError err res)
        | ok stream =>
          simp only [drainLast_eq] at h
          cases hs : stream.send 0 (m.ToRequest (setID v id)) with
          | some serr =>
            rw [hs] at h
            simp only [mem_interleave, List.mem_cons] at h
            rcases h with (h | h) | h
            · cases h
            · exact absurd h (not_envelope_respondWithError serr res)
            · exact absurd h (not_envelope_finEffects stream.fin res)
          | none =>
            rw [hs] at h
            cases hc : stream.closeSend with
            | some cerr =>
              rw [hc] at h
              simp only [mem_interleave, List.mem_cons] at h
              rcases h with (h | h | h) | h
              · cases h
              · cases h
              · exact absurd h (not_envelope_respondWithError cerr res)
              · exact absurd h (not_envelope_finEffects stream.fin res)
            | none =>
              rw [hc] at h
              simp only [List.mem_append, mem_interleave, List.mem_cons, List.mem_singleton,
                List.not_mem_nil, or_false] at h
              rcases h with ((h | h) | h) | h | h
              · cases h
              · cases h
              · exact absurd h (not_envelope_finEffects stream.fin res)
              · cases h
              · cases h
                exact ⟨rfl, rfl, rfl⟩
    · exact absurd h (not_envelope_respondWithError derr res)

/-! ## The delete bodies -/

theorem deleteReply_zero {V : Type} (msg : String) :
    (deleteReply msg (.ok { Num := 0 }) : List (Effect V)) = RespondNotFound := by
  simp [deleteReply]

theorem deleteReply_count {V : Type} (msg : String) (c : Int) (hc : c ≠ 0) :
    (deleteReply msg (.ok { Num := c }) : List (Effect V)) =
      [.writeHeader 200, .encode (.envelope { Msg := msg, Num := c })] := by
  simp [deleteReply, hc]

/-- Every envelope written for the outcome of a unary delete carries neither
value nor data. -/
theorem deleteReply_envelopes {V : Type} (msg : String) (reply : Except GoError DeleteResponse)
    (res : Result V)
    (h : Effect.encode (Payload.envelope res) ∈ (deleteReply msg reply : List (Effect V))) :
    res.Val = none ∧ res.Data = none := by
  unfold deleteReply at h
  cases reply with
  | error err => exact absurd h (not_envelope_respondWithError err res)
  | ok dres =>
    by_cases hz : dres.Num = 0
    · simp only [hz, if_true] at h
      exact absurd h (not_envelope_respondWithError _ res)
    · simp only [hz, if_false, List.mem_cons, List.mem_singleton, List.not_mem_nil,
        or_false] at h
      rcases h with h | h
      · cases h
      · cases h
        exact ⟨rfl, rfl⟩

/-! ## The response shapes of the generic bodies -/

theorem deletedWith_reply {V : Type} (call : Call) (msg : String) (c : Int) :
    DeletedWith (.rpc call :: deleteReply msg (.ok { Num := c }) : List (Effect V))
      call msg c := by
  constructor
  · intro hc
    subst hc
    rw [deleteReply_zero, respondNotFound_eq]
    exact ⟨rfl, rfl, rfl⟩
  · intro hc
    rw [deleteReply_count msg c hc]
    exact ⟨rfl, rfl, rfl⟩

theorem rejectsID_respond {V : Type} :
    RejectsID (RespondWithError (NewError 400 "invalid id value") : List (Effect V)) :=
  ⟨rfl, rfl, rfl, rfl, rfl⟩

theorem failsDecode_respond {V : Type} (e : GoError) :
    FailsDecode (RespondWithError e : List (Effect V)) e := by
  refine ⟨rfl, backendCalls_respondWithError e, sent_respondWithError e,
    status_respondWithError e, ?_⟩
  intro h
  rw [status_respondWithError, body_respondWithError, h]
  exact ⟨rfl, rfl⟩

theorem bulkSave_decode_fail {V Q R : Type} (m : Marshal V Q R) (zero : V) (scrub : V → V)
    (mk : Q → Msg) (call : Call) (msg : String) (decoded : List V × Option GoError)
    (opened : Except GoError (SaveStream Q R)) (sched : List Bool) (e : GoError)
    (hd : decoded.2 = some e) :
    FailsDecode (bulkSave m zero scrub mk call msg decoded opened sched) e := by
  rcases decoded with ⟨vals, oe⟩
  simp only at hd
  subst hd
  exact failsDecode_respond e

theorem saveByID_decode_fail {V Q R : Type} (m : Marshal V Q R) (zero : V) (scrub : V → V)
    (setID : V → Int → V) (mk : Q → Msg) (call : Call) (msg : String) (idText : String)
    (decoded : V × Option GoError) (opened : Except GoError (SaveStream Q R))
    (sched : List Bool) (id : Int) (e : GoError) (hid : ParseInt idText = some id)
    (hd : decoded.2 = some e) :
    FailsDecode (saveByID m zero scrub setID mk call msg idText decoded opened sched) e := by
  rcases decoded with ⟨v, oe⟩
  simp only at hd
  subst hd
  unfold saveByID
  rw [hid]
  exact failsDecode_respond e

theorem deleteFilter_decode_fail {V Q R : Type} (m : Marshal V Q R) (call : Q → Call)
    (msg : String) (decoded : V × Option GoError) (del : Q → Except GoError DeleteResponse)
    (e : GoError) (hd : decoded.2 = some e) :
    FailsDecode (deleteFilter m call msg decoded del) e := by
  rcases decoded with ⟨v, oe⟩
  simp only at hd
  subst hd
  exact failsDecode_respond e

theorem saveByID_bad_id {V Q R : Type} (m : Marshal V Q R) (zero : V) (scrub : V → V)
    (setID : V → Int → V) (mk : Q → Msg) (call : Call) (msg : String) (idText : String)
    (decoded : V × Option GoError) (opened : Except GoError (SaveStream Q R))
    (sched : List Bool) (hid : ParseInt idText = none) :
    RejectsID (saveByID m zero scrub setID mk call msg idText decoded opened sched) := by
  unfold saveByID
  rw [hid]
  exact rejectsID_respond

theorem deleteByID_bad_id {V Q : Type} (mkReq : Int → Q) (call : Q → Call) (msg : String)
    (idText : String) (del : Q → Except GoError DeleteResponse)
    (hid : ParseInt idText = none) :
    RejectsID (deleteByID mkReq call msg idText del : List (Effect V)) := by
  unfold deleteByID
  rw [hid]
  exact rejectsID_respond

theorem status_sends {V α : Type} (f : α → Msg) (vals : List α) (rest : List (Effect V)) :
    status (vals.map (fun v => (Effect.send (f v) : Effect V)) ++ rest) = status rest := by
  induction vals with
  | nil => rfl
  | cons v vals ih => simpa [status] using ih

theorem bulkSave_acknowledged {V Q R : Type} (m : Marshal V Q R) (zero : V) (scrub : V → V)
    (mk : Q → Msg) (call : Call) (msg : String) (decoded : List V × Option GoError)
    (opened : Except GoError (SaveStream Q R)) (sched : List Bool) (vals : List V)
    (stream : SaveStream Q R) (hd : decoded = (vals, none)) (ho : opened = .ok stream)
    (hsend : ∀ n q, stream.send n q = none) (hclose : stream.closeSend = none)
    (hfin : stream.fin = none) :
    Acknowledged (bulkSave m zero scrub mk call msg decoded opened sched) msg
      (stream.items.map (fun x => scrub (m.FromResponse zero x).1)) := by
  rw [bulkSave_trace m zero scrub mk call msg decoded opened sched vals stream hd ho hsend
    hclose, hfin]
  simp only [finEffects, interleave_nil_right, List.append_assoc, List.length_map]
  refine ⟨?_, ?_, ?_⟩
  · show status (_ ++ _) = _
    rw [status_sends]
    rfl
  · show writeHeaders (_ ++ _) = _
    rw [writeHeaders_append, writeHeaders_sends]
    rfl
  · show body (_ ++ _) = _
    rw [body_append, body_sends]
    simp [body]

theorem saveByID_savedOne {V Q R : Type} (m : Marshal V Q R) (zero : V) (scrub : V → V)
    (setID : V → Int → V) (mk : Q → Msg) (call : Call) (msg : String) (idText : String)
    (decoded : V × Option GoError) (opened : Except GoError (SaveStream Q R))
    (sched : List Bool) (id : Int) (v : V) (stream : SaveStream Q R)
    (hid : ParseInt idText = some id) (hd : decoded = (v, none)) (ho : opened = .ok stream)
    (hsend : stream.send 0 (m.ToRequest (setID v id)) = none)
    (hclose : stream.closeSend = none) (hfin : stream.fin = none) :
    SavedOne (saveByID m zero scrub setID mk call msg idText decoded opened sched) msg
      (stream.items.foldl (fun val x => scrub (m.FromResponse val x).1) zero) := by
  rw [saveByID_trace m zero scrub setID mk call msg idText decoded opened sched id v stream
    hid hd ho hsend hclose, hfin]
  simp only [finEffects, interleave_nil_right]
  exact ⟨rfl, rfl, rfl⟩

theorem deleteFilter_envelopes {V Q R : Type} (m : Marshal V Q R) (call : Q → Call)
    (msg : String) (decoded : V × Option GoError) (del : Q → Except GoError DeleteResponse)
    (res : Result V) (h : Payload.envelope res ∈ body (deleteFilter m call msg decoded del)) :
    res.Val = none ∧ res.Data = none := by
  rw [mem_body] at h
  unfold deleteFilter at h
  rcases decoded with ⟨q, _ | derr⟩
  · simp only [List.mem_cons] at h
    rcases h with h | h
    · cases h
    · exact deleteReply_envelopes msg _ res h
  · exact absurd h (not_envelope_respondWithError derr res)

theorem deleteByID_envelopes {V Q : Type} (mkReq : Int → Q) (call : Q → Call) (msg : String)
    (idText : String) (del : Q → Except GoError DeleteResponse) (res : Result V)
    (h : Payload.envelope res ∈ body (deleteByID mkReq call msg idText del : List (Effect V))) :
    res.Val = none ∧ res.Data = none := by
  rw [mem_body] at h
  unfold deleteByID at h
  cases hid : ParseInt idText with
  | none =>
    rw [hid] at h
    exact absurd h (not_envelope_respondWithError _ res)
  | some id =>
    rw [hid] at h
    simp only [List.mem_cons] at h
    rcases h with h | h
    · cases h
    · exact deleteReply_envelopes msg _ res h

theorem not_envelope_recvAll {V R : Type} (F : V → R → V × Option GoError) (zero : V)
    (scrub : V → V) (items : List R) (fin : Option GoError) (data : List V) (res : Result V) :
    Effect.encode (Payload.envelope res) ∉ recvAll F zero scrub items fin data := by
  induction items generalizing data with
  | nil =>
    cases fin with
    | none =>
      unfold recvAll
      split_ifs
      · exact not_envelope_respondWithError _ res
      · intro h
        simp only [List.mem_cons, List.mem_singleton, List.not_mem_nil, or_false] at h
        rcases h with h | h <;> cases h
    | some err =>
      unfold recvAll
      exact not_envelope_respondWithError err res
  | cons x rest ih =>
    unfold recvAll
    rcases hx : F zero x with ⟨v, _ | e⟩
    · exact ih _
    · exact not_envelope_respondWithError e res

theorem not_envelope_recvLast {V R : Type} (F : V → R → V × Option GoError) (zero : V)
    (scrub : V → V) (items : List R) (fin : Option GoError) (cur : Option V) (res : Result V) :
    Effect.encode (Payload.envelope res) ∉ recvLast F zero scrub items fin cur := by
  induction items generalizing cur with
  | nil =>
    cases fin with
    | none =>
      cases cur with
      | none =>
        unfold recvLast
        exact not_envelope_respondWithError _ res
      | some v =>
        unfold recvLast
        intro h
        simp only [List.mem_cons, List.mem_singleton, List.not_mem_nil, or_false] at h
        rcases h with h | h <;> cases h
    | some err =>
      unfold recvLast
      exact not_envelope_respondWithError err res
  | cons x rest ih =>
    unfold recvLast
    rcases hx : F zero x with ⟨v, _ | e⟩
    · exact ih _
    · exact not_envelope_respondWithError e res

/-- A bulk save whose acknowledgement stream ends with an error other than
`io.EOF`, the sends and `CloseSend` succeeding: under every schedule the response
receives the error response of the draining task and then the success envelope. -/
theorem bulkSave_stream_error {V Q R : Type} (m : Marshal V Q R) (zero : V) (scrub : V → V)
    (mk : Q → Msg) (call : Call) (msg : String) (decoded : List V × Option GoError)
    (opened : Except GoError (SaveStream Q R)) (sched : List Bool) (vals : List V)
    (stream : SaveStream Q R) (err : GoError) (hd : decoded = (vals, none))
    (ho : opened = .ok stream) (hsend : ∀ n q, stream.send n q = none)
    (hclose : stream.closeSend = none) (hfin : stream.fin = some err) :
    writeHeaders (bulkSave m zero scrub mk call msg decoded opened sched) =
      writeHeaders (RespondWithError err : List (Effect V)) ++ [200] ∧
    body (bulkSave m zero scrub mk call msg decoded opened sched) =
      body (RespondWithError err : List (Effect V)) ++
        [.envelope
          { Msg := msg, Num := stream.items.length,
            Data := some (stream.items.map (fun x => scrub (m.FromResponse zero x).1)) }] := by
  rw [bulkSave_trace m zero scrub mk call msg decoded opened sched vals stream hd ho hsend
    hclose, hfin]
  have hnone : ∀ (f : Effect V → Option Int) (g : Effect V → Option (Payload V)),
      f .closeSend = none → (∀ q, f (.send q) = none) → g .closeSend = none →
      (∀ q, g (.send q) = none) →
      ∀ x, x ∈ vals.map (fun v => (Effect.send (mk (m.ToRequest v)) : Effect V)) ++
        [Effect.closeSend] → f x = none ∧ g x = none := by
    intro f g hf1 hf2 hg1 hg2 x hx
    simp only [List.mem_append, List.mem_map, List.mem_singleton] at hx
    rcases hx with ⟨v, _, rfl⟩ | rfl
    · exact ⟨hf2 _, hg2 _⟩
    · exact ⟨hf1, hg1⟩
  have hx := hnone Effect.headerCode Effect.encoded rfl (fun _ => rfl) rfl (fun _ => rfl)
  constructor
  · show writeHeaders (_ ++ _) = _
    rw [writeHeaders_append, writeHeaders_eq_filterMap (interleave _ _ _),
      filterMap_interleave_right _ _ _ _ (fun x h => (hx x h).1), ← writeHeaders_eq_filterMap]
    rfl
  · show body (_ ++ _) = _
    rw [body_append, body_eq_filterMap (interleave _ _ _),
      filterMap_interleave_right _ _ _ _ (fun x h => (hx x h).2), ← body_eq_filterMap]
    rfl

/-- A save by id whose acknowledgement stream ends with an error other than
`io.EOF`, the send and `CloseSend` succeeding: under every schedule the response
receives the error response of the draining task and then the success envelope. -/
theorem saveByID_stream_error {V Q R : Type} (m : Marshal V Q R) (zero : V) (scrub : V → V)
    (setID : V → Int → V) (mk : Q → Msg) (call : Call) (msg : String) (idText : String)
    (decoded : V × Option GoError) (opened : Except GoError (SaveStream Q R))
    (sched : List Bool) (id : Int) (v : V) (stream : SaveStream Q R) (err : GoError)
    (hid : ParseInt idText = some id) (hd : decoded = (v, none)) (ho : opened = .ok stream)
    (hsend : stream.send 0 (m.ToRequest (setID v id)) = none)
    (hclose : stream.closeSend = none) (hfin : stream.fin = some err) :
    writeHeaders (saveByID m zero scrub setID mk call msg idText decoded opened sched) =
      writeHeaders (RespondWithError err : List (Effect V)) ++ [200] ∧
    body (saveByID m zero scrub setID mk call msg idText decoded opened sched) =
      body (RespondWithError err : List (Effect V)) ++
        [.envelope
          { Msg := msg, Num := 1,
            Val := some (stream.items.foldl (fun val x => scrub (m.FromResponse val x).1)
              zero) }] := by
  rw [saveByID_trace m zero scrub setID mk call msg idText decoded opened sched id v stream
    hid hd ho hsend hclose, hfin]
  have hx : ∀ x, x ∈ [(Effect.send (mk (m.ToRequest (setID v id))) : Effect V), .closeSend] →
      Effect.headerCode x = none ∧ Effect.encoded x = none := by
    intro x hx
    simp only [List.mem_cons, List.mem_singleton, List.not_mem_nil, or_false] at hx
    rcases hx with rfl | rfl <;> exact ⟨rfl, rfl⟩
  constructor
  · show writeHeaders (_ ++ _) = _
    rw [writeHeaders_append, writeHeaders_eq_filterMap (interleave _ _ _),
      filterMap_interleave_right _ _ _ _ (fun x h => (hx x h).1), ← writeHeaders_eq_filterMap]
    rfl
  · show body (_ ++ _) = _
    rw [body_append, body_eq_filterMap (interleave _ _ _),
      filterMap_interleave_right _ _ _ _ (fun x h => (hx x h).2), ← body_eq_filterMap]
    rfl

/-! ## The write handlers -/

/-- C11: for each delete handler (by filter and by id for the four kinds, and
`DeleteTokensOld`), when the body decodes or the path value parses and the unary
backend call succeeds with the affected count `c`: for `c = 0` the response is the
not-found response, status 404 with the standard body, and for `c ≠ 0` it is status
200 with one envelope whose number is `c` and which carries neither value nor
data. -/
theorem delete_handlers_count (s : Server) (d : Dauth) (j : Json) (midnight : Int)
    (r : Request) (c : Int) :
    (∀ q, j.token.Decode r.Body = (q, none) →
      s.Auth.DeleteTokens (d.token.ToRequest q) = .ok { Num := c } →
        DeletedWith (DeleteTokens s d j r) (.DeleteTokens (d.token.ToRequest q)) "Tokens deleted" c) ∧
    (∀ q, j.user.Decode r.Body = (q, none) →
      s.Auth.DeleteUsers (d.user.ToRequest q) = .ok { Num := c } →
        DeletedWith (DeleteUsers s d j r) (.DeleteUsers (d.user.ToRequest q)) "Users deleted" c) ∧
    (∀ q, j.perm.Decode r.Body = (q, none) →
      s.Auth.DeletePerms (d.perm.ToRequest q) = .ok { Num := c } →
        DeletedWith (DeletePerms s d j r) (.DeletePerms (d.perm.ToRequest q)) "Permissions deleted" c) ∧
    (∀ q, j.userPerm.Decode r.Body = (q, none) →
      s.Auth.DeleteUserPerms (d.userPerm.ToRequest q) = .ok { Num := c } →
        DeletedWith (DeleteUserPerms s d j r) (.DeleteUserPerms (d.userPerm.ToRequest q)) "User permissions deleted" c) ∧
    (∀ id, ParseInt (r.Var "id") = some id →
      s.Auth.DeleteTokens { ID := id } = .ok { Num := c } →
        DeletedWith (DeleteTokenByID s r) (.DeleteTokens { ID := id }) "Token deleted" c) ∧
    (∀ id, ParseInt (r.Var "id") = some id →
      s.Auth.DeleteUsers { ID := id } = .ok { Num := c } →
        DeletedWith (DeleteUserByID s r) (.DeleteUsers { ID := id }) "User deleted" c) ∧
    (∀ id, ParseInt (r.Var "id") = some id →
      s.Auth.DeletePerms { ID := id } = .ok { Num := c } →
        DeletedWith (DeletePermByID s r) (.DeletePerms { ID := id }) "Permission deleted" c) ∧
    (∀ id, ParseInt (r.Var "id") = some id →
      s.Auth.DeleteUserPerms { ID := id } = .ok { Num := c } →
        DeletedWith (DeleteUserPermByID s r) (.DeleteUserPerms { ID := id }) "User permission deleted" c) ∧
    (∀ age, ParseInt (r.Var "age") = some age →
      s.Auth.DeleteTokens (DeleteTokensOld.req midnight age) = .ok { Num := c } →
        DeletedWith (DeleteTokensOld s midnight r)
          (.DeleteTokens (DeleteTokensOld.req midnight age)) "Old tokens deleted" c) := by
  refine ⟨?_, ?_, ?_, ?_, ?_, ?_, ?_, ?_, ?_⟩
  · intro q hq hs
    have heq : DeleteTokens s d j r =
        .rpc (.DeleteTokens (d.token.ToRequest q)) :: deleteReply "Tokens deleted" (.ok { Num := c }) := by
      simp only [DeleteTokens, deleteFilter, hq, hs]
    rw [heq]
    exact deletedWith_reply _ _ _
  · intro q hq hs
    have heq : DeleteUsers s d j r =
        .rpc (.DeleteUsers (d.user.ToRequest q)) :: deleteReply "Users deleted" (.ok { Num := c }) := by
      simp only [DeleteUsers, deleteFilter, hq, hs]
    rw [heq]
    exact deletedWith_reply _ _ _
  · intro q hq hs
    have heq : DeletePerms s d j r =
        .rpc (.DeletePerms (d.perm.ToRequest q)) :: deleteReply "Permissions deleted" (.ok { Num := c }) := by
      simp only [DeletePerms, deleteFilter, hq, hs]
    rw [heq]
    exact deletedWith_reply _ _ _
  · intro q hq hs
    have heq : DeleteUserPerms s d j r =
        .rpc (.DeleteUserPerms (d.userPerm.ToRequest q)) :: deleteReply "User permissions deleted" (.ok { Num := c }) := by
      simp only [DeleteUserPerms, deleteFilter, hq, hs]
    rw [heq]
    exact deletedWith_reply _ _ _
  · intro id hid hs
    have heq : DeleteTokenByID s r =
        .rpc (.DeleteTokens { ID := id }) :: deleteReply "Token deleted" (.ok { Num := c }) := by
      simp only [DeleteTokenByID, deleteByID, hid, hs]
    rw [heq]
    exact deletedWith_reply _ _ _
  · intro id hid hs
    have heq : DeleteUserByID s r =
        .rpc (.DeleteUsers { ID := id }) :: deleteReply "User deleted" (.ok { Num := c }) := by
      simp only [DeleteUserByID, deleteByID, hid, hs]
    rw [heq]
    exact deletedWith_reply _ _ _
  · intro id hid hs
    have heq : DeletePermByID s r =
        .rpc (.DeletePerms { ID := id }) :: deleteReply "Permission deleted" (.ok { Num := c }) := by
      simp only [DeletePermByID, deleteByID, hid, hs]
    rw [heq]
    exact deletedWith_reply _ _ _
  · intro id hid hs
    have heq : DeleteUserPermByID s r =
        .rpc (.DeleteUserPerms { ID := id }) :: deleteReply "User permission deleted" (.ok { Num := c }) := by
      simp only [DeleteUserPermByID, deleteByID, hid, hs]
    rw [heq]
    exact deletedWith_reply _ _ _
  · intro age hage hs
    have heq : DeleteTokensOld s midnight r =
        .rpc (.DeleteTokens (DeleteTokensOld.req midnight age)) ::
          deleteReply "Old tokens deleted" (.ok { Num := c }) := by
      simp only [DeleteTokensOld, hage, hs]
    rw [heq]
    exact deletedWith_reply _ _ _

/-- Witness of C11: the nine delete handlers against a backend that deletes one
record, and `DeleteUsers` against a backend that deletes none. -/
theorem delete_handlers_count_witness :
    status (DeleteTokens { Auth := Sample.store } Sample.dauth Sample.json Sample.delete) = some 200 ∧
    status (DeleteUsers { Auth := Sample.store } Sample.dauth Sample.json Sample.delete) = some 200 ∧
    status (DeletePerms { Auth := Sample.store } Sample.dauth Sample.json Sample.delete) = some 200 ∧
    status (DeleteUserPerms { Auth := Sample.store } Sample.dauth Sample.json Sample.delete) = some 200 ∧
    status (DeleteTokenByID { Auth := Sample.store } Sample.delete) = some 200 ∧
    status (DeleteUserByID { Auth := Sample.store } Sample.delete) = some 200 ∧
    status (DeletePermByID { Auth := Sample.store } Sample.delete) = some 200 ∧
    status (DeleteUserPermByID { Auth := Sample.store } Sample.delete) = some 200 ∧
    status (DeleteTokensOld { Auth := Sample.store } 1000000000 Sample.delete) = some 200 ∧
    status (DeleteUsers { Auth := Sample.closingThen 0 {} } Sample.dauth Sample.json Sample.delete) =
      some 404 :=
  have h := delete_handlers_count { Auth := Sample.store } Sample.dauth Sample.json 1000000000
    Sample.delete 1
  have g := delete_handlers_count { Auth := Sample.closingThen 0 {} } Sample.dauth Sample.json
    1000000000 Sample.delete 0
  ⟨((h.1 _ rfl rfl).2 (by decide)).2.1,
   ((h.2.1 _ rfl rfl).2 (by decide)).2.1,
   ((h.2.2.1 _ rfl rfl).2 (by decide)).2.1,
   ((h.2.2.2.1 _ rfl rfl).2 (by decide)).2.1,
   ((h.2.2.2.2.1 1 (by decide) rfl).2 (by decide)).2.1,
   ((h.2.2.2.2.2.1 1 (by decide) rfl).2 (by decide)).2.1,
   ((h.2.2.2.2.2.2.1 1 (by decide) rfl).2 (by decide)).2.1,
   ((h.2.2.2.2.2.2.2.1 1 (by decide) rfl).2 (by decide)).2.1,
   ((h.2.2.2.2.2.2.2.2 99 (by decide) rfl).2 (by decide)).2.1,
   ((g.2.1 _ rfl rfl).1 rfl).2.1⟩

/-- C12: for every get-by-id, put-by-id and delete-by-id handler, when the path
identifier does not parse as a base-10 signed 64-bit integer the trace is the
error response for "invalid id value" alone: status 400, that message in the
body, no backend call and nothing sent, under every schedule. -/
theorem by_id_handlers_invalid_id (s : Server) (d : Dauth) (j : Json) (sched : List Bool)
    (r : Request) (h : ParseInt (r.Var "id") = none) :
    RejectsID (GetTokenByID s d r) ∧
    RejectsID (GetUserByID s d r) ∧
    RejectsID (GetPermByID s d r) ∧
    RejectsID (GetUserPermByID s d r) ∧
    RejectsID (PutTokenByID s d j sched r) ∧
    RejectsID (PutUserByID s d j sched r) ∧
    RejectsID (PutPermByID s d j sched r) ∧
    RejectsID (PutUserPermByID s d j sched r) ∧
    RejectsID (DeleteTokenByID s r) ∧
    RejectsID (DeleteUserByID s r) ∧
    RejectsID (DeletePermByID s r) ∧
    RejectsID (DeleteUserPermByID s r) := by
  refine ⟨?_, ?_, ?_, ?_, ?_, ?_, ?_, ?_, ?_, ?_, ?_, ?_⟩
  · have heq : GetTokenByID s d r = RespondWithError (NewError 400 "invalid id value") := by
      simp only [GetTokenByID, h]
    rw [heq]
    exact rejectsID_respond
  · have heq : GetUserByID s d r = RespondWithError (NewError 400 "invalid id value") := by
      simp only [GetUserByID, h]
    rw [heq]
    exact rejectsID_respond
  · have heq : GetPermByID s d r = RespondWithError (NewError 400 "invalid id value") := by
      simp only [GetPermByID, h]
    rw [heq]
    exact rejectsID_respond
  · have heq : GetUserPermByID s d r = RespondWithError (NewError 400 "invalid id value") := by
      simp only [GetUserPermByID, h]
    rw [heq]
    exact rejectsID_respond
  · exact saveByID_bad_id _ _ _ _ _ _ _ _ _ _ _ h
  · exact saveByID_bad_id _ _ _ _ _ _ _ _ _ _ _ h
  · exact saveByID_bad_id _ _ _ _ _ _ _ _ _ _ _ h
  · exact saveByID_bad_id _ _ _ _ _ _ _ _ _ _ _ h
  · exact deleteByID_bad_id _ _ _ _ _ h
  · exact deleteByID_bad_id _ _ _ _ _ h
  · exact deleteByID_bad_id _ _ _ _ _ h
  · exact deleteByID_bad_id _ _ _ _ _ h

/-- Witness of C12: the route variable `x` against a backend with records. -/
theorem by_id_handlers_invalid_id_witness :
    ParseInt (Sample.badID.Var "id") = none ∧
    status (GetUserByID { Auth := Sample.store } Sample.dauth Sample.badID) = some 400 ∧
    backendCalls (PutUserByID { Auth := Sample.store } Sample.dauth Sample.json [] Sample.badID) =
      0 ∧
    body (DeleteUserByID { Auth := Sample.store } Sample.badID) =
      [.error { Code := 400, Msg := "invalid id value" }] :=
  have h := by_id_handlers_invalid_id { Auth := Sample.store } Sample.dauth Sample.json []
    Sample.badID (by decide)
  ⟨by decide, h.2.1.2.1, h.2.2.2.2.2.1.2.2.2.1, h.2.2.2.2.2.2.2.2.2.1.2.2.1⟩

/-- C13 as stated fails: `PostUsers` on an empty body, which the decoder rejects
with `io.EOF`, makes no backend call and answers with status 500, not 400. -/
theorem decode_failure_counterexample :
    (Sample.json.user.DecodeList Sample.emptyBody.Body).2 = some { text := "EOF" } ∧
    backendCalls
      (PostUsers { Auth := Sample.store } Sample.dauth Sample.json [] Sample.emptyBody) = 0 ∧
    status (PostUsers { Auth := Sample.store } Sample.dauth Sample.json [] Sample.emptyBody) =
      some 500 ∧
    ¬ status (PostUsers { Auth := Sample.store } Sample.dauth Sample.json [] Sample.emptyBody) =
      some 400 := by
  decide

/-- C13, amended: for every handler that decodes a JSON request body (the `Post*`,
`Put*ByID` with a valid id, and `Delete*` handlers of the four kinds, `Login` and
`Logout`), a body that fails to decode with the error `e` gets the error response
for `e` alone and no backend call is made; the status is 500, with the body
`{code: 500, msg: e.Error()}`, when `e` is not a `*dlib.Error`, as the errors of
the JSON decoder are. -/
theorem decode_failure_surfaces (s : Server) (d : Dauth) (j : Json) (sched : List Bool)
    (r : Request) (e : GoError) :
    ((j.token.DecodeList r.Body).2 = some e → FailsDecode (PostTokens s d j sched r) e) ∧
    ((j.user.DecodeList r.Body).2 = some e → FailsDecode (PostUsers s d j sched r) e) ∧
    ((j.perm.DecodeList r.Body).2 = some e → FailsDecode (PostPerms s d j sched r) e) ∧
    ((j.userPerm.DecodeList r.Body).2 = some e → FailsDecode (PostUserPerms s d j sched r) e) ∧
    (∀ id, ParseInt (r.Var "id") = some id → (j.token.Decode r.Body).2 = some e →
      FailsDecode (PutTokenByID s d j sched r) e) ∧
    (∀ id, ParseInt (r.Var "id") = some id → (j.user.Decode r.Body).2 = some e →
      FailsDecode (PutUserByID s d j sched r) e) ∧
    (∀ id, ParseInt (r.Var "id") = some id → (j.perm.Decode r.Body).2 = some e →
      FailsDecode (PutPermByID s d j sched r) e) ∧
    (∀ id, ParseInt (r.Var "id") = some id → (j.userPerm.Decode r.Body).2 = some e →
      FailsDecode (PutUserPermByID s d j sched r) e) ∧
    ((j.token.Decode r.Body).2 = some e → FailsDecode (DeleteTokens s d j r) e) ∧
    ((j.user.Decode r.Body).2 = some e → FailsDecode (DeleteUsers s d j r) e) ∧
    ((j.perm.Decode r.Body).2 = some e → FailsDecode (DeletePerms s d j r) e) ∧
    ((j.userPerm.Decode r.Body).2 = some e → FailsDecode (DeleteUserPerms s d j r) e) ∧
    ((j.user.Decode r.Body).2 = some e → FailsDecode (Login s d j r) e) ∧
    ((j.token.Decode r.Body).2 = some e → FailsDecode (Logout s d j r) e) := by
  refine ⟨?_, ?_, ?_, ?_, ?_, ?_, ?_, ?_, ?_, ?_, ?_, ?_, ?_, ?_⟩
  · exact fun h => bulkSave_decode_fail _ _ _ _ _ _ _ _ _ e h
  · exact fun h => bulkSave_decode_fail _ _ _ _ _ _ _ _ _ e h
  · exact fun h => bulkSave_decode_fail _ _ _ _ _ _ _ _ _ e h
  · exact fun h => bulkSave_decode_fail _ _ _ _ _ _ _ _ _ e h
  · exact fun id hid h => saveByID_decode_fail _ _ _ _ _ _ _ _ _ _ _ id e hid h
  · exact fun id hid h => saveByID_decode_fail _ _ _ _ _ _ _ _ _ _ _ id e hid h
  · exact fun id hid h => saveByID_decode_fail _ _ _ _ _ _ _ _ _ _ _ id e hid h
  · exact fun id hid h => saveByID_decode_fail _ _ _ _ _ _ _ _ _ _ _ id e hid h
  · exact fun h => deleteFilter_decode_fail _ _ _ _ _ e h
  · exact fun h => deleteFilter_decode_fail _ _ _ _ _ e h
  · exact fun h => deleteFilter_decode_fail _ _ _ _ _ e h
  · exact fun h => deleteFilter_decode_fail _ _ _ _ _ e h
  · intro h
    have heq : Login s d j r = RespondWithError e := by
      rcases hd : j.user.Decode r.Body with ⟨u, oe⟩
      rw [hd] at h
      simp only at h
      subst h
      simp only [Login, hd]
    rw [heq]
    exact failsDecode_respond e
  · intro h
    have heq : Logout s d j r = RespondWithError e := by
      rcases hd : j.token.Decode r.Body with ⟨t, oe⟩
      rw [hd] at h
      simp only at h
      subst h
      simp only [Logout, hd]
    rw [heq]
    exact failsDecode_respond e

/-- Witness of C13, amended: the empty body on a bulk save, a save by id, a delete
and a login. -/
theorem decode_failure_surfaces_witness :
    status (PostUsers { Auth := Sample.store } Sample.dauth Sample.json [] Sample.emptyBody) =
      some 500 ∧
    status (PutUserByID { Auth := Sample.store } Sample.dauth Sample.json [] Sample.emptyBody) =
      some 500 ∧
    backendCalls
      (DeleteUsers { Auth := Sample.store } Sample.dauth Sample.json Sample.emptyBody) = 0 ∧
    body (Login { Auth := Sample.store } Sample.dauth Sample.json Sample.emptyBody) =
      [.error { Code := 500, Msg := "EOF" }] :=
  have h := decode_failure_surfaces { Auth := Sample.store } Sample.dauth Sample.json []
    Sample.emptyBody { text := "EOF" }
  ⟨((h.2.1 rfl).2.2.2.2 rfl).1,
   ((h.2.2.2.2.2.1 7 (by decide) rfl).2.2.2.2 rfl).1,
   (h.2.2.2.2.2.2.2.2.2.1 rfl).2.1,
   ((h.2.2.2.2.2.2.2.2.2.2.2.2.1 rfl).2.2.2.2 rfl).2⟩

/-- C14 as stated fails: for the `*dlib.Error` with code 0 and message `zero`,
`RespondWithError` calls `WriteHeader(0)`, which panics: no status line and no
body are written, so the status written is not the code of the error and the body
is not the error. -/
theorem respondWithError_mapping_counterexample :
    (NewError 0 "zero").asDlib = some { Code := 0, Msg := "zero" } ∧
    (RespondWithError (NewError 0 "zero") : List (Effect User)) =
      [.log (NewError 0 "zero"), .writeHeader 0, .encode (.error { Code := 0, Msg := "zero" })] ∧
    checkWriteHeaderCode 0 = false ∧
    written none (RespondWithError (NewError 0 "zero") : List (Effect User)) =
      { StatusCode := none, Body := [], Panicked := true } ∧
    ¬ (written none (RespondWithError (NewError 0 "zero") : List (Effect User))).StatusCode =
      some 0 ∧
    ¬ (written none (RespondWithError (NewError 0 "zero") : List (Effect User))).Body =
      [.error { Code := 0, Msg := "zero" }] := by
  refine ⟨rfl, rfl, rfl, ?_, ?_, ?_⟩ <;> decide

/-- The response written for a status line and one body value. -/
theorem written_header_encode {V : Type} (err : GoError) (code : Int) (p : Payload V)
    (hlo : 200 ≤ code) (hhi : code ≤ 999) (h204 : code ≠ 204) (h304 : code ≠ 304) :
    written none ([.log err, .writeHeader code, .encode p] : List (Effect V)) =
      { StatusCode := some code, Body := [p], Panicked := false } := by
  have hcheck : checkWriteHeaderCode code = true := by
    unfold checkWriteHeaderCode
    exact decide_eq_true ⟨by omega, hhi⟩
  have hinfo : informational code = false := by
    unfold informational
    exact decide_eq_false (fun h => by omega)
  have hbody : bodyAllowedForStatus code = true := by
    unfold bodyAllowedForStatus
    have h1 : decide (100 ≤ code ∧ code ≤ 199) = false := decide_eq_false (fun h => by omega)
    have h2 : decide (code = 204) = false := decide_eq_false h204
    have h3 : decide (code = 304) = false := decide_eq_false h304
    rw [h1, h2, h3]
    rfl
  simp [written, hcheck, hinfo, hbody]

/-- C14, amended: `RespondWithError` writes, for an error that is a `*dlib.Error`
whose code `c` the response writer sends as the status of a response with a body
(`c` between 200 and 999, other than 204 and 304), the status `c` and that error
as body; for every other error the status 500 and the body
`{code: 500, msg: err.Error()}`. `RespondNotFound` and `NotFoundHandler` produce
status 404, with the body "resource not found". -/
theorem respondWithError_mapping {V : Type} (err : GoError) (r : Request) :
    (∀ v, err.asDlib = some v → 200 ≤ v.Code → v.Code ≤ 999 → v.Code ≠ 204 → v.Code ≠ 304 →
      (RespondWithError err : List (Effect V)) =
        [.log err, .writeHeader v.Code, .encode (.error v)] ∧
      written none (RespondWithError err : List (Effect V)) =
        { StatusCode := some v.Code, Body := [.error v], Panicked := false }) ∧
    (err.asDlib = none →
      (RespondWithError err : List (Effect V)) =
        [.log err, .writeHeader 500, .encode (.error { Code := 500, Msg := err.text })] ∧
      written none (RespondWithError err : List (Effect V)) =
        { StatusCode := some 500, Body := [.error { Code := 500, Msg := err.text }],
          Panicked := false }) ∧
    written none (RespondNotFound : List (Effect V)) =
      { StatusCode := some 404, Body := [.error { Code := 404, Msg := "resource not found" }],
        Panicked := false } ∧
    written none (NotFoundHandler r : List (Effect V)) =
      { StatusCode := some 404, Body := [.error { Code := 404, Msg := "resource not found" }],
        Panicked := false } := by
  refine ⟨?_, ?_, ?_, ?_⟩
  · intro v hv hlo hhi h204 h304
    have heq : (RespondWithError err : List (Effect V)) =
        [.log err, .writeHeader v.Code, .encode (.error v)] := by
      simp [RespondWithError, hv]
    rw [heq]
    exact ⟨rfl, written_header_encode err v.Code _ hlo hhi h204 h304⟩
  · intro hv
    have heq : (RespondWithError err : List (Effect V)) =
        [.log err, .writeHeader 500, .encode (.error { Code := 500, Msg := err.text })] := by
      simp [RespondWithError, hv]
    rw [heq]
    exact ⟨rfl, written_header_encode err 500 _ (by decide) (by decide) (by decide) (by decide)⟩
  · rw [respondNotFound_eq]
    exact written_header_encode _ 404 _ (by decide) (by decide) (by decide) (by decide)
  · show written none (RespondNotFound : List (Effect V)) = _
    rw [respondNotFound_eq]
    exact written_header_encode _ 404 _ (by decide) (by decide) (by decide) (by decide)

/-- Witness of C14: the error of the test of `RespondWithError`, a `*dlib.Error`
with code 403 and a transport error. -/
theorem respondWithError_mapping_witness :
    (written none (RespondWithError (NewError 500 "testerror") : List (Effect User))).StatusCode =
      some 500 ∧
    written none (RespondWithError (NewError 403 "forbidden") : List (Effect User)) =
      { StatusCode := some 403, Body := [.error { Code := 403, Msg := "forbidden" }],
        Panicked := false } ∧
    written none (RespondWithError Sample.reset : List (Effect User)) =
      { StatusCode := some 500,
        Body := [.error { Code := 500, Msg := "rpc error: code = Internal desc = stream reset" }],
        Panicked := false } :=
  ⟨congrArg Response.StatusCode
     (((respondWithError_mapping (NewError 500 "testerror") Sample.request).1 _ rfl
       (by decide) (by decide) (by decide) (by decide)).2),
   ((respondWithError_mapping (NewError 403 "forbidden") Sample.request).1 _ rfl
     (by decide) (by decide) (by decide) (by decide)).2,
   ((respondWithError_mapping Sample.reset Sample.request).2.1 rfl).2⟩

/-- C15: for each bulk-save handler, for every decoded input array of `N` records
and every acknowledgement stream that emits `m` items and then `io.EOF` (the stream
opened, the sends and `CloseSend` succeeding), under every schedule of the two
tasks the response is status 200 with one envelope whose number is `m` and whose
data is the `m` converted acknowledgements in received order (for users with the
secret cleared), with no value; `m` is not tied to `N`. -/
theorem bulk_save_acknowledged (s : Server) (d : Dauth) (j : Json) (sched : List Bool)
    (r : Request) :
    (∀ vals stream, j.token.DecodeList r.Body = (vals, none) →
      s.Auth.SaveTokens = .ok stream → (∀ n q, stream.send n q = none) →
      stream.closeSend = none → stream.fin = none →
        Acknowledged (PostTokens s d j sched r) "Tokens saved"
          (stream.items.map (fun x => (d.token.FromResponse {} x).1))) ∧
    (∀ vals stream, j.user.DecodeList r.Body = (vals, none) →
      s.Auth.SaveUsers = .ok stream → (∀ n q, stream.send n q = none) →
      stream.closeSend = none → stream.fin = none →
        Acknowledged (PostUsers s d j sched r) "Users saved"
          (stream.items.map (fun x => { (d.user.FromResponse {} x).1 with Pass := "" }))) ∧
    (∀ vals stream, j.perm.DecodeList r.Body = (vals, none) →
      s.Auth.SavePerms = .ok stream → (∀ n q, stream.send n q = none) →
      stream.closeSend = none → stream.fin = none →
        Acknowledged (PostPerms s d j sched r) "Permissions saved"
          (stream.items.map (fun x => (d.perm.FromResponse {} x).1))) ∧
    (∀ vals stream, j.userPerm.DecodeList r.Body = (vals, none) →
      s.Auth.SaveUserPerms = .ok stream → (∀ n q, stream.send n q = none) →
      stream.closeSend = none → stream.fin = none →
        Acknowledged (PostUserPerms s d j sched r) "User permissions saved"
          (stream.items.map (fun x => (d.userPerm.FromResponse {} x).1))) := by
  refine ⟨?_, ?_, ?_, ?_⟩
  · exact fun vals stream hd ho hsend hclose hfin =>
      bulkSave_acknowledged _ _ _ _ _ _ _ _ _ vals stream hd ho hsend hclose hfin
  · exact fun vals stream hd ho hsend hclose hfin =>
      bulkSave_acknowledged _ _ _ _ _ _ _ _ _ vals stream hd ho hsend hclose hfin
  · exact fun vals stream hd ho hsend hclose hfin =>
      bulkSave_acknowledged _ _ _ _ _ _ _ _ _ vals stream hd ho hsend hclose hfin
  · exact fun vals stream hd ho hsend hclose hfin =>
      bulkSave_acknowledged _ _ _ _ _ _ _ _ _ vals stream hd ho hsend hclose hfin

/-- Witness of C15: two records posted, one acknowledged. -/
theorem bulk_save_acknowledged_witness :
    body (PostTokens { Auth := Sample.store } Sample.dauth Sample.json [true, false] Sample.post) =
      [.envelope { Msg := "Tokens saved", Num := 1,
                   Data := some [{ ID := 1, Token := "test", UserID := 1 }] }] ∧
    body (PostUsers { Auth := Sample.store } Sample.dauth Sample.json [true, false] Sample.post) =
      [.envelope { Msg := "Users saved", Num := 1, Data := some [{ ID := 1, User := "test" }] }] ∧
    body (PostPerms { Auth := Sample.store } Sample.dauth Sample.json [true, false] Sample.post) =
      [.envelope { Msg := "Permissions saved", Num := 1,
                   Data := some [{ ID := 1, Service := "test", Name := "test" }] }] ∧
    body (PostUserPerms { Auth := Sample.store } Sample.dauth Sample.json [true, false]
        Sample.post) =
      [.envelope { Msg := "User permissions saved", Num := 1,
                   Data := some [{ ID := 1, UserID := 1, PermID := 1 }] }] :=
  have h := bulk_save_acknowledged { Auth := Sample.store } Sample.dauth Sample.json
    [true, false] Sample.post
  ⟨(h.1 _ _ rfl rfl (fun _ _ => rfl) rfl rfl).2.2,
   (h.2.1 _ _ rfl rfl (fun _ _ => rfl) rfl rfl).2.2,
   (h.2.2.1 _ _ rfl rfl (fun _ _ => rfl) rfl rfl).2.2,
   (h.2.2.2 _ _ rfl rfl (fun _ _ => rfl) rfl rfl).2.2⟩

/-- C16: for each bulk-save handler and every decoded input array, once the stream
is open and under every schedule: when no `Send` fails, the operations on the send
side are one `Send(ToRequest(v))` per record in array order followed by one
`CloseSend` (`none`); when the send of the record after `pre` is the first to
fail, the sends are those of `pre` and of that record, no later record is sent
and the stream is not closed. -/
theorem bulk_save_send_order (s : Server) (d : Dauth) (j : Json) (sched : List Bool)
    (r : Request) :
    (∀ vals stream, j.token.DecodeList r.Body = (vals, none) →
      s.Auth.SaveTokens = .ok stream → (∀ n q, stream.send n q = none) →
        sendSide (PostTokens s d j sched r) =
          vals.map (fun v => some (Msg.token (d.token.ToRequest v))) ++ [none]) ∧
    (∀ pre v post err stream, j.token.DecodeList r.Body = (pre ++ v :: post, none) →
      s.Auth.SaveTokens = .ok stream → (∀ k q, k < pre.length → stream.send k q = none) →
      stream.send pre.length (d.token.ToRequest v) = some err →
        sendSide (PostTokens s d j sched r) =
          (pre ++ [v]).map (fun v => some (Msg.token (d.token.ToRequest v)))) ∧
    (∀ vals stream, j.user.DecodeList r.Body = (vals, none) →
      s.Auth.SaveUsers = .ok stream → (∀ n q, stream.send n q = none) →
        sendSide (PostUsers s d j sched r) =
          vals.map (fun v => some (Msg.user (d.user.ToRequest v))) ++ [none]) ∧
    (∀ pre v post err stream, j.user.DecodeList r.Body = (pre ++ v :: post, none) →
      s.Auth.SaveUsers = .ok stream → (∀ k q, k < pre.length → stream.send k q = none) →
      stream.send pre.length (d.user.ToRequest v) = some err →
        sendSide (PostUsers s d j sched r) =
          (pre ++ [v]).map (fun v => some (Msg.user (d.user.ToRequest v)))) ∧
    (∀ vals stream, j.perm.DecodeList r.Body = (vals, none) →
      s.Auth.SavePerms = .ok stream → (∀ n q, stream.send n q = none) →
        sendSide (PostPerms s d j sched r) =
          vals.map (fun v => some (Msg.perm (d.perm.ToRequest v))) ++ [none]) ∧
    (∀ pre v post err stream, j.perm.DecodeList r.Body = (pre ++ v :: post, none) →
      s.Auth.SavePerms = .ok stream → (∀ k q, k < pre.length → stream.send k q = none) →
      stream.send pre.length (d.perm.ToRequest v) = some err →
        sendSide (PostPerms s d j sched r) =
          (pre ++ [v]).map (fun v => some (Msg.perm (d.perm.ToRequest v)))) ∧
    (∀ vals stream, j.userPerm.DecodeList r.Body = (vals, none) →
      s.Auth.SaveUserPerms = .ok stream → (∀ n q, stream.send n q = none) →
        sendSide (PostUserPerms s d j sched r) =
          vals.map (fun v => some (Msg.userPerm (d.userPerm.ToRequest v))) ++ [none]) ∧
    (∀ pre v post err stream, j.userPerm.DecodeList r.Body = (pre ++ v :: post, none) →
      s.Auth.SaveUserPerms = .ok stream → (∀ k q, k < pre.length → stream.send k q = none) →
      stream.send pre.length (d.userPerm.ToRequest v) = some err →
        sendSide (PostUserPerms s d j sched r) =
          (pre ++ [v]).map (fun v => some (Msg.userPerm (d.userPerm.ToRequest v)))) := by
  refine ⟨?_, ?_, ?_, ?_, ?_, ?_, ?_, ?_⟩
  · exact fun vals stream hd ho hsend =>
      bulkSave_sendSide _ _ _ _ _ _ _ _ _ vals stream hd ho hsend
  · exact fun pre v post err stream hd ho hpre hfail =>
      bulkSave_sendSide_fail _ _ _ _ _ _ _ _ _ pre v post err stream hd ho hpre hfail
  · exact fun vals stream hd ho hsend =>
      bulkSave_sendSide _ _ _ _ _ _ _ _ _ vals stream hd ho hsend
  · exact fun pre v post err stream hd ho hpre hfail =>
      bulkSave_sendSide_fail _ _ _ _ _ _ _ _ _ pre v post err stream hd ho hpre hfail
  · exact fun vals stream hd ho hsend =>
      bulkSave_sendSide _ _ _ _ _ _ _ _ _ vals stream hd ho hsend
  · exact fun pre v post err stream hd ho hpre hfail =>
      bulkSave_sendSide_fail _ _ _ _ _ _ _ _ _ pre v post err stream hd ho hpre hfail
  · exact fun vals stream hd ho hsend =>
      bulkSave_sendSide _ _ _ _ _ _ _ _ _ vals stream hd ho hsend
  · exact fun pre v post err stream hd ho hpre hfail =>
      bulkSave_sendSide_fail _ _ _ _ _ _ _ _ _ pre v post err stream hd ho hpre hfail

/-- Witness of C16: two users posted to a stream that accepts them, and to a stream
that refuses the first send. -/
theorem bulk_save_send_order_witness :
    sendSide (PostUsers { Auth := Sample.store } Sample.dauth Sample.json [false] Sample.post) =
      [some (.user { ID := 1 }), some (.user { ID := 2 }), none] ∧
    sendSide (PostUsers { Auth := Sample.refusing } Sample.dauth Sample.json [false]
        Sample.post) =
      [some (.user { ID := 1 })] :=
  ⟨(bulk_save_send_order { Auth := Sample.store } Sample.dauth Sample.json [false]
      Sample.post).2.2.1 _ _ rfl rfl (fun _ _ => rfl),
   (bulk_save_send_order { Auth := Sample.refusing } Sample.dauth Sample.json [false]
      Sample.post).2.2.2.1 [] { ID := 1 } [{ ID := 2 }] Sample.reset _ rfl rfl
      (fun k _ hk => absurd hk (Nat.not_lt_zero k)) rfl⟩

/-- C17: for each save-by-id handler, every valid path id `p` and every decodable
body, once the stream is open and under every schedule: exactly one record is
sent, the decoded record with its identifier set to `p` (so the identifier of the
message is `p` whenever `ToRequest` carries the identifier over); every envelope
written carries a value and no data; and when the send and `CloseSend` succeed
and the acknowledgements end with `io.EOF` the response is status 200 with one
such envelope. -/
theorem save_by_id_sends_path_id (s : Server) (d : Dauth) (j : Json) (sched : List Bool)
    (r : Request) :
    (∀ id v stream, ParseInt (r.Var "id") = some id → j.token.Decode r.Body = (v, none) →
      s.Auth.SaveTokens = .ok stream →
        sent (PutTokenByID s d j sched r) = [Msg.token (d.token.ToRequest { v with ID := id })] ∧
        ((∀ x, (d.token.ToRequest x).ID = x.ID) →
          (sent (PutTokenByID s d j sched r)).map Msg.id = [id]) ∧
        (∀ res, Payload.envelope res ∈ body (PutTokenByID s d j sched r) →
          res.Val.isSome = true ∧ res.Data = none) ∧
        (stream.send 0 (d.token.ToRequest { v with ID := id }) = none →
          stream.closeSend = none → stream.fin = none →
            SavedOne (PutTokenByID s d j sched r) "Token saved"
              (stream.items.foldl (fun val x => (d.token.FromResponse val x).1) {}))) ∧
    (∀ id v stream, ParseInt (r.Var "id") = some id → j.user.Decode r.Body = (v, none) →
      s.Auth.SaveUsers = .ok stream →
        sent (PutUserByID s d j sched r) = [Msg.user (d.user.ToRequest { v with ID := id })] ∧
        ((∀ x, (d.user.ToRequest x).ID = x.ID) →
          (sent (PutUserByID s d j sched r)).map Msg.id = [id]) ∧
        (∀ res, Payload.envelope res ∈ body (PutUserByID s d j sched r) →
          res.Val.isSome = true ∧ res.Data = none) ∧
        (stream.send 0 (d.user.ToRequest { v with ID := id }) = none →
          stream.closeSend = none → stream.fin = none →
            SavedOne (PutUserByID s d j sched r) "User saved"
              (stream.items.foldl (fun val x => { (d.user.FromResponse val x).1 with Pass := "" }) {}))) ∧
    (∀ id v stream, ParseInt (r.Var "id") = some id → j.perm.Decode r.Body = (v, none) →
      s.Auth.SavePerms = .ok stream →
        sent (PutPermByID s d j sched r) = [Msg.perm (d.perm.ToRequest { v with ID := id })] ∧
        ((∀ x, (d.perm.ToRequest x).ID = x.ID) →
          (sent (PutPermByID s d j sched r)).map Msg.id = [id]) ∧
        (∀ res, Payload.envelope res ∈ body (PutPermByID s d j sched r) →
          res.Val.isSome = true ∧ res.Data = none) ∧
        (stream.send 0 (d.perm.ToRequest { v with ID := id }) = none →
          stream.closeSend = none → stream.fin = none →
            SavedOne (PutPermByID s d j sched r) "Permission saved"
              (stream.items.foldl (fun val x => (d.perm.FromResponse val x).1) {}))) ∧
    (∀ id v stream, ParseInt (r.Var "id") = some id → j.userPerm.Decode r.Body = (v, none) →
      s.Auth.SaveUserPerms = .ok stream →
        sent (PutUserPermByID s d j sched r) = [Msg.userPerm (d.userPerm.ToRequest { v with ID := id })] ∧
        ((∀ x, (d.userPerm.ToRequest x).ID = x.ID) →
          (sent (PutUserPermByID s d j sched r)).map Msg.id = [id]) ∧
        (∀ res, Payload.envelope res ∈ body (PutUserPermByID s d j sched r) →
          res.Val.isSome = true ∧ res.Data = none) ∧
        (stream.send 0 (d.userPerm.ToRequest { v with ID := id }) = none →
          stream.closeSend = none → stream.fin = none →
            SavedOne (PutUserPermByID s d j sched r) "User permission saved"
              (stream.items.foldl (fun val x => (d.userPerm.FromResponse val x).1) {}))) := by
  refine ⟨?_, ?_, ?_, ?_⟩
  · intro id v stream hid hd ho
    have hsent : sent (PutTokenByID s d j sched r) =
        [Msg.token (d.token.ToRequest { v with ID := id })] :=
      saveByID_sent _ _ _ _ _ _ _ _ _ _ _ id v stream hid hd ho
    refine ⟨hsent, ?_, ?_, ?_⟩
    · intro hID
      rw [hsent]
      simp [Msg.id, hID]
    · intro res hres
      have h := saveByID_envelopes _ _ _ _ _ _ _ _ _ _ _ res hres
      exact ⟨h.1, h.2.1⟩
    · exact fun hsend hclose hfin =>
        saveByID_savedOne _ _ _ _ _ _ _ _ _ _ _ id v stream hid hd ho hsend hclose hfin
  · intro id v stream hid hd ho
    have hsent : sent (PutUserByID s d j sched r) =
        [Msg.user (d.user.ToRequest { v with ID := id })] :=
      saveByID_sent _ _ _ _ _ _ _ _ _ _ _ id v stream hid hd ho
    refine ⟨hsent, ?_, ?_, ?_⟩
    · intro hID
      rw [hsent]
      simp [Msg.id, hID]
    · intro res hres
      have h := saveByID_envelopes _ _ _ _ _ _ _ _ _ _ _ res hres
      exact ⟨h.1, h.2.1⟩
    · exact fun hsend hclose hfin =>
        saveByID_savedOne _ _ _ _ _ _ _ _ _ _ _ id v stream hid hd ho hsend hclose hfin
  · intro id v stream hid hd ho
    have hsent : sent (PutPermByID s d j sched r) =
        [Msg.perm (d.perm.ToRequest { v with ID := id })] :=
      saveByID_sent _ _ _ _ _ _ _ _ _ _ _ id v stream hid hd ho
    refine ⟨hsent, ?_, ?_, ?_⟩
    · intro hID
      rw [hsent]
      simp [Msg.id, hID]
    · intro res hres
      have h := saveByID_envelopes _ _ _ _ _ _ _ _ _ _ _ res hres
      exact ⟨h.1, h.2.1⟩
    · exact fun hsend hclose hfin =>
        saveByID_savedOne _ _ _ _ _ _ _ _ _ _ _ id v stream hid hd ho hsend hclose hfin
  · intro id v stream hid hd ho
    have hsent : sent (PutUserPermByID s d j sched r) =
        [Msg.userPerm (d.userPerm.ToRequest { v with ID := id })] :=
      saveByID_sent _ _ _ _ _ _ _ _ _ _ _ id v stream hid hd ho
    refine ⟨hsent, ?_, ?_, ?_⟩
    · intro hID
      rw [hsent]
      simp [Msg.id, hID]
    · intro res hres
      have h := saveByID_envelopes _ _ _ _ _ _ _ _ _ _ _ res hres
      exact ⟨h.1, h.2.1⟩
    · exact fun hsend hclose hfin =>
        saveByID_savedOne _ _ _ _ _ _ _ _ _ _ _ id v stream hid hd ho hsend hclose hfin

/-- Witness of C17: the body carries id 1 and the path id 7; the record sent has
id 7. -/
theorem save_by_id_sends_path_id_witness :
    sent (PutUserByID { Auth := Sample.store } Sample.dauth Sample.json [false] Sample.put) =
      [.user { ID := 7 }] ∧
    (sent (PutTokenByID { Auth := Sample.store } Sample.dauth Sample.json [false]
      Sample.put)).map Msg.id = [7] ∧
    body (PutUserByID { Auth := Sample.store } Sample.dauth Sample.json [false] Sample.put) =
      [.envelope { Msg := "User saved", Num := 1, Val := some { ID := 1, User := "test" } }] :=
  have h := save_by_id_sends_path_id { Auth := Sample.store } Sample.dauth Sample.json [false]
    Sample.put
  ⟨(h.2.1 7 { ID := 1 } _ (by decide) rfl rfl).1,
   (h.1 7 { ID := 1 } _ (by decide) rfl rfl).2.1 (fun _ => rfl),
   ((h.2.1 7 { ID := 1 } _ (by decide) rfl rfl).2.2.2 rfl rfl rfl).2.2⟩

/-- C18 as stated fails: `PutUserByID` against a save stream that acknowledges no
record (`m = 0`) answers with an envelope whose number is 1, not 0, and whose
value is the zero record. -/
theorem save_by_id_number_counterexample :
    Sample.unacknowledging.SaveUsers = .ok Sample.silent ∧
    Sample.silent.items.length = 0 ∧ Sample.silent.fin = none ∧
    body (PutUserByID { Auth := Sample.unacknowledging } Sample.dauth Sample.json [] Sample.put) =
      [.envelope { Msg := "User saved", Num := 1, Val := some { ID := 0 } }] ∧
    ¬ body (PutUserByID { Auth := Sample.unacknowledging } Sample.dauth Sample.json []
        Sample.put) =
      [.envelope { Msg := "User saved", Num := 0, Val := some { ID := 0 } }] := by
  refine ⟨rfl, rfl, rfl, ?_, ?_⟩ <;> decide

/-- C18, amended: in every envelope written by a save-by-id handler the number is
the constant 1; in particular, for every acknowledgement stream that emits `m`
items and then `io.EOF` (valid id, decodable body, stream opened, send and
`CloseSend` succeeding), under every schedule the body is one envelope with the
number 1, whatever `m` is. -/
theorem save_by_id_number_one (s : Server) (d : Dauth) (j : Json) (sched : List Bool)
    (r : Request) :
    (∀ res, Payload.envelope res ∈ body (PutTokenByID s d j sched r) → res.Num = 1) ∧
    (∀ id v stream, ParseInt (r.Var "id") = some id → j.token.Decode r.Body = (v, none) →
      s.Auth.SaveTokens = .ok stream →
      stream.send 0 (d.token.ToRequest { v with ID := id }) = none →
      stream.closeSend = none → stream.fin = none →
        body (PutTokenByID s d j sched r) =
          [.envelope { Msg := "Token saved", Num := 1, Data := none,
                       Val := some (stream.items.foldl (fun val x => (d.token.FromResponse val x).1) {}) }]) ∧
    (∀ res, Payload.envelope res ∈ body (PutUserByID s d j sched r) → res.Num = 1) ∧
    (∀ id v stream, ParseInt (r.Var "id") = some id → j.user.Decode r.Body = (v, none) →
      s.Auth.SaveUsers = .ok stream →
      stream.send 0 (d.user.ToRequest { v with ID := id }) = none →
      stream.closeSend = none → stream.fin = none →
        body (PutUserByID s d j sched r) =
          [.envelope { Msg := "User saved", Num := 1, Data := none,
                       Val := some (stream.items.foldl (fun val x => { (d.user.FromResponse val x).1 with Pass := "" }) {}) }]) ∧
    (∀ res, Payload.envelope res ∈ body (PutPermByID s d j sched r) → res.Num = 1) ∧
    (∀ id v stream, ParseInt (r.Var "id") = some id → j.perm.Decode r.Body = (v, none) →
      s.Auth.SavePerms = .ok stream →
      stream.send 0 (d.perm.ToRequest { v with ID := id }) = none →
      stream.closeSend = none → stream.fin = none →
        body (PutPermByID s d j sched r) =
          [.envelope { Msg := "Permission saved", Num := 1, Data := none,
                       Val := some (stream.items.foldl (fun val x => (d.perm.FromResponse val x).1) {}) }]) ∧
    (∀ res, Payload.envelope res ∈ body (PutUserPermByID s d j sched r) → res.Num = 1) ∧
    (∀ id v stream, ParseInt (r.Var "id") = some id → j.userPerm.Decode r.Body = (v, none) →
      s.Auth.SaveUserPerms = .ok stream →
      stream.send 0 (d.userPerm.ToRequest { v with ID := id }) = none →
      stream.closeSend = none → stream.fin = none →
        body (PutUserPermByID s d j sched r) =
          [.envelope { Msg := "User permission saved", Num := 1, Data := none,
                       Val := some (stream.items.foldl (fun val x => (d.userPerm.FromResponse val x).1) {}) }]) := by
  refine ⟨?_, ?_, ?_, ?_, ?_, ?_, ?_, ?_⟩
  · exact fun res hres => (saveByID_envelopes _ _ _ _ _ _ _ _ _ _ _ res hres).2.2
  · exact fun id v stream hid hd ho hsend hclose hfin =>
      (saveByID_savedOne _ _ _ _ _ _ _ _ _ _ _ id v stream hid hd ho hsend hclose hfin).2.2
  · exact fun res hres => (saveByID_envelopes _ _ _ _ _ _ _ _ _ _ _ res hres).2.2
  · exact fun id v stream hid hd ho hsend hclose hfin =>
      (saveByID_savedOne _ _ _ _ _ _ _ _ _ _ _ id v stream hid hd ho hsend hclose hfin).2.2
  · exact fun res hres => (saveByID_envelopes _ _ _ _ _ _ _ _ _ _ _ res hres).2.2
  · exact fun id v stream hid hd ho hsend hclose hfin =>
      (saveByID_savedOne _ _ _ _ _ _ _ _ _ _ _ id v stream hid hd ho hsend hclose hfin).2.2
  · exact fun res hres => (saveByID_envelopes _ _ _ _ _ _ _ _ _ _ _ res hres).2.2
  · exact fun id v stream hid hd ho hsend hclose hfin =>
      (saveByID_savedOne _ _ _ _ _ _ _ _ _ _ _ id v stream hid hd ho hsend hclose hfin).2.2

/-- Witness of C18, amended: no acknowledgement (`Sample.unacknowledging`) and one
acknowledgement (`Sample.store`) both give the number 1. -/
theorem save_by_id_number_one_witness :
    body (PutUserByID { Auth := Sample.unacknowledging } Sample.dauth Sample.json [true]
        Sample.put) =
      [.envelope { Msg := "User saved", Num := 1, Val := some { ID := 0 } }] ∧
    body (PutUserByID { Auth := Sample.store } Sample.dauth Sample.json [true] Sample.put) =
      [.envelope { Msg := "User saved", Num := 1, Val := some { ID := 1, User := "test" } }] :=
  ⟨(save_by_id_number_one { Auth := Sample.unacknowledging } Sample.dauth Sample.json [true]
      Sample.put).2.2.2.1 7 { ID := 1 } _ (by decide) rfl rfl rfl rfl rfl,
   (save_by_id_number_one { Auth := Sample.store } Sample.dauth Sample.json [true]
      Sample.put).2.2.2.1 7 { ID := 1 } _ (by decide) rfl rfl rfl rfl rfl⟩

/-- C19: whatever the request, the backend and the schedule are, every result
envelope written by a resource handler satisfies: an envelope of a bulk-save
handler carries data and no value, an envelope of a save-by-id handler carries a
value and no data, an envelope of a delete handler (by filter, by id, by age)
carries neither, and the read handlers write no envelope at all; so value is set
only by the save-by-id handlers, data only by the bulk-save handlers, and no
envelope has both. -/
theorem envelope_value_data (s : Server) (d : Dauth) (j : Json) (sched : List Bool)
    (midnight : Int) (r : Request) :
    (∀ res, Payload.envelope res ∈ body (PostTokens s d j sched r) →
      res.Val = none ∧ res.Data.isSome = true) ∧
    (∀ res, Payload.envelope res ∈ body (PostUsers s d j sched r) →
      res.Val = none ∧ res.Data.isSome = true) ∧
    (∀ res, Payload.envelope res ∈ body (PostPerms s d j sched r) →
      res.Val = none ∧ res.Data.isSome = true) ∧
    (∀ res, Payload.envelope res ∈ body (PostUserPerms s d j sched r) →
      res.Val = none ∧ res.Data.isSome = true) ∧
    (∀ res, Payload.envelope res ∈ body (PutTokenByID s d j sched r) →
      res.Val.isSome = true ∧ res.Data = none) ∧
    (∀ res, Payload.envelope res ∈ body (PutUserByID s d j sched r) →
      res.Val.isSome = true ∧ res.Data = none) ∧
    (∀ res, Payload.envelope res ∈ body (PutPermByID s d j sched r) →
      res.Val.isSome = true ∧ res.Data = none) ∧
    (∀ res, Payload.envelope res ∈ body (PutUserPermByID s d j sched r) →
      res.Val.isSome = true ∧ res.Data = none) ∧
    (∀ res, Payload.envelope res ∈ body (DeleteTokens s d j r) →
      res.Val = none ∧ res.Data = none) ∧
    (∀ res, Payload.envelope res ∈ body (DeleteUsers s d j r) →
      res.Val = none ∧ res.Data = none) ∧
    (∀ res, Payload.envelope res ∈ body (DeletePerms s d j r) →
      res.Val = none ∧ res.Data = none) ∧
    (∀ res, Payload.envelope res ∈ body (DeleteUserPerms s d j r) →
      res.Val = none ∧ res.Data = none) ∧
    (∀ res, Payload.envelope res ∈ body (DeleteTokenByID s r) →
      res.Val = none ∧ res.Data = none) ∧
    (∀ res, Payload.envelope res ∈ body (DeleteUserByID s r) →
      res.Val = none ∧ res.Data = none) ∧
    (∀ res, Payload.envelope res ∈ body (DeletePermByID s r) →
      res.Val = none ∧ res.Data = none) ∧
    (∀ res, Payload.envelope res ∈ body (DeleteUserPermByID s r) →
      res.Val = none ∧ res.Data = none) ∧
    (∀ res, Payload.envelope res ∈ body (DeleteTokensOld s midnight r) →
      res.Val = none ∧ res.Data = none) ∧
    (∀ res, Payload.envelope res ∉ body (GetTokens s d r)) ∧
    (∀ res, Payload.envelope res ∉ body (GetUsers s d r)) ∧
    (∀ res, Payload.envelope res ∉ body (GetPerms s d r)) ∧
    (∀ res, Payload.envelope res ∉ body (GetUserPerms s d r)) ∧
    (∀ res, Payload.envelope res ∉ body (GetTokenByID s d r)) ∧
    (∀ res, Payload.envelope res ∉ body (GetUserByID s d r)) ∧
    (∀ res, Payload.envelope res ∉ body (GetPermByID s d r)) ∧
    (∀ res, Payload.envelope res ∉ body (GetUserPermByID s d r)) := by
  refine ⟨?_, ?_, ?_, ?_, ?_, ?_, ?_, ?_, ?_, ?_, ?_, ?_, ?_, ?_, ?_, ?_, ?_, ?_, ?_, ?_, ?_, ?_, ?_, ?_, ?_⟩
  · exact fun res hres => bulkSave_envelopes _ _ _ _ _ _ _ _ _ res hres
  · exact fun res hres => bulkSave_envelopes _ _ _ _ _ _ _ _ _ res hres
  · exact fun res hres => bulkSave_envelopes _ _ _ _ _ _ _ _ _ res hres
  · exact fun res hres => bulkSave_envelopes _ _ _ _ _ _ _ _ _ res hres
  · exact fun res hres =>
      ⟨(saveByID_envelopes _ _ _ _ _ _ _ _ _ _ _ res hres).1,
       (saveByID_envelopes _ _ _ _ _ _ _ _ _ _ _ res hres).2.1⟩
  · exact fun res hres =>
      ⟨(saveByID_envelopes _ _ _ _ _ _ _ _ _ _ _ res hres).1,
       (saveByID_envelopes _ _ _ _ _ _ _ _ _ _ _ res hres).2.1⟩
  · exact fun res hres =>
      ⟨(saveByID_envelopes _ _ _ _ _ _ _ _ _ _ _ res hres).1,
       (saveByID_envelopes _ _ _ _ _ _ _ _ _ _ _ res hres).2.1⟩
  · exact fun res hres =>
      ⟨(saveByID_envelopes _ _ _ _ _ _ _ _ _ _ _ res hres).1,
       (saveByID_envelopes _ _ _ _ _ _ _ _ _ _ _ res hres).2.1⟩
  · exact fun res hres => deleteFilter_envelopes _ _ _ _ _ res hres
  · exact fun res hres => deleteFilter_envelopes _ _ _ _ _ res hres
  · exact fun res hres => deleteFilter_envelopes _ _ _ _ _ res hres
  · exact fun res hres => deleteFilter_envelopes _ _ _ _ _ res hres
  · exact fun res hres => deleteByID_envelopes _ _ _ _ _ res hres
  · exact fun res hres => deleteByID_envelopes _ _ _ _ _ res hres
  · exact fun res hres => deleteByID_envelopes _ _ _ _ _ res hres
  · exact fun res hres => deleteByID_envelopes _ _ _ _ _ res hres
  · intro res hres
    rw [mem_body] at hres
    unfold DeleteTokensOld at hres
    cases hage : ParseInt (r.Var "age") with
    | none =>
      rw [hage] at hres
      exact absurd hres (not_envelope_respondWithError _ res)
    | some age =>
      rw [hage] at hres
      simp only [List.mem_cons] at hres
      rcases hres with h | h
      · cases h
      · exact deleteReply_envelopes _ _ res h
  · intro res h
    rw [mem_body] at h
    unfold GetTokens at h
    rcases hq : fromQuery d.token {} r with ⟨q, _ | qe⟩
    · rw [hq] at h
      simp only [List.mem_cons] at h
      rcases h with h | h
      · cases h
      · cases ho : s.Auth.GetTokens (d.token.ToRequest q) with
        | error err =>
          rw [ho] at h
          exact not_envelope_respondWithError err res h
        | ok stream =>
          rw [ho] at h
          exact not_envelope_recvAll _ _ _ _ _ _ res h
    · rw [hq] at h
      exact not_envelope_respondWithError qe res h
  · intro res h
    rw [mem_body] at h
    unfold GetUsers at h
    rcases hq : fromQuery d.user {} r with ⟨q, _ | qe⟩
    · rw [hq] at h
      simp only [List.mem_cons] at h
      rcases h with h | h
      · cases h
      · cases ho : s.Auth.GetUsers (d.user.ToRequest q) with
        | error err =>
          rw [ho] at h
          exact not_envelope_respondWithError err res h
        | ok stream =>
          rw [ho] at h
          exact not_envelope_recvAll _ _ _ _ _ _ res h
    · rw [hq] at h
      exact not_envelope_respondWithError qe res h
  · intro res h
    rw [mem_body] at h
    unfold GetPerms at h
    rcases hq : fromQuery d.perm {} r with ⟨q, _ | qe⟩
    · rw [hq] at h
      simp only [List.mem_cons] at h
      rcases h with h | h
      · cases h
      · cases ho : s.Auth.GetPerms (d.perm.ToRequest q) with
        | error err =>
          rw [ho] at h
          exact not_envelope_respondWithError err res h
        | ok stream =>
          rw [ho] at h
          exact not_envelope_recvAll _ _ _ _ _ _ res h
    · rw [hq] at h
      exact not_envelope_respondWithError qe res h
  · intro res h
    rw [mem_body] at h
    unfold GetUserPerms at h
    rcases hq : fromQuery d.userPerm {} r with ⟨q, _ | qe⟩
    · rw [hq] at h
      simp only [List.mem_cons] at h
      rcases h with h | h
      · cases h
      · cases ho : s.Auth.GetUserPerms (d.userPerm.ToRequest q) with
        | error err =>
          rw [ho] at h
          exact not_envelope_respondWithError err res h
        | ok stream =>
          rw [ho] at h
          exact not_envelope_recvAll _ _ _ _ _ _ res h
    · rw [hq] at h
      exact not_envelope_respondWithError qe res h
  · intro res h
    rw [mem_body] at h
    unfold GetTokenByID at h
    cases hid : ParseInt (r.Var "id") with
    | none =>
      rw [hid] at h
      exact not_envelope_respondWithError _ res h
    | some id =>
      rw [hid] at h
      simp only [List.mem_cons] at h
      rcases h with h | h
      · cases h
      · cases ho : s.Auth.GetTokens { ID := id } with
        | error err =>
          rw [ho] at h
          exact not_envelope_respondWithError err res h
        | ok stream =>
          rw [ho] at h
          exact not_envelope_recvLast _ _ _ _ _ _ res h
  · intro res h
    rw [mem_body] at h
    unfold GetUserByID at h
    cases hid : ParseInt (r.Var "id") with
    | none =>
      rw [hid] at h
      exact not_envelope_respondWithError _ res h
    | some id =>
      rw [hid] at h
      simp only [List.mem_cons] at h
      rcases h with h | h
      · cases h
      · cases ho : s.Auth.GetUsers { ID := id } with
        | error err =>
          rw [ho] at h
          exact not_envelope_respondWithError err res h
        | ok stream =>
          rw [ho] at h
          exact not_envelope_recvLast _ _ _ _ _ _ res h
  · intro res h
    rw [mem_body] at h
    unfold GetPermByID at h
    cases hid : ParseInt (r.Var "id") with
    | none =>
      rw [hid] at h
      exact not_envelope_respondWithError _ res h
    | some id =>
      rw [hid] at h
      simp only [List.mem_cons] at h
      rcases h with h | h
      · cases h
      · cases ho : s.Auth.GetPerms { ID := id } with
        | error err =>
          rw [ho] at h
          exact not_envelope_respondWithError err res h
        | ok stream =>
          rw [ho] at h
          exact not_envelope_recvLast _ _ _ _ _ _ res h
  · intro res h
    rw [mem_body] at h
    unfold GetUserPermByID at h
    cases hid : ParseInt (r.Var "id") with
    | none =>
      rw [hid] at h
      exact not_envelope_respondWithError _ res h
    | some id =>
      rw [hid] at h
      simp only [List.mem_cons] at h
      rcases h with h | h
      · cases h
      · cases ho : s.Auth.GetUserPerms { ID := id } with
        | error err =>
          rw [ho] at h
          exact not_envelope_respondWithError err res h
        | ok stream =>
          rw [ho] at h
          exact not_envelope_recvLast _ _ _ _ _ _ res h

/-- Witness of C19: the envelopes written by `PostUsers`, `PutUserByID` and
`DeleteUsers` against the backend `Sample.store`. -/
theorem envelope_value_data_witness :
    (Payload.envelope { Msg := "Users saved", Num := 1, Data := some [{ ID := 1, User := "test" }] } ∈
        body (PostUsers { Auth := Sample.store } Sample.dauth Sample.json [] Sample.post) ∧
      ({ Msg := "Users saved", Num := 1, Data := some [{ ID := 1, User := "test" }] } :
        Result User).Val = none ∧
      ({ Msg := "Users saved", Num := 1, Data := some [{ ID := 1, User := "test" }] } :
        Result User).Data.isSome = true) ∧
    (Payload.envelope { Msg := "User saved", Num := 1, Val := some { ID := 1, User := "test" } } ∈
        body (PutUserByID { Auth := Sample.store } Sample.dauth Sample.json [] Sample.put) ∧
      ({ Msg := "User saved", Num := 1, Val := some { ID := 1, User := "test" } } :
        Result User).Val.isSome = true ∧
      ({ Msg := "User saved", Num := 1, Val := some { ID := 1, User := "test" } } :
        Result User).Data = none) ∧
    (Payload.envelope { Msg := "Users deleted", Num := 1 } ∈
        body (DeleteUsers { Auth := Sample.store } Sample.dauth Sample.json Sample.put) ∧
      ({ Msg := "Users deleted", Num := 1 } : Result User).Val = none ∧
      ({ Msg := "Users deleted", Num := 1 } : Result User).Data = none) :=
  have h := envelope_value_data { Auth := Sample.store } Sample.dauth Sample.json [] 0
    Sample.put
  have g := envelope_value_data { Auth := Sample.store } Sample.dauth Sample.json [] 0
    Sample.post
  ⟨⟨by decide, g.2.1 _ (by decide)⟩, ⟨by decide, h.2.2.2.2.2.1 _ (by decide)⟩,
   ⟨by decide, h.2.2.2.2.2.2.2.2.2.1 _ (by decide)⟩⟩

/-- C20, evaluated at failing runs. The acknowledgement stream of
`Sample.broken` emits one acknowledgement and then fails with `reset`, while the
sends and `CloseSend` succeed. Under every schedule `PostUsers` and `PutUserByID`
call `WriteHeader` twice (500 by the draining task, then 200) and write two
bodies: the error body and, after it, the success envelope with the
acknowledgement received before the failure. -/
theorem save_stream_error_writes_envelope (sched : List Bool) :
    writeHeaders (PostUsers { Auth := Sample.broken } Sample.dauth Sample.json sched
      Sample.post) = [500, 200] ∧
    body (PostUsers { Auth := Sample.broken } Sample.dauth Sample.json sched Sample.post) =
      [.error { Code := 500, Msg := "rpc error: code = Internal desc = stream reset" },
       .envelope { Msg := "Users saved", Num := 1, Data := some [{ ID := 1, User := "test" }] }] ∧
    writeHeaders (PutUserByID { Auth := Sample.broken } Sample.dauth Sample.json sched
      Sample.put) = [500, 200] ∧
    body (PutUserByID { Auth := Sample.broken } Sample.dauth Sample.json sched Sample.put) =
      [.error { Code := 500, Msg := "rpc error: code = Internal desc = stream reset" },
       .envelope { Msg := "User saved", Num := 1, Val := some { ID := 1, User := "test" } }] := by
  have hpost := bulkSave_stream_error Sample.dauth.user {} (fun v => { v with Pass := "" })
    Msg.user .SaveUsers "Users saved" (Sample.json.user.DecodeList Sample.post.Body)
    Sample.broken.SaveUsers sched _ _ Sample.reset rfl rfl (fun _ _ => rfl) rfl rfl
  have hput := saveByID_stream_error Sample.dauth.user {} (fun v => { v with Pass := "" })
    (fun v id => { v with ID := id }) Msg.user .SaveUsers "User saved" (Sample.put.Var "id")
    (Sample.json.user.Decode Sample.put.Body) Sample.broken.SaveUsers sched 7 _ _ Sample.reset
    (by decide) rfl rfl rfl rfl rfl
  exact ⟨hpost.1, hpost.2, hput.1, hput.2⟩

/-! ## The route table and the router -/

theorem headersSet_rpcs {V : Type} (n : Nat) (c : Call) (t : List (Effect V)) :
    headersSet (List.replicate n (.rpc c) ++ t) = headersSet t := by
  induction n with
  | zero => simp
  | succ n ih =>
    simp only [List.replicate_succ, List.cons_append]
    simp [headersSet, Effect.headerSet]

theorem headersSet_respondWithError {V : Type} (err : GoError) :
    headersSet (RespondWithError err : List (Effect V)) = [] := by
  unfold RespondWithError
  cases err.asDlib <;> simp [headersSet, Effect.headerSet]

/-- The trace of `AuthHandler`: the error response of the guard or of the check,
or the calls of the check followed by the run of the wrapped handler. -/
theorem authHandler_trace {V : Type} (s : Server) (d : Dauth) (handler : Handler V)
    (perm : Perm) (r : Request) :
    (∃ n err, AuthHandler s d handler perm r =
        List.replicate n (.rpc (.Auth (AuthHandler.areq d perm r))) ++ RespondWithError err) ∨
    (∃ n, AuthHandler s d handler perm r =
        List.replicate n (.rpc (.Auth (AuthHandler.areq d perm r))) ++ .serve :: handler r) := by
  unfold AuthHandler
  by_cases hg : r.HeaderGet "Token" = "" ∨ (stringsSplit r.Path '/').length < 2
  · exact Or.inl ⟨0, NewError 401 "unauthorized request", by simp [hg]⟩
  · simp only [hg, if_false]
    cases hf : firstErr (CheckAuth s (AuthHandler.areq d perm r)).sends with
    | some err => exact Or.inl ⟨_, err, rfl⟩
    | none => exact Or.inr ⟨_, rfl⟩

theorem authCalls_header {V : Type} (handler : Handler V) (r : Request) :
    authCalls (Header handler r) = authCalls (handler r) := rfl

theorem served_header {V : Type} (handler : Handler V) (r : Request) :
    served (Header handler r) = served (handler r) := rfl

theorem authCalls_getDocs (stat : String → Bool) (r : Request) :
    authCalls (GetDocs stat r) = 0 ∧ served (GetDocs stat r) = false := by
  unfold GetDocs
  by_cases h1 : stat "docs/docs.html" <;> by_cases h2 : stat "../docs/docs.html" <;>
    simp [h1, h2, authCalls, served, respondNotFound_eq]

theorem authCalls_getIcon (stat : String → Bool) (r : Request) :
    authCalls (GetIcon stat r) = 0 ∧ served (GetIcon stat r) = false := by
  unfold GetIcon
  by_cases h1 : stat "docs/favicon.ico" <;> by_cases h2 : stat "../docs/favicon.ico" <;>
    simp [h1, h2, authCalls, served, respondNotFound_eq]

theorem authCalls_login (s : Server) (d : Dauth) (j : Json) (r : Request) :
    authCalls (Login s d j r) = 0 ∧ served (Login s d j r) = false := by
  unfold Login
  rcases j.user.Decode r.Body with ⟨u, _ | err⟩
  · dsimp only
    cases s.Auth.Login (d.user.ToRequest u) with
    | error err =>
      simp only [authCalls, served]
      exact ⟨authCalls_respondWithError _, served_respondWithError _⟩
    | ok res =>
      dsimp only
      rcases d.token.FromResponse {} res with ⟨t, _ | err⟩
      · simp [authCalls, served]
      · simp only [authCalls, served]
        exact ⟨authCalls_respondWithError _, served_respondWithError _⟩
  · exact ⟨authCalls_respondWithError _, served_respondWithError _⟩

theorem authCalls_logout (s : Server) (d : Dauth) (j : Json) (r : Request) :
    authCalls (Logout s d j r) = 0 ∧ served (Logout s d j r) = false := by
  unfold Logout
  rcases j.token.Decode r.Body with ⟨u, _ | err⟩
  · dsimp only
    cases s.Auth.Logout (d.token.ToRequest u) with
    | error err =>
      simp only [authCalls, served]
      exact ⟨authCalls_respondWithError _, served_respondWithError _⟩
    | ok res =>
      dsimp only
      rcases d.token.FromResponse {} res with ⟨t, _ | err⟩
      · simp [authCalls, served]
      · simp only [authCalls, served]
        exact ⟨authCalls_respondWithError _, served_respondWithError _⟩
  · exact ⟨authCalls_respondWithError _, served_respondWithError _⟩

/-- The entry that `InitRouter` registers at the position of a route of the table. -/
theorem initRouter_entry (s : Server) (w : Deps) (i : Nat) (route : Route) (e : Entry)
    (hr : (GetRoutes s w)[i]? = some route) (he : (InitRouter s w).routes[i]? = some e) :
    e = { Method := route.Method, Path := route.Path, Name := route.Name, V := route.V,
          Handler := InitRouter.handler s w.dauth route } := by
  unfold InitRouter at he
  simp only [List.getElem?_map, hr, Option.map_some', Option.some.injEq] at he
  exact he.symm

theorem initRouter_length (s : Server) (w : Deps) :
    (InitRouter s w).routes.length = (GetRoutes s w).length := by
  simp [InitRouter]

/-- C25: in the table of `GetRoutes` the routes with `Auth = false` are the five
named index, docs, icon, Login and Logout, and every other route has
`Auth = true`. The router built by `InitRouter` has one entry for each route of
the table, in table order and with its method, path and name. For a route with
`Auth = true` the handler of the entry is `AuthHandler` around the route's handler
(with its header stage), with the permission `(route.Service, route.Name)`; for a
route with `Auth = false` it is the route's handler with its header stage and
without `AuthHandler`: its run makes no `Auth` call and passes no permission
check, on any request. -/
theorem routes_auth_flags (s : Server) (w : Deps) :
    ((GetRoutes s w).filter (fun route => !route.Auth)).map (fun route => route.Name) =
      ["index", "docs", "icon", "Login", "Logout"] ∧
    (∀ route ∈ GetRoutes s w,
      (route.Auth = false ↔ route.Name ∈ ["index", "docs", "icon", "Login", "Logout"])) ∧
    (InitRouter s w).routes.length = (GetRoutes s w).length ∧
    (∀ (i : Nat) (route : Route) (e : Entry), (GetRoutes s w)[i]? = some route → (InitRouter s w).routes[i]? = some e →
      e.Method = route.Method ∧ e.Path = route.Path ∧ e.Name = route.Name ∧
      (route.Auth = true →
        (⟨e.V, e.Handler⟩ : (V : Type) × Handler V) =
          ⟨route.V, AuthHandler s w.dauth (Header route.HandlerFunc)
            { Service := route.Service, Name := route.Name }⟩) ∧
      (route.Auth = false →
        (⟨e.V, e.Handler⟩ : (V : Type) × Handler V) = ⟨route.V, Header route.HandlerFunc⟩ ∧
        ∀ r, authCalls (e.Handler r) = 0 ∧ served (e.Handler r) = false)) := by
  refine ⟨rfl, ?_, initRouter_length s w, ?_⟩
  · intro route h
    simp only [GetRoutes, List.mem_cons, List.mem_singleton, List.not_mem_nil, or_false] at h
    rcases h with h | h | h | h | h | h | h | h | h | h | h | h | h | h | h | h | h | h | h |
      h | h | h | h | h | h | h | h | h | h | h | h | h <;> subst h <;> simp
  · intro i route e hr he
    have hmem : route ∈ GetRoutes s w := List.getElem?_mem hr
    rw [initRouter_entry s w i route e hr he]
    refine ⟨rfl, rfl, rfl, ?_, ?_⟩
    · intro hauth
      simp [InitRouter.handler, hauth]
    · intro hauth
      have heq : InitRouter.handler s w.dauth route = Header route.HandlerFunc := by
        simp [InitRouter.handler, hauth]
      refine ⟨by simp [InitRouter.handler, hauth], fun r => ?_⟩
      show authCalls (InitRouter.handler s w.dauth route r) = 0 ∧
        served (InitRouter.handler s w.dauth route r) = false
      rw [heq, authCalls_header, served_header]
      simp only [GetRoutes, List.mem_cons, List.mem_singleton, List.not_mem_nil, or_false]
        at hmem
      clear hr he heq
      rcases hmem with h | h | h | h | h | h | h | h | h | h | h | h | h | h | h | h | h | h |
        h | h | h | h | h | h | h | h | h | h | h | h | h | h <;> subst h <;> dsimp only <;>
        first
          | (simp at hauth; done)
          | exact ⟨rfl, rfl⟩
          | exact authCalls_getDocs _ _
          | exact authCalls_getIcon _ _
          | exact authCalls_login _ _ _ _
          | exact authCalls_logout _ _ _ _

/-- A route found at a position of the table. -/
theorem routed_at (s : Server) (w : Deps) (i : Nat) (route : Route) (method path : String)
    {V : Type} (h : Handler V) (hi : (GetRoutes s w)[i]? = some route)
    (hs : route.Serves method path h) : Routed s w method path h :=
  ⟨route, List.getElem?_mem hi, hs⟩

/-- C26 (`GetRoutes`), at the row that fails. The table has no route for the
method `DELETE` and the path `/dauth/tokens`: the delete-by-filter handler of the
tokens is bound to the path `/dauth/tokens` followed by a closing brace. The
other twenty-three pairs of the claim are routes of the table, protected and
bound to the handler the claim names. -/
theorem routes_delete_tokens_path (s : Server) (w : Deps) :
    ("DELETE", "/dauth/tokens") ∉
      (GetRoutes s w).map (fun route => (route.Method, route.Path)) ∧
    Routed s w "DELETE" "/dauth/tokens\x7d" (DeleteTokens s w.dauth w.json) ∧
    Routed s w "DELETE" "/dauth/users" (DeleteUsers s w.dauth w.json) ∧
    Routed s w "DELETE" "/dauth/perms" (DeletePerms s w.dauth w.json) ∧
    Routed s w "DELETE" "/dauth/userperms" (DeleteUserPerms s w.dauth w.json) ∧
    Routed s w "GET" "/dauth/tokens" (GetTokens s w.dauth) ∧
    Routed s w "GET" "/dauth/users" (GetUsers s w.dauth) ∧
    Routed s w "GET" "/dauth/perms" (GetPerms s w.dauth) ∧
    Routed s w "GET" "/dauth/userperms" (GetUserPerms s w.dauth) ∧
    Routed s w "POST" "/dauth/tokens" (PostTokens s w.dauth w.json w.sched) ∧
    Routed s w "POST" "/dauth/users" (PostUsers s w.dauth w.json w.sched) ∧
    Routed s w "POST" "/dauth/perms" (PostPerms s w.dauth w.json w.sched) ∧
    Routed s w "POST" "/dauth/userperms" (PostUserPerms s w.dauth w.json w.sched) ∧
    Routed s w "GET" "/dauth/tokens/\x7bid\x7d" (GetTokenByID s w.dauth) ∧
    Routed s w "GET" "/dauth/users/\x7bid\x7d" (GetUserByID s w.dauth) ∧
    Routed s w "GET" "/dauth/perms/\x7bid\x7d" (GetPermByID s w.dauth) ∧
    Routed s w "GET" "/dauth/userperms/\x7bid\x7d" (GetUserPermByID s w.dauth) ∧
    Routed s w "PUT" "/dauth/tokens/\x7bid\x7d" (PutTokenByID s w.dauth w.json w.sched) ∧
    Routed s w "PUT" "/dauth/users/\x7bid\x7d" (PutUserByID s w.dauth w.json w.sched) ∧
    Routed s w "PUT" "/dauth/perms/\x7bid\x7d" (PutPermByID s w.dauth w.json w.sched) ∧
    Routed s w "PUT" "/dauth/userperms/\x7bid\x7d" (PutUserPermByID s w.dauth w.json w.sched) ∧
    Routed s w "DELETE" "/dauth/tokens/\x7bid\x7d" (DeleteTokenByID s) ∧
    Routed s w "DELETE" "/dauth/users/\x7bid\x7d" (DeleteUserByID s) ∧
    Routed s w "DELETE" "/dauth/perms/\x7bid\x7d" (DeletePermByID s) ∧
    Routed s w "DELETE" "/dauth/userperms/\x7bid\x7d" (DeleteUserPermByID s) := by
  refine ⟨by simp [GetRoutes], ?_, ?_, ?_, ?_, ?_, ?_, ?_, ?_, ?_, ?_, ?_, ?_, ?_, ?_, ?_, ?_, ?_, ?_, ?_, ?_, ?_, ?_, ?_, ?_⟩
  · exact routed_at s w 10 _ _ _ _ rfl ⟨rfl, rfl, rfl, rfl⟩
  · exact routed_at s w 16 _ _ _ _ rfl ⟨rfl, rfl, rfl, rfl⟩
  · exact routed_at s w 22 _ _ _ _ rfl ⟨rfl, rfl, rfl, rfl⟩
  · exact routed_at s w 28 _ _ _ _ rfl ⟨rfl, rfl, rfl, rfl⟩
  · exact routed_at s w 3 _ _ _ _ rfl ⟨rfl, rfl, rfl, rfl⟩
  · exact routed_at s w 11 _ _ _ _ rfl ⟨rfl, rfl, rfl, rfl⟩
  · exact routed_at s w 17 _ _ _ _ rfl ⟨rfl, rfl, rfl, rfl⟩
  · exact routed_at s w 23 _ _ _ _ rfl ⟨rfl, rfl, rfl, rfl⟩
  · exact routed_at s w 5 _ _ _ _ rfl ⟨rfl, rfl, rfl, rfl⟩
  · exact routed_at s w 13 _ _ _ _ rfl ⟨rfl, rfl, rfl, rfl⟩
  · exact routed_at s w 19 _ _ _ _ rfl ⟨rfl, rfl, rfl, rfl⟩
  · exact routed_at s w 25 _ _ _ _ rfl ⟨rfl, rfl, rfl, rfl⟩
  · exact routed_at s w 4 _ _ _ _ rfl ⟨rfl, rfl, rfl, rfl⟩
  · exact routed_at s w 12 _ _ _ _ rfl ⟨rfl, rfl, rfl, rfl⟩
  · exact routed_at s w 18 _ _ _ _ rfl ⟨rfl, rfl, rfl, rfl⟩
  · exact routed_at s w 24 _ _ _ _ rfl ⟨rfl, rfl, rfl, rfl⟩
  · exact routed_at s w 6 _ _ _ _ rfl ⟨rfl, rfl, rfl, rfl⟩
  · exact routed_at s w 14 _ _ _ _ rfl ⟨rfl, rfl, rfl, rfl⟩
  · exact routed_at s w 20 _ _ _ _ rfl ⟨rfl, rfl, rfl, rfl⟩
  · exact routed_at s w 26 _ _ _ _ rfl ⟨rfl, rfl, rfl, rfl⟩
  · exact routed_at s w 9 _ _ _ _ rfl ⟨rfl, rfl, rfl, rfl⟩
  · exact routed_at s w 15 _ _ _ _ rfl ⟨rfl, rfl, rfl, rfl⟩
  · exact routed_at s w 21 _ _ _ _ rfl ⟨rfl, rfl, rfl, rfl⟩
  · exact routed_at s w 27 _ _ _ _ rfl ⟨rfl, rfl, rfl, rfl⟩

/-- C29 (`CheckAuth`), evaluated at a failing run: the backend answers the first
`Auth` call, without error, with a response whose `Ok` flag is false. One call
is made and two results are put on the channel, the error result (401,
`unauthorized user`) and after it the success result, because the error send is
not followed by a `return`. -/
theorem checkAuth_not_ok_sends_twice (req : AuthRequest) :
    (CheckAuth { Auth := Sample.closingThen 0 { res := some { Ok := false } } } req).calls = 1 ∧
    (CheckAuth { Auth := Sample.closingThen 0 { res := some { Ok := false } } } req).sends =
      [NewErrorResult (some (NewError 401 "unauthorized user")),
       NewResult (some { Ok := false }) "result" 0 "authentication successful" none none] ∧
    (CheckAuth { Auth := Sample.closingThen 0 { res := some { Ok := false } } } req).sends.length = 2 ∧
    ¬ (CheckAuth { Auth := Sample.closingThen 0 { res := some { Ok := false } } } req).sends.length = 1 := by
  have hrun := checkAuth_after_transient
    { Auth := Sample.closingThen 0 { res := some { Ok := false } } } req 0 (Nat.zero_le 10)
    (fun i hi => absurd hi (Nat.not_lt_zero i)) (fun _ => rfl)
  have hsends : CheckAuth { Auth := Sample.closingThen 0 { res := some { Ok := false } } } req =
      { calls := 1,
        sends := [NewErrorResult (some (NewError 401 "unauthorized user")),
                  NewResult (some { Ok := false }) "result" 0 "authentication successful"
                    none none] } := by
    rw [hrun]
    rfl
  rw [hsends]
  exact ⟨rfl, rfl, rfl, by decide⟩

/-- C23 as stated fails: the entry that the router built by `InitRouter` holds for
the protected route `GET /dauth/users` answers a request without the `Token`
header with the 401 of the authorization stage and sets no header field, whereas
`Header` around `AuthHandler` would set `Content-Type` first. The registered
handler is not `Header(AuthHandler(route handler))`. -/
theorem initRouter_header_outermost_counterexample :
    (GetRoutes { Auth := Sample.store } Sample.deps)[11]? =
      some (Sample.usersRoute { Auth := Sample.store }) ∧
    (Sample.usersRoute { Auth := Sample.store }).Auth = true ∧
    ((InitRouter { Auth := Sample.store } Sample.deps).routes[11]?).map
        (fun e => (e.Method, e.Path, e.Name)) = some ("GET", "/dauth/users", "GetUsers") ∧
    ((InitRouter { Auth := Sample.store } Sample.deps).routes[11]?).map
        (fun e => status (e.Handler Sample.anonymous)) = some (some 401) ∧
    ((InitRouter { Auth := Sample.store } Sample.deps).routes[11]?).map
        (fun e => headersSet (e.Handler Sample.anonymous)) = some [] ∧
    headersSet (Header (AuthHandler { Auth := Sample.store } Sample.dauth
        (GetUsers { Auth := Sample.store } Sample.dauth)
        { Service := "dauth", Name := "GetUsers" }) Sample.anonymous) =
      [("Content-Type", jsonType)] ∧
    ¬ ((InitRouter { Auth := Sample.store } Sample.deps).routes[11]?).map
        (fun e => (⟨e.V, e.Handler⟩ : (V : Type) × Handler V)) =
      some ⟨User, Header (AuthHandler { Auth := Sample.store } Sample.dauth
        (GetUsers { Auth := Sample.store } Sample.dauth)
        { Service := "dauth", Name := "GetUsers" })⟩ := by
  refine ⟨rfl, rfl, rfl, rfl, rfl, rfl, ?_⟩
  intro h
  have h1 : (⟨User, AuthHandler { Auth := Sample.store } Sample.dauth
        (Header (GetUsers { Auth := Sample.store } Sample.dauth))
        { Service := "dauth", Name := "GetUsers" }⟩ : (V : Type) × Handler V) =
      ⟨User, Header (AuthHandler { Auth := Sample.store } Sample.dauth
        (GetUsers { Auth := Sample.store } Sample.dauth)
        { Service := "dauth", Name := "GetUsers" })⟩ := Option.some.inj h
  have h2 := eq_of_heq (Sigma.mk.inj_iff.1 h1).2
  have h3 := congrArg (fun f => headersSet (f Sample.anonymous)) h2
  exact absurd h3 (by decide)

/-- C23, amended: for every route of the table with `Auth = true`, the handler of
the entry that `InitRouter` registers for it is `AuthHandler(Header(route
handler))`, with the authorization stage outermost and the header-setting stage
innermost, directly around the route's handler. On every request the permission
check runs first; either it ends with an error response, and then no header field
is set and the route's handler does not run, or `Content-Type` is set after the
`Auth` calls of the check and right before the route's handler runs. -/
theorem initRouter_stage_order (s : Server) (w : Deps) (i : Nat) (route : Route) (e : Entry)
    (hr : (GetRoutes s w)[i]? = some route) (he : (InitRouter s w).routes[i]? = some e)
    (hauth : route.Auth = true) :
    (⟨e.V, e.Handler⟩ : (V : Type) × Handler V) =
      ⟨route.V, AuthHandler s w.dauth (Header route.HandlerFunc)
        { Service := route.Service, Name := route.Name }⟩ ∧
    ∀ r,
      (∃ n err,
        e.Handler r =
          List.replicate n
              (.rpc (.Auth (AuthHandler.areq w.dauth
                { Service := route.Service, Name := route.Name } r))) ++
            RespondWithError err ∧
        headersSet (e.Handler r) = [] ∧
        served (e.Handler r) = false) ∨
      (∃ n t,
        e.Handler r =
          List.replicate n
              (.rpc (.Auth (AuthHandler.areq w.dauth
                { Service := route.Service, Name := route.Name } r))) ++
            .serve :: .setHeader "Content-Type" jsonType :: t ∧
        HEq t (route.HandlerFunc r)) := by
  rw [initRouter_entry s w i route e hr he]
  have heq : InitRouter.handler s w.dauth route =
      AuthHandler s w.dauth (Header route.HandlerFunc)
        { Service := route.Service, Name := route.Name } := by
    simp [InitRouter.handler, hauth]
  refine ⟨by rw [heq], fun r => ?_⟩
  show (∃ n err, InitRouter.handler s w.dauth route r = _ ∧
      headersSet (InitRouter.handler s w.dauth route r) = [] ∧
      served (InitRouter.handler s w.dauth route r) = false) ∨
    (∃ n t, InitRouter.handler s w.dauth route r = _ ∧ HEq t (route.HandlerFunc r))
  rw [heq]
  rcases authHandler_trace s w.dauth (Header route.HandlerFunc)
    { Service := route.Service, Name := route.Name } r with ⟨n, err, h⟩ | ⟨n, h⟩
  · refine Or.inl ⟨n, err, h, ?_, ?_⟩
    · rw [h, headersSet_rpcs, headersSet_respondWithError]
    · rw [h, served_rpcs, served_respondWithError]
  · exact Or.inr ⟨n, route.HandlerFunc r, h, HEq.rfl⟩

/-- Witness of C23: the route `GET /dauth/users` of the table and its entry in the
router. -/
theorem initRouter_stage_order_witness :
    (GetRoutes { Auth := Sample.store } Sample.deps)[11]? =
      some (Sample.usersRoute { Auth := Sample.store }) ∧
    (InitRouter { Auth := Sample.store } Sample.deps).routes[11]? =
      some { Method := "GET", Path := "/dauth/users", Name := "GetUsers", V := User,
             Handler := InitRouter.handler { Auth := Sample.store } Sample.dauth
               (Sample.usersRoute { Auth := Sample.store }) } ∧
    (Sample.usersRoute { Auth := Sample.store }).Auth = true ∧
    (⟨User, InitRouter.handler { Auth := Sample.store } Sample.dauth
        (Sample.usersRoute { Auth := Sample.store })⟩ : (V : Type) × Handler V) =
      ⟨User, AuthHandler { Auth := Sample.store } Sample.dauth
        (Header (GetUsers { Auth := Sample.store } Sample.dauth))
        { Service := "dauth", Name := "GetUsers" }⟩ :=
  ⟨rfl, rfl, rfl,
   (initRouter_stage_order { Auth := Sample.store } Sample.deps 11
     (Sample.usersRoute { Auth := Sample.store })
     { Method := "GET", Path := "/dauth/users", Name := "GetUsers", V := User,
       Handler := InitRouter.handler { Auth := Sample.store } Sample.dauth
         (Sample.usersRoute { Auth := Sample.store }) } rfl rfl rfl).1⟩

/-! ## The cutoff of `DeleteTokensOld` -/

/-- The cutoff is the clock reading minus `age` days exactly when the age is
between -106751 and 106751 days, the range of `time.Duration`. -/
theorem deleteTokensOld_req_iff (midnight age : Int) :
    DeleteTokensOld.req midnight age = { Old := some (midnight - age * 24 * 3600) } ↔
      -106751 ≤ age ∧ age ≤ 106751 := by
  unfold DeleteTokensOld.req wrapInt64
  simp only [TokenRequest.mk.injEq, true_and, Option.some.injEq]
  have hmod : ∀ a b : Int, Int.emod a b = a % b := fun _ _ => rfl
  rw [Int.fdiv_eq_ediv _ (by norm_num)]
  simp only [hmod]
  norm_num
  omega

/-- C27 as stated fails: the path value `106752` parses as a 64-bit integer, and
with the clock reading 1000000000 the cutoff sent to the backend is 10223371273,
later than the clock reading, not 1000000000 - 106752 × 24 × 3600. -/
theorem deleteTokensOld_cutoff_counterexample :
    ParseInt "106752" = some 106752 ∧
    (DeleteTokensOld { Auth := Sample.store } 1000000000
        { Vars := [("age", "106752")] }).head? =
      some (.rpc (.DeleteTokens { Old := some 10223371273 })) ∧
    ¬ (DeleteTokensOld.req 1000000000 106752).Old =
      some (1000000000 - 106752 * 24 * 3600) := by
  refine ⟨by decide, by decide, by decide⟩
theorem backendCalls_deleteReply {V : Type} (msg : String) (reply : Except GoError DeleteResponse) :
    backendCalls (deleteReply msg reply : List (Effect V)) = 0 := by
  unfold deleteReply
  cases reply with
  | error err => exact backendCalls_respondWithError err
  | ok dres =>
    dsimp only
    split
    · exact backendCalls_respondWithError _
    · rfl

/-- C27, amended: for every age path value that parses as an integer between
-106751 and 106751 (the days that the 64-bit nanosecond count of
`time.Duration` can hold), `DeleteTokensOld` sends the backend exactly one delete
request, whose `Old` cutoff in seconds is the Unix time of local midnight of the
current day minus `age × 24 × 3600` and whose other filter fields are not set. -/
theorem deleteTokensOld_cutoff (s : Server) (midnight : Int) (r : Request) (age : Int)
    (hparse : ParseInt (r.Var "age") = some age) (hlo : -106751 ≤ age) (hhi : age ≤ 106751) :
    (∃ rest,
      DeleteTokensOld s midnight r =
        .rpc (.DeleteTokens
          { ID := 0, Token := "", UserID := 0, Old := some (midnight - age * 24 * 3600) }) ::
          rest ∧
      backendCalls rest = 0) ∧
    backendCalls (DeleteTokensOld s midnight r) = 1 := by
  have hreq := (deleteTokensOld_req_iff midnight age).2 ⟨hlo, hhi⟩
  have heq : DeleteTokensOld s midnight r =
      .rpc (.DeleteTokens { Old := some (midnight - age * 24 * 3600) }) ::
        deleteReply "Old tokens deleted"
          (s.Auth.DeleteTokens { Old := some (midnight - age * 24 * 3600) }) := by
    unfold DeleteTokensOld
    simp only [hparse, hreq]
  refine ⟨⟨_, heq, backendCalls_deleteReply _ _⟩, ?_⟩
  rw [heq]
  show backendCalls (deleteReply "Old tokens deleted" _ : List (Effect Token)) + 1 = 1
  rw [backendCalls_deleteReply]

/-- Witness of C27: for the age 99 and the clock reading 1000000000 the cutoff is
99 × 24 hours earlier. -/
theorem deleteTokensOld_cutoff_witness :
    ParseInt (({ Vars := [("age", "99")] } : Request).Var "age") = some 99 ∧
    (∃ rest,
      DeleteTokensOld { Auth := Sample.store } 1000000000 { Vars := [("age", "99")] } =
        .rpc (.DeleteTokens
          { ID := 0, Token := "", UserID := 0, Old := some (1000000000 - 99 * 24 * 3600) }) ::
          rest ∧
      backendCalls rest = 0) :=
  ⟨by decide, (deleteTokensOld_cutoff { Auth := Sample.store } 1000000000
    { Vars := [("age", "99")] } 99 (by decide) (by decide) (by decide)).1⟩

/-! ## The secret of a user record -/

/-- C22 (`Authenticate`), evaluated at a failing run: the backend grants the
permission and its answer carries the user with the secret `secret`; the
conversion `FromResponse` copies the fields of the record, as it does for the
user handlers. The response has status 200 and its body is the user with the
secret in its `Pass` field. -/
theorem authenticate_writes_pass :
    Authenticate { Auth := Sample.granting } Sample.dauth ({}, none) Sample.authQuery =
      [.rpc (.Auth { Token := some { Token := "t" },
                     Perm := some { Service := "dauth", Name := "GetUsers" } }),
       .writeHeader 200,
       .encode (.object { ID := 1, User := "test", Pass := "secret" })] ∧
    status (Authenticate { Auth := Sample.granting } Sample.dauth ({}, none)
      Sample.authQuery) = some 200 ∧
    body (Authenticate { Auth := Sample.granting } Sample.dauth ({}, none)
      Sample.authQuery) = [.object { ID := 1, User := "test", Pass := "secret" }] ∧
    ¬ (∀ p ∈ body (Authenticate { Auth := Sample.granting } Sample.dauth ({}, none)
        Sample.authQuery), ∀ u ∈ p.users, u.Pass = "") := by
  have hrun := checkAuth_after_transient { Auth := Sample.granting }
    (Authenticate.req Sample.authQuery) 0 (Nat.zero_le 10)
    (fun i hi => absurd hi (Nat.not_lt_zero i)) (fun _ => rfl)
  have hsends : CheckAuth { Auth := Sample.granting } (Authenticate.req Sample.authQuery) =
      { calls := 1,
        sends := [NewResult
          (some { Ok := true, User := some { ID := 1, User := "test", Pass := "secret" } })
          "result" 0 "authentication successful" none none] } := by
    rw [hrun]
    rfl
  have heq : Authenticate { Auth := Sample.granting } Sample.dauth ({}, none)
      Sample.authQuery =
      [.rpc (.Auth { Token := some { Token := "t" },
                     Perm := some { Service := "dauth", Name := "GetUsers" } }),
       .writeHeader 200,
       .encode (.object { ID := 1, User := "test", Pass := "secret" })] := by
    unfold Authenticate
    simp only [hsends]
    rfl
  rw [heq]
  refine ⟨rfl, rfl, rfl, ?_⟩
  intro h
  exact absurd (h _ (List.mem_singleton.2 rfl) _ (List.mem_singleton.2 rfl)) (by decide)

theorem scrubbed_respondWithError (err : GoError) : Scrubbed (RespondWithError err) := by
  intro p hp u hu
  rw [body_respondWithError] at hp
  rw [List.mem_singleton.1 hp] at hu
  simp [Payload.users] at hu

theorem scrubbed_rpc (c : Call) (t : List (Effect User)) (h : Scrubbed t) :
    Scrubbed (.rpc c :: t) := h

theorem scrubbed_recvAll (F : User → UserResponse → User × Option GoError) (zero : User)
    (items : List UserResponse) (fin : Option GoError) (data : List User)
    (hdata : ∀ u ∈ data, u.Pass = "") :
    Scrubbed (recvAll F zero (fun v => { v with Pass := "" }) items fin data) := by
  induction items generalizing data with
  | nil =>
    cases fin with
    | none =>
      unfold recvAll
      by_cases hlen : data.length = 0
      · simp only [hlen, if_true]
        exact scrubbed_respondWithError _
      · simp only [hlen, if_false]
        intro p hp u hu
        simp only [body, List.mem_singleton] at hp
        subst hp
        exact hdata u hu
    | some err =>
      unfold recvAll
      exact scrubbed_respondWithError err
  | cons x rest ih =>
    unfold recvAll
    rcases F zero x with ⟨v, _ | err⟩
    · apply ih
      intro u hu
      rcases List.mem_append.1 hu with hu | hu
      · exact hdata u hu
      · rw [List.mem_singleton.1 hu]
    · exact scrubbed_respondWithError err

theorem scrubbed_recvLast (F : User → UserResponse → User × Option GoError) (zero : User)
    (items : List UserResponse) (fin : Option GoError) (last : Option User)
    (hlast : ∀ u ∈ last, u.Pass = "") :
    Scrubbed (recvLast F zero (fun v => { v with Pass := "" }) items fin last) := by
  induction items generalizing last with
  | nil =>
    cases fin with
    | none =>
      cases last with
      | none =>
        unfold recvLast
        exact scrubbed_respondWithError _
      | some v =>
        unfold recvLast
        intro p hp u hu
        simp only [body, List.mem_singleton] at hp
        subst hp
        simp only [Payload.users, List.mem_singleton] at hu
        subst hu
        exact hlast u rfl
    | some err =>
      unfold recvLast
      exact scrubbed_respondWithError err
  | cons x rest ih =>
    unfold recvLast
    rcases F zero x with ⟨v, _ | err⟩
    · apply ih
      intro u hu
      rw [Option.mem_def.1 hu |> Option.some.inj |>.symm]
    · exact scrubbed_respondWithError err

/-- The body values of a bulk save: error objects and the envelope of the
acknowledgements. -/
theorem bulkSave_payloads {V Q R : Type} (m : Marshal V Q R) (zero : V) (scrub : V → V)
    (mk : Q → Msg) (call : Call) (msg : String) (decoded : List V × Option GoError)
    (opened : Except GoError (SaveStream Q R)) (sched : List Bool) (p : Payload V)
    (h : p ∈ body (bulkSave m zero scrub mk call msg decoded opened sched)) :
    (∃ v, p = .error v) ∨
    ∃ stream, opened = .ok stream ∧
      p = .envelope { Msg := msg, Num := stream.items.length,
                      Data := some (stream.items.map (fun x => scrub (m.FromResponse zero x).1)) } := by
  rw [mem_body] at h
  have herr : ∀ err : GoError, Effect.encode p ∈ (RespondWithError err : List (Effect V)) →
      ∃ v, p = .error v := by
    intro err he
    rcases mem_respondWithError err _ he with he | ⟨_, he⟩ | ⟨v, he⟩
    · cases he
    · cases he
    · exact ⟨v, by injection he⟩
  have hfin : ∀ fin : Option GoError, Effect.encode p ∈ (finEffects fin : List (Effect V)) →
      ∃ v, p = .error v := by
    intro fin he
    rcases mem_finEffects fin _ he with ⟨_, he⟩ | ⟨_, he⟩ | ⟨v, he⟩
    · cases he
    · cases he
    · exact ⟨v, by injection he⟩
  unfold bulkSave at h
  rcases decoded with ⟨vals, _ | derr⟩
  · simp only [List.mem_cons] at h
    rcases h with h | h
    · cases h
    · cases opened with
      | error err => exact Or.inl (herr err h)
      | ok stream =>
        simp only [drainAll_eq] at h
        have hsends : Effect.encode p ∉ (sendAll m.ToRequest mk stream.send 0 vals).1 := by
          intro hs
          obtain ⟨_, hs⟩ := sendAll_sends m.ToRequest mk stream.send 0 vals _ hs
          cases hs
        rcases hsa : sendAll m.ToRequest mk stream.send 0 vals with ⟨sends, _ | serr⟩
        · rw [hsa] at h hsends
          cases hc : stream.closeSend with
          | none =>
            rw [hc] at h
            simp only [List.mem_append, mem_interleave, List.mem_cons, List.mem_singleton,
              List.not_mem_nil, or_false] at h
            rcases h with ((h | h) | h) | h | h
            · exact absurd h hsends
            · cases h
            · exact Or.inl (hfin _ h)
            · cases h
            · refine Or.inr ⟨stream, rfl, ?_⟩
              injection h with h
              rw [h]
              simp
          | some cerr =>
            rw [hc] at h
            simp only [List.mem_append, mem_interleave, List.mem_cons] at h
            rcases h with (h | h | h) | h
            · exact absurd h hsends
            · cases h
            · exact Or.inl (herr _ h)
            · exact Or.inl (hfin _ h)
        · rw [hsa] at h hsends
          simp only [List.mem_append, mem_interleave] at h
          rcases h with (h | h) | h
          · exact absurd h hsends
          · exact Or.inl (herr _ h)
          · exact Or.inl (hfin _ h)
  · exact Or.inl (herr derr h)

/-- The body values of a save by id: error objects and the envelope of the last
acknowledgement. -/
theorem saveByID_payloads {V Q R : Type} (m : Marshal V Q R) (zero : V) (scrub : V → V)
    (setID : V → Int → V) (mk : Q → Msg) (call : Call) (msg : String) (idText : String)
    (decoded : V × Option GoError) (opened : Except GoError (SaveStream Q R))
    (sched : List Bool) (p : Payload V)
    (h : p ∈ body (saveByID m zero scrub setID mk call msg idText decoded opened sched)) :
    (∃ v, p = .error v) ∨
    ∃ stream, opened = .ok stream ∧
      p = .envelope { Msg := msg, Num := 1,
                      Val := some (stream.items.foldl
                        (fun val x => scrub (m.FromResponse val x).1) zero) } := by
  rw [mem_body] at h
  have herr : ∀ err : GoError, Effect.encode p ∈ (RespondWithError err : List (Effect V)) →
      ∃ v, p = .error v := by
    intro err he
    rcases mem_respondWithError err _ he with he | ⟨_, he⟩ | ⟨v, he⟩
    · cases he
    · cases he
    · exact ⟨v, by injection he⟩
  have hfin : ∀ fin : Option GoError, Effect.encode p ∈ (finEffects fin : List (Effect V)) →
      ∃ v, p = .error v := by
    intro fin he
    rcases mem_finEffects fin _ he with ⟨_, he⟩ | ⟨_, he⟩ | ⟨v, he⟩
    · cases he
    · cases he
    · exact ⟨v, by injection he⟩
  unfold saveByID at h
  cases hid : ParseInt idText with
  | none =>
    rw [hid] at h
    exact Or.inl (herr _ h)
  | some id =>
    rw [hid] at h
    rcases decoded with ⟨v, _ | derr⟩
    · simp only [List.mem_cons] at h
      rcases h with h | h
      · cases h
      · cases opened with
        | error err => exact Or.inl (herr err h)
        | ok stream =>
          simp only [drainLast_eq] at h
          cases hs : stream.send 0 (m.ToRequest (setID v id)) with
          | some serr =>
            rw [hs] at h
            simp only [mem_interleave, List.mem_cons] at h
            rcases h with (h | h) | h
            · cases h
            · exact Or.inl (herr _ h)
            · exact Or.inl (hfin _ h)
          | none =>
            rw [hs] at h
            cases hc : stream.closeSend with
            | some cerr =>
              rw [hc] at h
              simp only [mem_interleave, List.mem_cons] at h
              rcases h with (h | h | h) | h
              · cases h
              · cases h
              · exact Or.inl (herr _ h)
              · exact Or.inl (hfin _ h)
            | none =>
              rw [hc] at h
              simp only [List.mem_append, mem_interleave, List.mem_cons, List.mem_singleton,
                List.not_mem_nil, or_false] at h
              rcases h with ((h | h) | h) | h | h
              · cases h
              · cases h
              · exact Or.inl (hfin _ h)
              · cases h
              · refine Or.inr ⟨stream, rfl, ?_⟩
                injection h
    · exact Or.inl (herr derr h)

theorem foldl_scrub_pass (F : User → UserResponse → User × Option GoError)
    (items : List UserResponse) (val : User) (hval : val.Pass = "") :
    (items.foldl (fun val x => ({ (F val x).1 with Pass := "" } : User)) val).Pass = "" := by
  induction items generalizing val with
  | nil => exact hval
  | cons x rest ih => exact ih _ rfl

/-- C21: for the user handlers `GetUsers`, `GetUserByID`, `PostUsers` and
`PutUserByID`, whatever the request, the backend, the marshaling, the decoder and
the schedule are, every user record written to the response body (element of an
array, single object, data element or value of an envelope) has an empty `Pass`.
For the backend `Sample.store`, whose records carry the secrets `secret` and
`hidden`, the list is written without them. -/
theorem user_handlers_scrub_pass (s : Server) (d : Dauth) (j : Json) (sched : List Bool)
    (r : Request) :
    Scrubbed (GetUsers s d r) ∧
    Scrubbed (GetUserByID s d r) ∧
    Scrubbed (PostUsers s d j sched r) ∧
    Scrubbed (PutUserByID s d j sched r) ∧
    body (GetUsers { Auth := Sample.store } Sample.dauth Sample.request) =
      [.array [{ ID := 1, User := "test", Pass := "" }, { ID := 2, User := "other", Pass := "" }]] := by
  refine ⟨?_, ?_, ?_, ?_, by decide⟩
  · unfold GetUsers
    rcases fromQuery d.user {} r with ⟨q, _ | err⟩
    · dsimp only
      apply scrubbed_rpc
      cases s.Auth.GetUsers (d.user.ToRequest q) with
      | error err => exact scrubbed_respondWithError err
      | ok stream => exact scrubbed_recvAll _ _ _ _ _ (fun u hu => absurd hu (List.not_mem_nil u))
    · exact scrubbed_respondWithError err
  · unfold GetUserByID
    cases ParseInt (r.Var "id") with
    | none => exact scrubbed_respondWithError _
    | some id =>
      dsimp only
      apply scrubbed_rpc
      cases s.Auth.GetUsers { ID := id } with
      | error err => exact scrubbed_respondWithError err
      | ok stream => exact scrubbed_recvLast _ _ _ _ _ (fun u hu => by cases hu)
  · intro p hp u hu
    rcases bulkSave_payloads _ _ _ _ _ _ _ _ _ p hp with ⟨v, hv⟩ | ⟨stream, _, hv⟩
    · subst hv
      simp [Payload.users] at hu
    · subst hv
      simp only [Payload.users, Option.toList, Option.getD, List.nil_append, List.mem_map] at hu
      obtain ⟨x, _, hx⟩ := hu
      rw [← hx]
  · intro p hp u hu
    rcases saveByID_payloads _ _ _ _ _ _ _ _ _ _ _ p hp with ⟨v, hv⟩ | ⟨stream, _, hv⟩
    · subst hv
      simp [Payload.users] at hu
    · subst hv
      simp only [Payload.users, Option.toList, Option.getD, List.append_nil,
        List.mem_singleton] at hu
      subst hu
      exact foldl_scrub_pass _ _ _ rfl

/-! ## The `Content-Type` of the responses -/

theorem headersSet_eq_nil_iff {V : Type} (t : List (Effect V)) :
    headersSet t = [] ↔ ∀ e ∈ t, e.headerSet = none := by
  unfold headersSet
  exact List.filterMap_eq_nil_iff

theorem headersSet_append {V : Type} (xs ys : List (Effect V)) :
    headersSet (xs ++ ys) = headersSet xs ++ headersSet ys := by
  simp [headersSet]

theorem headersSet_rpc {V : Type} (c : Call) (t : List (Effect V)) :
    headersSet (.rpc c :: t) = headersSet t := rfl

theorem headersSet_interleave {V : Type} (sched : List Bool) (xs ys : List (Effect V))
    (hx : headersSet xs = []) (hy : headersSet ys = []) :
    headersSet (interleave sched xs ys) = [] := by
  rw [headersSet_eq_nil_iff] at hx hy ⊢
  intro e he
  rcases (mem_interleave sched xs ys e).1 he with h | h
  · exact hx e h
  · exact hy e h

theorem headersSet_finEffects {V : Type} (fin : Option GoError) :
    headersSet (finEffects fin : List (Effect V)) = [] := by
  cases fin with
  | none => rfl
  | some err => exact headersSet_respondWithError err

theorem headersSet_sendAll {V Q : Type} (ToRequest : V → Q) (mk : Q → Msg)
    (send : Nat → Q → Option GoError) (n : Nat) (vals : List V) :
    headersSet (sendAll ToRequest mk send n vals).1 = [] := by
  rw [headersSet_eq_nil_iff]
  intro e he
  obtain ⟨_, h⟩ := sendAll_sends ToRequest mk send n vals e he
  rw [h]
  rfl

theorem headersSet_recvAll {V R : Type} (F : V → R → V × Option GoError) (zero : V)
    (scrub : V → V) (items : List R) (fin : Option GoError) (data : List V) :
    headersSet (recvAll F zero scrub items fin data) = [] := by
  induction items generalizing data with
  | nil =>
    cases fin with
    | none =>
      unfold recvAll
      by_cases hlen : data.length = 0
      · simp only [hlen, if_true]
        exact headersSet_respondWithError _
      · simp only [hlen, if_false]
        rfl
    | some err =>
      unfold recvAll
      exact headersSet_respondWithError err
  | cons x rest ih =>
    unfold recvAll
    rcases F zero x with ⟨v, _ | err⟩
    · exact ih _
    · exact headersSet_respondWithError err

theorem headersSet_recvLast {V R : Type} (F : V → R → V × Option GoError) (zero : V)
    (scrub : V → V) (items : List R) (fin : Option GoError) (last : Option V) :
    headersSet (recvLast F zero scrub items fin last) = [] := by
  induction items generalizing last with
  | nil =>
    cases fin with
    | none =>
      cases last with
      | none =>
        unfold recvLast
        exact headersSet_respondWithError _
      | some v =>
        unfold recvLast
        rfl
    | some err =>
      unfold recvLast
      exact headersSet_respondWithError err
  | cons x rest ih =>
    unfold recvLast
    rcases F zero x with ⟨v, _ | err⟩
    · exact ih _
    · exact headersSet_respondWithError err

theorem headersSet_bulkSave {V Q R : Type} (m : Marshal V Q R) (zero : V) (scrub : V → V)
    (mk : Q → Msg) (call : Call) (msg : String) (decoded : List V × Option GoError)
    (opened : Except GoError (SaveStream Q R)) (sched : List Bool) :
    headersSet (bulkSave m zero scrub mk call msg decoded opened sched) = [] := by
  unfold bulkSave
  rcases decoded with ⟨vals, _ | derr⟩
  · dsimp only
    rw [headersSet_rpc]
    cases opened with
    | error err => exact headersSet_respondWithError err
    | ok stream =>
      simp only [drainAll_eq]
      have hall := headersSet_sendAll m.ToRequest mk stream.send 0 vals
      rcases hsa : sendAll m.ToRequest mk stream.send 0 vals with ⟨sends, _ | serr⟩
      · have hsends : headersSet sends = [] := by rwa [hsa] at hall
        dsimp only
        cases stream.closeSend with
        | none =>
          dsimp only
          rw [headersSet_append, headersSet_interleave]
          · rfl
          · rw [headersSet_append, hsends]
            rfl
          · exact headersSet_finEffects _
        | some cerr =>
          dsimp only
          apply headersSet_interleave
          · rw [headersSet_append, hsends]
            exact headersSet_respondWithError cerr
          · exact headersSet_finEffects _
      · have hsends : headersSet sends = [] := by rwa [hsa] at hall
        dsimp only
        apply headersSet_interleave
        · rw [headersSet_append, hsends]
          exact headersSet_respondWithError serr
        · exact headersSet_finEffects _
  · exact headersSet_respondWithError derr

theorem headersSet_saveByID {V Q R : Type} (m : Marshal V Q R) (zero : V) (scrub : V → V)
    (setID : V → Int → V) (mk : Q → Msg) (call : Call) (msg : String) (idText : String)
    (decoded : V × Option GoError) (opened : Except GoError (SaveStream Q R))
    (sched : List Bool) :
    headersSet (saveByID m zero scrub setID mk call msg idText decoded opened sched) = [] := by
  unfold saveByID
  cases ParseInt idText with
  | none => exact headersSet_respondWithError _
  | some id =>
    rcases decoded with ⟨v, _ | derr⟩
    · dsimp only
      rw [headersSet_rpc]
      cases opened with
      | error err => exact headersSet_respondWithError err
      | ok stream =>
        simp only [drainLast_eq]
        cases stream.send 0 (m.ToRequest (setID v id)) with
        | some serr =>
          dsimp only
          apply headersSet_interleave
          · exact headersSet_respondWithError serr
          · exact headersSet_finEffects _
        | none =>
          dsimp only
          cases stream.closeSend with
          | some cerr =>
            dsimp only
            apply headersSet_interleave
            · exact headersSet_respondWithError cerr
            · exact headersSet_finEffects _
          | none =>
            dsimp only
            rw [headersSet_append, headersSet_interleave]
            · rfl
            · rfl
            · exact headersSet_finEffects _
    · exact headersSet_respondWithError derr

theorem headersSet_deleteReply {V : Type} (msg : String)
    (reply : Except GoError DeleteResponse) :
    headersSet (deleteReply msg reply : List (Effect V)) = [] := by
  unfold deleteReply
  cases reply with
  | error err => exact headersSet_respondWithError err
  | ok dres =>
    dsimp only
    split
    · exact headersSet_respondWithError _
    · rfl

theorem headersSet_deleteFilter {V Q R : Type} (m : Marshal V Q R) (call : Q → Call)
    (msg : String) (decoded : V × Option GoError) (del : Q → Except GoError DeleteResponse) :
    headersSet (deleteFilter m call msg decoded del) = [] := by
  unfold deleteFilter
  rcases decoded with ⟨q, _ | derr⟩
  · exact headersSet_deleteReply _ _
  · exact headersSet_respondWithError derr

theorem headersSet_deleteByID {V Q : Type} (mkReq : Int → Q) (call : Q → Call) (msg : String)
    (idText : String) (del : Q → Except GoError DeleteResponse) :
    headersSet (deleteByID mkReq call msg idText del : List (Effect V)) = [] := by
  unfold deleteByID
  cases ParseInt idText with
  | none => exact headersSet_respondWithError _
  | some id => exact headersSet_deleteReply _ _
theorem contentTypeAt_of_no_header {V : Type} (cur : Option String) (t : List (Effect V))
    (h : headersSet t = []) : contentTypeAt cur t = cur := by
  induction t with
  | nil => rfl
  | cons e t ih =>
    cases e with
    | setHeader key value => simp [headersSet, Effect.headerSet] at h
    | rpc c => exact ih h
    | log err => exact ih h
    | serve => exact ih h
    | send m => exact ih h
    | closeSend => exact ih h
    | writeHeader code => rfl
    | encode p => rfl
    | serveFile path => rfl

theorem contentTypeAt_rpcs {V : Type} (cur : Option String) (n : Nat) (c : Call)
    (t : List (Effect V)) :
    contentTypeAt cur (List.replicate n (.rpc c) ++ t) = contentTypeAt cur t := by
  induction n with
  | zero => simp
  | succ n ih =>
    simp only [List.replicate_succ, List.cons_append]
    exact ih

theorem contentType_respondWithError {V : Type} (err : GoError) :
    contentType (RespondWithError err : List (Effect V)) = none :=
  contentTypeAt_of_no_header none _ (headersSet_respondWithError err)

theorem contentTypeAt_getDocs (stat : String → Bool) (r : Request) (cur : Option String) :
    contentTypeAt cur (GetDocs stat r) = some "text/html; charset=UTF-8" := by
  unfold GetDocs
  simp only [contentTypeAt, if_true]
  exact contentTypeAt_of_no_header _ _ (by
    by_cases h1 : stat "docs/docs.html" <;> by_cases h2 : stat "../docs/docs.html" <;>
      simp [h1, h2, headersSet, Effect.headerSet, respondNotFound_eq])

theorem contentTypeAt_getIcon (stat : String → Bool) (r : Request) (cur : Option String) :
    contentTypeAt cur (GetIcon stat r) = some "image/x-icon" := by
  unfold GetIcon
  simp only [contentTypeAt, if_true]
  exact contentTypeAt_of_no_header _ _ (by
    by_cases h1 : stat "docs/favicon.ico" <;> by_cases h2 : stat "../docs/favicon.ico" <;>
      simp [h1, h2, headersSet, Effect.headerSet, respondNotFound_eq])


theorem headersSet_getTokens (s : Server) (d : Dauth) (r : Request) :
    headersSet (GetTokens s d r) = [] := by
  unfold GetTokens
  rcases fromQuery d.token {} r with ⟨q, _ | err⟩
  · dsimp only
    rw [headersSet_rpc]
    cases s.Auth.GetTokens (d.token.ToRequest q) with
    | error err => exact headersSet_respondWithError err
    | ok stream => exact headersSet_recvAll _ _ _ _ _ _
  · exact headersSet_respondWithError err

theorem headersSet_getTokenByID (s : Server) (d : Dauth) (r : Request) :
    headersSet (GetTokenByID s d r) = [] := by
  unfold GetTokenByID
  cases ParseInt (r.Var "id") with
  | none => exact headersSet_respondWithError _
  | some id =>
    dsimp only
    rw [headersSet_rpc]
    cases s.Auth.GetTokens { ID := id } with
    | error err => exact headersSet_respondWithError err
    | ok stream => exact headersSet_recvLast _ _ _ _ _ _


theorem headersSet_getUsers (s : Server) (d : Dauth) (r : Request) :
    headersSet (GetUsers s d r) = [] := by
  unfold GetUsers
  rcases fromQuery d.user {} r with ⟨q, _ | err⟩
  · dsimp only
    rw [headersSet_rpc]
    cases s.Auth.GetUsers (d.user.ToRequest q) with
    | error err => exact headersSet_respondWithError err
    | ok stream => exact headersSet_recvAll _ _ _ _ _ _
  · exact headersSet_respondWithError err

theorem headersSet_getUserByID (s : Server) (d : Dauth) (r : Request) :
    headersSet (GetUserByID s d r) = [] := by
  unfold GetUserByID
  cases ParseInt (r.Var "id") with
  | none => exact headersSet_respondWithError _
  | some id =>
    dsimp only
    rw [headersSet_rpc]
    cases s.Auth.GetUsers { ID := id } with
    | error err => exact headersSet_respondWithError err
    | ok stream => exact headersSet_recvLast _ _ _ _ _ _


theorem headersSet_getPerms (s : Server) (d : Dauth) (r : Request) :
    headersSet (GetPerms s d r) = [] := by
  unfold GetPerms
  rcases fromQuery d.perm {} r with ⟨q, _ | err⟩
  · dsimp only
    rw [headersSet_rpc]
    cases s.Auth.GetPerms (d.perm.ToRequest q) with
    | error err => exact headersSet_respondWithError err
    | ok stream => exact headersSet_recvAll _ _ _ _ _ _
  · exact headersSet_respondWithError err

theorem headersSet_getPermByID (s : Server) (d : Dauth) (r : Request) :
    headersSet (GetPermByID s d r) = [] := by
  unfold GetPermByID
  cases ParseInt (r.Var "id") with
  | none => exact headersSet_respondWithError _
  | some id =>
    dsimp only
    rw [headersSet_rpc]
    cases s.Auth.GetPerms { ID := id } with
    | error err => exact headersSet_respondWithError err
    | ok stream => exact headersSet_recvLast _ _ _ _ _ _


theorem headersSet_getUserPerms (s : Server) (d : Dauth) (r : Request) :
    headersSet (GetUserPerms s d r) = [] := by
  unfold GetUserPerms
  rcases fromQuery d.userPerm {} r with ⟨q, _ | err⟩
  · dsimp only
    rw [headersSet_rpc]
    cases s.Auth.GetUserPerms (d.userPerm.ToRequest q) with
    | error err => exact headersSet_respondWithError err
    | ok stream => exact headersSet_recvAll _ _ _ _ _ _
  · exact headersSet_respondWithError err

theorem headersSet_getUserPermByID (s : Server) (d : Dauth) (r : Request) :
    headersSet (GetUserPermByID s d r) = [] := by
  unfold GetUserPermByID
  cases ParseInt (r.Var "id") with
  | none => exact headersSet_respondWithError _
  | some id =>
    dsimp only
    rw [headersSet_rpc]
    cases s.Auth.GetUserPerms { ID := id } with
    | error err => exact headersSet_respondWithError err
    | ok stream => exact headersSet_recvLast _ _ _ _ _ _


theorem headersSet_deleteTokensOld (s : Server) (midnight : Int) (r : Request) :
    headersSet (DeleteTokensOld s midnight r) = [] := by
  unfold DeleteTokensOld
  cases ParseInt (r.Var "age") with
  | none => exact headersSet_respondWithError _
  | some age => exact headersSet_deleteReply _ _

theorem headersSet_authenticate (s : Server) (d : Dauth) (nilUser : User × Option GoError)
    (r : Request) : headersSet (Authenticate s d nilUser r) = [] := by
  unfold Authenticate
  dsimp only
  rw [headersSet_rpcs]
  generalize (CheckAuth s (Authenticate.req r)).sends = sends
  induction sends with
  | nil => exact headersSet_respondWithError _
  | cons ar rest ih =>
    unfold Authenticate.recv
    cases ar.Err with
    | some err => exact headersSet_respondWithError err
    | none =>
      dsimp only
      cases ar.Val with
      | none => exact ih
      | some v =>
        dsimp only
        cases v.User with
        | some user =>
          dsimp only
          rcases d.user.FromResponse {} user with ⟨u, _ | err⟩
          · rfl
          · exact headersSet_respondWithError err
        | none =>
          dsimp only
          rcases nilUser with ⟨u, _ | err⟩
          · rfl
          · exact headersSet_respondWithError err

theorem headersSet_login (s : Server) (d : Dauth) (j : Json) (r : Request) :
    headersSet (Login s d j r) = [] := by
  unfold Login
  rcases j.user.Decode r.Body with ⟨u, _ | err⟩
  · dsimp only
    rw [headersSet_rpc]
    cases s.Auth.Login (d.user.ToRequest u) with
    | error err => exact headersSet_respondWithError err
    | ok res =>
      dsimp only
      rcases d.token.FromResponse {} res with ⟨t, _ | err⟩
      · rfl
      · exact headersSet_respondWithError err
  · exact headersSet_respondWithError err

theorem headersSet_logout (s : Server) (d : Dauth) (j : Json) (r : Request) :
    headersSet (Logout s d j r) = [] := by
  unfold Logout
  rcases j.token.Decode r.Body with ⟨u, _ | err⟩
  · dsimp only
    rw [headersSet_rpc]
    cases s.Auth.Logout (d.token.ToRequest u) with
    | error err => exact headersSet_respondWithError err
    | ok res =>
      dsimp only
      rcases d.token.FromResponse {} res with ⟨t, _ | err⟩
      · rfl
      · exact headersSet_respondWithError err
  · exact headersSet_respondWithError err

/-- The `Content-Type` with which the handler of a route of the table starts to
write, when it runs after the header stage: the one of the header stage, except
for the docs and icon routes, which replace it. -/
theorem route_content_type (s : Server) (w : Deps) (r : Request) :
    ∀ route ∈ GetRoutes s w,
      contentTypeAt (some jsonType) (route.HandlerFunc r) =
        if route.Name = "docs" then some "text/html; charset=UTF-8"
        else if route.Name = "icon" then some "image/x-icon"
        else some jsonType := by
  intro route h
  simp only [GetRoutes, List.mem_cons, List.mem_singleton, List.not_mem_nil, or_false] at h
  rcases h with h | h | h | h | h | h | h | h | h | h | h | h | h | h | h | h | h | h | h |
    h | h | h | h | h | h | h | h | h | h | h | h | h <;> subst h <;> dsimp only <;>
    first
      | exact contentTypeAt_getDocs _ _ _
      | exact contentTypeAt_getIcon _ _ _
      | (refine (contentTypeAt_of_no_header _ _ ?_).trans (by simp)
         first
           | rfl
           | exact headersSet_getTokens _ _ _
           | exact headersSet_getUsers _ _ _
           | exact headersSet_getPerms _ _ _
           | exact headersSet_getUserPerms _ _ _
           | exact headersSet_getTokenByID _ _ _
           | exact headersSet_getUserByID _ _ _
           | exact headersSet_getPermByID _ _ _
           | exact headersSet_getUserPermByID _ _ _
           | exact headersSet_bulkSave _ _ _ _ _ _ _ _ _
           | exact headersSet_saveByID _ _ _ _ _ _ _ _ _ _ _
           | exact headersSet_deleteFilter _ _ _ _ _
           | exact headersSet_deleteByID _ _ _ _ _
           | exact headersSet_deleteTokensOld _ _ _
           | exact headersSet_authenticate _ _ _ _
           | exact headersSet_login _ _ _ _
           | exact headersSet_logout _ _ _ _)

/-- C24 as stated fails: the 404 written by the catch-all handler of the router
and the 401 written by the entry of the router for the protected route
`GET /dauth/users`, for a request without the `Token` header, are written with no
`Content-Type` set by the server. -/
theorem router_content_type_counterexample :
    status ((InitRouter { Auth := Sample.store } Sample.deps).NotFoundHandler
      { Path := "/nowhere" }) = some 404 ∧
    contentType ((InitRouter { Auth := Sample.store } Sample.deps).NotFoundHandler
      { Path := "/nowhere" }) = none ∧
    ((InitRouter { Auth := Sample.store } Sample.deps).routes[11]?).map
        (fun e => (e.Method, e.Path, e.Name)) = some ("GET", "/dauth/users", "GetUsers") ∧
    ((InitRouter { Auth := Sample.store } Sample.deps).routes[11]?).map
        (fun e => status (e.Handler Sample.anonymous)) = some (some 401) ∧
    ((InitRouter { Auth := Sample.store } Sample.deps).routes[11]?).map
        (fun e => contentType (e.Handler Sample.anonymous)) = some none ∧
    ¬ ((InitRouter { Auth := Sample.store } Sample.deps).routes[11]?).map
        (fun e => contentType (e.Handler Sample.anonymous)) = some (some jsonType) := by
  refine ⟨rfl, rfl, rfl, rfl, rfl, by decide⟩

/-- C24, amended: through the router built by `InitRouter`, which has one entry
for each route of the table, every response written by the handler of a route
carries `Content-Type` `application/json; charset=UTF-8`, except on the docs and
icon routes, whose handlers replace it by `text/html; charset=UTF-8` and
`image/x-icon`. A response written by the authorization stage of a protected
route (the route's handler does not run) and the 404 written by the catch-all
not-found handler are written with no `Content-Type` set by the server. -/
theorem router_content_type (s : Server) (w : Deps) (r : Request) :
    (InitRouter s w).routes.length = (GetRoutes s w).length ∧
    (∀ (i : Nat) (route : Route) (e : Entry), (GetRoutes s w)[i]? = some route →
      (InitRouter s w).routes[i]? = some e →
      contentType (e.Handler r) =
        if route.Auth = true ∧ served (e.Handler r) = false then none
        else if route.Name = "docs" then some "text/html; charset=UTF-8"
        else if route.Name = "icon" then some "image/x-icon"
        else some jsonType) ∧
    contentType ((InitRouter s w).NotFoundHandler r) = none := by
  refine ⟨initRouter_length s w, ?_, contentType_respondWithError _⟩
  intro i route e hr he
  have hmem : route ∈ GetRoutes s w := List.getElem?_mem hr
  rw [initRouter_entry s w i route e hr he]
  show contentType (InitRouter.handler s w.dauth route r) =
    if route.Auth = true ∧ served (InitRouter.handler s w.dauth route r) = false then none
    else if route.Name = "docs" then some "text/html; charset=UTF-8"
    else if route.Name = "icon" then some "image/x-icon"
    else some jsonType
  have hroute := route_content_type s w r route hmem
  cases hauth : route.Auth with
  | false =>
    have heq : InitRouter.handler s w.dauth route = Header route.HandlerFunc := by
      simp [InitRouter.handler, hauth]
    rw [heq]
    simp only [Bool.false_eq_true, false_and, if_false]
    exact hroute
  | true =>
    have heq : InitRouter.handler s w.dauth route =
        AuthHandler s w.dauth (Header route.HandlerFunc)
          { Service := route.Service, Name := route.Name } := by
      simp [InitRouter.handler, hauth]
    rw [heq]
    rcases authHandler_trace s w.dauth (Header route.HandlerFunc)
      { Service := route.Service, Name := route.Name } r with ⟨n, err, h⟩ | ⟨n, h⟩
    · rw [h]
      have hserved : served (List.replicate n
          (Effect.rpc (.Auth (AuthHandler.areq w.dauth
            { Service := route.Service, Name := route.Name } r))) ++
          (RespondWithError err : List (Effect route.V))) = false := by
        rw [served_rpcs, served_respondWithError]
      simp only [hserved, and_self, if_true]
      unfold contentType
      rw [contentTypeAt_rpcs]
      exact contentType_respondWithError err
    · rw [h]
      have hserved : served (List.replicate n
          (Effect.rpc (.Auth (AuthHandler.areq w.dauth
            { Service := route.Service, Name := route.Name } r))) ++
          (.serve :: Header route.HandlerFunc r : List (Effect route.V))) = true := by
        rw [served_rpcs]
        rfl
      simp only [hserved, Bool.true_eq_false, and_false, if_false]
      unfold contentType
      rw [contentTypeAt_rpcs]
      exact hroute

/-! ## The two tasks of a save handler -/

theorem Tasks.inv_acc {A R : Type} {add : A → R → A} {items : List R} {acc : A}
    {st : Tasks A R} (h : Tasks.Inv add items acc st) (hd : st.done = true) :
    st.acc = items.foldl add acc := by
  obtain ⟨pre, hpre, hacc⟩ := h.received
  rw [h.drained hd, List.append_nil] at hpre
  rw [hacc, hpre]

theorem Tasks.inv_init {A R : Type} (add : A → R → A) (calls : List Bool) (items : List R)
    (acc : A) : Tasks.Inv add items acc (Tasks.init calls items acc) where
  received := ⟨[], rfl, rfl⟩
  drained := fun h => by simp [Tasks.init] at h
  read := fun a h => by simp [Tasks.init] at h
  built := fun a1 a2 h => by simp [Tasks.init] at h
  quiet := rfl

theorem Tasks.inv_sender {A R : Type} {add : A → R → A} {items : List R} {acc : A}
    {st : Tasks A R} (h : Tasks.Inv add items acc st) : Tasks.Inv add items acc st.sender := by
  unfold Tasks.sender
  cases hp : st.phase with
  | finished => exact h
  | reading =>
    refine ⟨h.received, h.drained, h.read, ?_, h.quiet⟩
    intro a1 a2 hb
    cases hf : st.first with
    | none => simp [hf] at hb
    | some a =>
      simp only [hf, Option.map_some', Option.some.injEq, Prod.mk.injEq] at hb
      obtain ⟨hd, ha⟩ := h.read a hf
      exact ⟨hd, by rw [← hb.1, ha], by rw [← hb.2, Tasks.inv_acc h hd]⟩
  | calling =>
    dsimp only
    cases hc : st.calls with
    | nil =>
      dsimp only
      by_cases hd : st.done = true
      · rw [if_pos hd]
        refine ⟨h.received, h.drained, ?_, h.built, h.quiet⟩
        intro a ha
        simp only [Option.some.injEq] at ha
        exact ⟨hd, by rw [← ha, Tasks.inv_acc h hd]⟩
      · rw [if_neg hd]
        exact h
    | cons b rest =>
      cases b with
      | true => exact ⟨h.received, h.drained, h.read, h.built, h.quiet⟩
      | false => exact ⟨h.received, h.drained, h.read, h.built, h.quiet⟩

theorem Tasks.inv_drainer {A R : Type} {add : A → R → A} {items : List R} {acc : A}
    {st : Tasks A R} (h : Tasks.Inv add items acc st) :
    Tasks.Inv add items acc (st.drainer add) := by
  unfold Tasks.drainer
  by_cases hd : st.done = true
  · rw [if_pos hd]
    exact h
  · rw [if_neg hd]
    have hfirst : st.first = none := by
      cases hf : st.first with
      | none => rfl
      | some a => exact absurd (h.read a hf).1 hd
    have hbuilt : st.built = none := by
      cases hb : st.built with
      | none => rfl
      | some b => exact absurd (h.built b.1 b.2 hb).1 hd
    obtain ⟨pre, hpre, hacc⟩ := h.received
    cases hp : st.pending with
    | nil =>
      dsimp only
      rw [hp] at hpre
      refine ⟨⟨pre, hpre, hacc⟩, fun _ => rfl, ?_, ?_, h.quiet⟩
      · intro a ha
        simp [hfirst] at ha
      · intro a1 a2 hb
        simp [hbuilt] at hb
    | cons x rest =>
      dsimp only
      rw [hp] at hpre
      refine ⟨⟨pre ++ [x], ?_, ?_⟩, ?_, ?_, ?_, ?_⟩
      · rw [hpre]
        simp
      · simp [List.foldl_append, hacc]
      · intro hdone
        exact absurd hdone hd
      · intro a ha
        simp [hfirst] at ha
      · intro a1 a2 hb
        simp [hbuilt] at hb
      · simp [h.quiet, hfirst]

theorem Tasks.inv_run {A R : Type} (add : A → R → A) (items : List R) (acc : A)
    (sched : List Bool) (st : Tasks A R) (h : Tasks.Inv add items acc st) :
    Tasks.Inv add items acc (Tasks.run add sched st) := by
  induction sched generalizing st with
  | nil => exact h
  | cons b sched ih =>
    unfold Tasks.run
    cases b with
    | true => exact ih _ (Tasks.inv_sender h)
    | false => exact ih _ (Tasks.inv_drainer h)
theorem Tasks.run_append {A R : Type} (add : A → R → A) (s1 s2 : List Bool) (st : Tasks A R) :
    Tasks.run add (s1 ++ s2) st = Tasks.run add s2 (Tasks.run add s1 st) := by
  induction s1 generalizing st with
  | nil => rfl
  | cons b s1 ih => exact ih _

theorem Tasks.live_init {A R : Type} (calls : List Bool) (items : List R) (acc : A)
    (h : ∀ b ∈ calls, b = true) : Tasks.Live calls.length (Tasks.init calls items acc) where
  calls := h
  short := Nat.le_refl _
  reading := fun hp => by simp [Tasks.init] at hp
  finished := fun hp => by simp [Tasks.init] at hp

theorem Tasks.live_sender {A R : Type} {n : Nat} {st : Tasks A R} (h : Tasks.Live n st) :
    Tasks.Live n st.sender := by
  unfold Tasks.sender
  cases hp : st.phase with
  | finished => exact h
  | reading =>
    refine ⟨h.calls, h.short, fun hq => by simp at hq, fun _ => ?_⟩
    have hf := h.reading hp
    cases hfirst : st.first with
    | none => simp [hfirst] at hf
    | some a => simp
  | calling =>
    dsimp only
    cases hc : st.calls with
    | nil =>
      dsimp only
      by_cases hd : st.done = true
      · rw [if_pos hd]
        exact ⟨by simp, by simp, fun _ => rfl, fun hq => by simp at hq⟩
      · rw [if_neg hd]
        exact h
    | cons b rest =>
      have hb : b = true := h.calls b (by simp [hc])
      subst hb
      dsimp only
      refine ⟨fun b hb => h.calls b (by simp [hc, hb]), ?_, fun hq => ?_, fun hq => ?_⟩
      · have := h.short
        rw [hc] at this
        exact Nat.le_of_succ_le this
      · simp at hq
      · simp at hq

theorem Tasks.live_drainer {A R : Type} (add : A → R → A) {n : Nat} {st : Tasks A R}
    (h : Tasks.Live n st) : Tasks.Live n (st.drainer add) := by
  unfold Tasks.drainer
  by_cases hd : st.done = true
  · rw [if_pos hd]
    exact h
  · rw [if_neg hd]
    cases st.pending with
    | nil => exact ⟨h.calls, h.short, h.reading, h.finished⟩
    | cons x rest => exact ⟨h.calls, h.short, h.reading, h.finished⟩

theorem Tasks.live_run {A R : Type} (add : A → R → A) (n : Nat) (sched : List Bool)
    (st : Tasks A R) (h : Tasks.Live n st) : Tasks.Live n (Tasks.run add sched st) := by
  induction sched generalizing st with
  | nil => exact h
  | cons b sched ih =>
    unfold Tasks.run
    cases b with
    | true => exact ih _ (Tasks.live_sender h)
    | false => exact ih _ (Tasks.live_drainer add h)

/-- Left alone for more steps than acknowledgements are pending, the draining
task ends. -/
theorem Tasks.drain_done {A R : Type} (add : A → R → A) (n : Nat) (st : Tasks A R)
    (h : st.pending.length < n) : (Tasks.run add (List.replicate n false) st).done = true := by
  induction n generalizing st with
  | zero => exact absurd h (Nat.not_lt_zero _)
  | succ n ih =>
    simp only [List.replicate_succ, Tasks.run, Bool.false_eq_true, if_false]
    by_cases hd : st.done = true
    · have hst : st.drainer add = st := by
        unfold Tasks.drainer
        rw [if_pos hd]
      rw [hst]
      clear ih h
      induction n with
      | zero => exact hd
      | succ n ih2 =>
        simp only [List.replicate_succ, Tasks.run, Bool.false_eq_true, if_false]
        rw [hst]
        exact ih2
    · cases hp : st.pending with
      | nil =>
        have hst : (st.drainer add).done = true := by
          unfold Tasks.drainer
          rw [if_neg hd, hp]
        have hfix : ∀ (k : Nat) (t : Tasks A R), t.done = true →
            (Tasks.run add (List.replicate k false) t).done = true := by
          intro k
          induction k with
          | zero => exact fun t ht => ht
          | succ k ihk =>
            intro t ht
            simp only [List.replicate_succ, Tasks.run, Bool.false_eq_true, if_false]
            have : t.drainer add = t := by
              unfold Tasks.drainer
              rw [if_pos ht]
            rw [this]
            exact ihk t ht
        exact hfix n _ hst
      | cons x rest =>
        apply ih
        have hlen : (st.drainer add).pending = rest := by
          unfold Tasks.drainer
          rw [if_neg hd, hp]
        rw [hlen]
        rw [hp] at h
        simpa using h

/-- Once the draining task has ended, the sending task builds the envelope in the
steps it has left. -/
theorem Tasks.send_built {A R : Type} (add : A → R → A) (n k : Nat) (st : Tasks A R)
    (hlive : Tasks.Live n st) (hd : st.done = true) (hk : st.left ≤ k) :
    (Tasks.run add (List.replicate k true) st).built.isSome = true := by
  induction k generalizing st with
  | zero =>
    have hp : st.phase = .finished := by
      unfold Tasks.left at hk
      cases hph : st.phase with
      | finished => rfl
      | reading => simp [hph] at hk
      | calling => simp [hph] at hk
    exact hlive.finished hp
  | succ k ih =>
    simp only [List.replicate_succ, Tasks.run, if_true]
    apply ih _ (Tasks.live_sender hlive)
    · unfold Tasks.sender
      cases hph : st.phase with
      | finished => exact hd
      | reading => exact hd
      | calling =>
        dsimp only
        cases hc : st.calls with
        | nil =>
          dsimp only
          rw [if_pos hd]
          exact hd
        | cons b rest => cases b <;> exact hd
    · unfold Tasks.left at hk ⊢
      unfold Tasks.sender
      cases hph : st.phase with
      | finished => simp [hph]
      | reading => simp
      | calling =>
        rw [hph] at hk
        dsimp only at hk ⊢
        cases hc : st.calls with
        | nil =>
          dsimp only
          rw [if_pos hd]
          rw [hc] at hk
          simp only [List.length_nil] at hk ⊢
          omega
        | cons b rest =>
          have hb : b = true := hlive.calls b (by simp [hc])
          subst hb
          rw [hc] at hk
          simp only [hph, List.length_cons] at hk ⊢
          omega

/-- Safety of the two tasks, for any accumulation step. -/
theorem Tasks.safe {A R : Type} (add : A → R → A) (sched calls : List Bool) (items : List R)
    (acc : A) :
    (Tasks.run add sched (Tasks.init calls items acc)).raced = false ∧
    ∀ a1 a2, (Tasks.run add sched (Tasks.init calls items acc)).built = some (a1, a2) →
      (Tasks.run add sched (Tasks.init calls items acc)).done = true ∧
      (Tasks.run add sched (Tasks.init calls items acc)).pending = [] ∧
      a1 = items.foldl add acc ∧ a2 = items.foldl add acc := by
  have hinv := Tasks.inv_run add items acc sched _ (Tasks.inv_init add calls items acc)
  refine ⟨hinv.quiet, fun a1 a2 hb => ?_⟩
  obtain ⟨hd, h1, h2⟩ := hinv.built a1 a2 hb
  exact ⟨hd, hinv.drained hd, h1, h2⟩

/-- Progress of the two tasks: from any state they reach, when no call of the
sending task fails, letting the draining task and then the sending task run builds
the envelope. -/
theorem Tasks.progress {A R : Type} (add : A → R → A) (sched calls : List Bool)
    (items : List R) (acc : A) (hcalls : ∀ b ∈ calls, b = true) :
    (Tasks.run add
      (sched ++ List.replicate (items.length + 1) false ++
        List.replicate (calls.length + 2) true)
      (Tasks.init calls items acc)).built.isSome = true := by
  rw [Tasks.run_append, Tasks.run_append]
  have hinv := Tasks.inv_run add items acc sched _ (Tasks.inv_init add calls items acc)
  have hlive := Tasks.live_run add calls.length sched _ (Tasks.live_init calls items acc hcalls)
  have hlen : (Tasks.run add sched (Tasks.init calls items acc)).pending.length <
      items.length + 1 := by
    obtain ⟨pre, hpre, _⟩ := hinv.received
    have := congrArg List.length hpre
    simp only [List.length_append] at this
    omega
  have hdone := Tasks.drain_done add (items.length + 1) _ hlen
  have hlive2 := Tasks.live_run add calls.length (List.replicate (items.length + 1) false) _ hlive
  apply Tasks.send_built add calls.length _ _ hlive2 hdone
  unfold Tasks.left
  have hshort := hlive2.short
  split <;> omega

theorem foldl_addAll {V R : Type} (F : V → R → V × Option GoError) (zero : V) (scrub : V → V)
    (items : List R) (count : Int) (data : List V) :
    items.foldl (addAll F zero scrub) (count, data) =
      (count + items.length, data ++ items.map (fun x => scrub (F zero x).1)) := by
  induction items generalizing count data with
  | nil => simp
  | cons x rest ih =>
    simp only [List.foldl_cons, addAll, ih, List.length_cons, List.map_cons, List.append_assoc,
      List.singleton_append, Nat.cast_add, Nat.cast_one, Prod.mk.injEq, and_true]
    omega

/-- C28: in the bulk-save handlers (accumulator `count` and `data`) and the
save-by-id handlers (accumulator `val`), under every interleaving of the sending
task and the draining task, whatever the outcomes of the `Send` and `CloseSend`
calls and the acknowledgements are: the accumulator is never written after the
sending task has begun to read it for the envelope, and when the envelope is
built the draining task has ended with nothing left to receive and both reads of
the accumulator gave what the draining task leaves behind (`drainAll`,
`drainLast`), the count and the records of all the acknowledgements, or the value
of the last one. When no call of the sending task fails, the envelope is built
once the draining task and then the sending task have run long enough, from any
state the two tasks reach. -/
theorem save_envelope_after_drain {V Q R : Type} (m : Marshal V Q R) (zero : V)
    (scrub : V → V) (fin : Option GoError) (sched calls : List Bool) (items : List R) :
    ((Tasks.run (addAll m.FromResponse zero scrub) sched
        (Tasks.init calls items (0, []))).raced = false ∧
      ∀ a1 a2,
        (Tasks.run (addAll m.FromResponse zero scrub) sched
          (Tasks.init calls items (0, []))).built = some (a1, a2) →
        (Tasks.run (addAll m.FromResponse zero scrub) sched
          (Tasks.init calls items (0, []))).done = true ∧
        (Tasks.run (addAll m.FromResponse zero scrub) sched
          (Tasks.init calls items (0, []))).pending = [] ∧
        a1 = ((drainAll m.FromResponse zero scrub items fin 0 []).count,
              (drainAll m.FromResponse zero scrub items fin 0 []).data) ∧
        a2 = a1) ∧
    ((Tasks.run (addLast m.FromResponse scrub) sched (Tasks.init calls items zero)).raced =
        false ∧
      ∀ a1 a2,
        (Tasks.run (addLast m.FromResponse scrub) sched
          (Tasks.init calls items zero)).built = some (a1, a2) →
        (Tasks.run (addLast m.FromResponse scrub) sched
          (Tasks.init calls items zero)).done = true ∧
        (Tasks.run (addLast m.FromResponse scrub) sched
          (Tasks.init calls items zero)).pending = [] ∧
        a1 = (drainLast m.FromResponse scrub items fin zero).1 ∧
        a2 = a1) ∧
    ((∀ b ∈ calls, b = true) →
      (Tasks.run (addAll m.FromResponse zero scrub)
        (sched ++ List.replicate (items.length + 1) false ++
          List.replicate (calls.length + 2) true)
        (Tasks.init calls items (0, []))).built.isSome = true ∧
      (Tasks.run (addLast m.FromResponse scrub)
        (sched ++ List.replicate (items.length + 1) false ++
          List.replicate (calls.length + 2) true)
        (Tasks.init calls items zero)).built.isSome = true) := by
  have hall := Tasks.safe (addAll m.FromResponse zero scrub) sched calls items (0, [])
  have hlast := Tasks.safe (addLast m.FromResponse scrub) sched calls items zero
  refine ⟨⟨hall.1, fun a1 a2 hb => ?_⟩, ⟨hlast.1, fun a1 a2 hb => ?_⟩, fun hcalls => ⟨?_, ?_⟩⟩
  · obtain ⟨hd, hp, h1, h2⟩ := hall.2 a1 a2 hb
    refine ⟨hd, hp, ?_, by rw [h2, h1]⟩
    rw [h1, foldl_addAll, drainAll_eq]
  · obtain ⟨hd, hp, h1, h2⟩ := hlast.2 a1 a2 hb
    refine ⟨hd, hp, ?_, by rw [h2, h1]⟩
    rw [h1, drainLast_eq]
    rfl
  · exact Tasks.progress _ sched calls items _ hcalls
  · exact Tasks.progress _ sched calls items _ hcalls

/-- Witness of C28: two users are sent and the backend acknowledges one record,
with a secret; the draining task starts after the first `Send`. The envelope is
built, from the count 1 and the acknowledged record without its secret. -/
theorem save_envelope_after_drain_witness :
    (∀ b ∈ [true, true, true], b = true) ∧
    (Tasks.run (addAll Sample.dauth.user.FromResponse {} (fun v => { v with Pass := "" }))
      ([true, false] ++ List.replicate 2 false ++ List.replicate 5 true)
      (Tasks.init [true, true, true]
        [({ ID := 1, User := "test", Pass := "secret" } : UserResponse)] (0, []))).built.isSome =
      true ∧
    (Tasks.run (addAll Sample.dauth.user.FromResponse {} (fun v => { v with Pass := "" }))
      ([true, false] ++ List.replicate 2 false ++ List.replicate 5 true)
      (Tasks.init [true, true, true]
        [({ ID := 1, User := "test", Pass := "secret" } : UserResponse)] (0, []))).built =
      some ((1, [{ ID := 1, User := "test", Pass := "" }]),
            (1, [{ ID := 1, User := "test", Pass := "" }])) :=
  ⟨by decide,
   ((save_envelope_after_drain Sample.dauth.user {} (fun v => { v with Pass := "" }) none
      [true, false] [true, true, true]
      [({ ID := 1, User := "test", Pass := "secret" } : UserResponse)]).2.2 (by decide)).1,
   by decide⟩

/-! ## The REST client -/

/-- A login that is answered with a status other than 200 and a body that decodes
without error puts one result on the channel, built from the `nil` error of the
decoder, and leaves the token as it was. -/
theorem login_not_ok (h : Http) (rc : RESTClient) (u : User) (res : HttpResponse)
    (e : DlibError)
    (hreq : h.NewRequest "POST" (rc.AuthURL ++ "/login") (h.EncodeUser u) = none)
    (hdo : h.Do "POST" (rc.AuthURL ++ "/login") (h.EncodeUser u) = .ok res)
    (hcode : res.StatusCode ≠ 200) (hdec : h.DecodeError res.Body = (e, none)) :
    RESTClient.Login h rc (some u) = ({ rc with User := some u }, [NewErrorResult none]) := by
  unfold RESTClient.Login
  simp only [hreq, hdo, hcode, hdec, ne_eq, not_false_eq_true, if_true]

/-- C30 (`RESTClient.Login`, `RESTClient.Logout`), evaluated at a failing run: the
endpoint answers 401 with a body that decodes as the standard error
`(401, unauthorized)`. `Login` with a user puts one result on the channel, and
so does `Logout` of a client that holds a token; in both the error slot of the
result is `nil`, so a caller that looks for a result with an error finds none.
The token of the client is left unchanged and no success result is sent. -/
theorem restClient_not_ok_sends_nil_error :
    Sample.rejecting.Do "POST" "https://auth/login" "test" =
      .ok { StatusCode := 401, Body := "unauthorized" } ∧
    Sample.rejecting.DecodeError "unauthorized" =
      ({ Code := 401, Msg := "unauthorized" }, none) ∧
    (RESTClient.Login Sample.rejecting Sample.client
      (some { User := "test", Pass := "test" })).2 = [NewErrorResult none] ∧
    firstErr (RESTClient.Login Sample.rejecting Sample.client
      (some { User := "test", Pass := "test" })).2 = none ∧
    (RESTClient.Login Sample.rejecting Sample.client
      (some { User := "test", Pass := "test" })).1.Token = Sample.client.Token ∧
    (RESTClient.Logout Sample.rejecting Sample.client).2 = [NewErrorResult none] ∧
    firstErr (RESTClient.Logout Sample.rejecting Sample.client).2 = none ∧
    (RESTClient.Logout Sample.rejecting Sample.client).1.Token = Sample.client.Token := by
  refine ⟨rfl, rfl, ?_, ?_, ?_, ?_, ?_, ?_⟩ <;> decide

end Dapi
